import Mathlib

/-!
# libplumraw: heartbeat listener and lightpad event subscriber

A shallow embedding of the two receive loops of `libplumraw`:

* `DefaultLightpadHeartbeat.Listen` (`listener.go`): the UDP loop that reads
  each datagram into a buffer of 1024 bytes and turns `PLUM 8888 <id> <port>`
  texts into `LightpadAnnouncement` values;
* `DefaultLightpad.Subscribe` (`lightpad.go`): the TCP loop that reads one line
  at a time, trims it, decodes it twice with `encoding/json` and sends events
  on `StateChanges`.

Modelling conventions.

* A Go `string` is a `List Char`: the text is taken to be valid UTF-8, so that
  a rune of Go is a `Char` here. Its length in bytes is that of its UTF-8
  encoding (`byteLen`).
* A Go `int` is an `Int` together with the explicit 64-bit range check that
  `strconv` and `encoding/json` perform.
* A Go `error` is an `Option`: `none` is `nil`.
* A goroutine loop is a function over the list of what its environment
  delivers in each iteration (the state of `ctx.Done()` at the `select`, the
  result of the blocking receive), returning the values sent on the channel.
* The library functions the loops call (`strings`, `strconv`,
  `encoding/json`) are modelled as executable functions following the
  documented behaviour of the Go standard library.
-/

namespace Libplumraw

/-! ## `strings` and `strconv` -/

/-- Go `strings.HasPrefix(s, p)`. -/
def HasPrefix (s p : List Char) : Bool :=
  match p, s with
  | [], _ => true
  | _ :: _, [] => false
  | a :: p', b :: s' => a == b && HasPrefix s' p'

/-- Go `strings.HasSuffix(s, p)`. -/
def HasSuffix (s p : List Char) : Bool :=
  HasPrefix s.reverse p.reverse

/-- Go `strings.Split(s, sep)` for a one-character separator: the pieces between
consecutive separators, `Count(s, sep) + 1` of them, empty pieces included. -/
def Split (s : List Char) (sep : Char) : List (List Char) :=
  match s with
  | [] => [[]]
  | c :: cs =>
    if c = sep then [] :: Split cs sep
    else
      match Split cs sep with
      | [] => [[c]]
      | t :: ts => (c :: t) :: ts

/-- Go `unicode.IsSpace`: the characters with the Unicode White_Space property. -/
def IsSpace (c : Char) : Bool :=
  let n := c.toNat
  (9 ≤ n && n ≤ 13) || n = 32 || n = 0x85 || n = 0xA0 || n = 0x1680 ||
  (0x2000 ≤ n && n ≤ 0x200A) || n = 0x2028 || n = 0x2029 || n = 0x202F ||
  n = 0x205F || n = 0x3000

/-- Go `strings.TrimSpace`: drops leading and trailing white space. -/
def TrimSpace (s : List Char) : List Char :=
  ((s.dropWhile IsSpace).reverse.dropWhile IsSpace).reverse

/-- Go `strings.TrimSuffix(s, suffix)`: `s` without one trailing `suffix`, or
`s` itself when it does not end with `suffix`. -/
def TrimSuffix (s suffix : List Char) : List Char :=
  if HasSuffix s suffix then s.take (s.length - suffix.length) else s

/-- Value of a decimal digit character, `none` for any other character. -/
def digitVal (c : Char) : Option Nat :=
  if 48 ≤ c.toNat ∧ c.toNat ≤ 57 then some (c.toNat - 48) else none

/-- The digit loop of `strconv.ParseUint` in base 10: `acc*10 + d` for each
character, failing at the first character that is no decimal digit. -/
def parseDigitsFrom (acc : Nat) : List Char → Option Nat
  | [] => some acc
  | c :: cs =>
    match digitVal c with
    | none => none
    | some d => parseDigitsFrom (acc * 10 + d) cs

/-- A non-empty string of decimal digits read as a natural number. -/
def parseDigits (s : List Char) : Option Nat :=
  match s with
  | [] => none
  | _ :: _ => parseDigitsFrom 0 s

/-- Go `strconv.Atoi` on a 64-bit platform: an optional sign followed by one or
more decimal digits, with the value in `[-2^63, 2^63)`; `none` is a non-nil
error (syntax or range). -/
def Atoi (s : List Char) : Option Int :=
  match s with
  | '-' :: ds =>
    match parseDigits ds with
    | some n => if n ≤ 2 ^ 63 then some (-(n : Int)) else none
    | none => none
  | '+' :: ds =>
    match parseDigits ds with
    | some n => if n < 2 ^ 63 then some (n : Int) else none
    | none => none
  | ds =>
    match parseDigits ds with
    | some n => if n < 2 ^ 63 then some (n : Int) else none
    | none => none

/-- The decimal digit character of `d < 10`. -/
def digitChar (d : Nat) : Char := Char.ofNat (48 + d)

/-- Decimal digits of `n`, most significant first, using at most `fuel`
divisions (`decimal` supplies enough). -/
def decimalAux : Nat → Nat → List Char → List Char
  | 0, _, acc => acc
  | fuel + 1, n, acc =>
    if n < 10 then digitChar n :: acc
    else decimalAux fuel (n / 10) (digitChar (n % 10) :: acc)

/-- Canonical decimal rendering of a natural number (Go `strconv.Itoa` on a
non-negative value): no sign, no leading zero except for `0` itself. -/
def decimal (n : Nat) : List Char := decimalAux (n + 1) n []

/-- Canonical decimal rendering of an integer (Go `strconv.Itoa`). -/
def decimalInt (n : Int) : List Char :=
  if n < 0 then '-' :: decimal n.natAbs else decimal n.natAbs

/-! ## `encoding/json`

`json.Unmarshal(data, &v)` first checks that `data` is one well-formed JSON
text (`checkValid`); only then does it walk the text and store what it finds
into `v`, remembering the first type mismatch and carrying on. The model
parses the text into a `JSONValue` (failure is the syntax error) and then
stores the members of the top-level object into the target struct. Objects
and arrays may be nested `maxNestingDepth` deep; a text nested deeper is
rejected with a syntax error at the bracket that goes beyond. -/

/-- A well-formed JSON text. A number keeps its literal, a string is unquoted,
an object keeps its members in order, duplicates included. -/
inductive JSONValue where
  | null : JSONValue
  | bool (b : Bool) : JSONValue
  | number (lit : List Char) : JSONValue
  | string (s : List Char) : JSONValue
  | array (elems : List JSONValue) : JSONValue
  | object (members : List (List Char × JSONValue)) : JSONValue

/-- The kind of JSON value an `UnmarshalTypeError` reports. -/
inductive JSONKind where
  | null | bool | number | string | array | object
  deriving DecidableEq, Repr

/-- The errors `json.Unmarshal` returns: a `*json.SyntaxError` for a text that
is not well-formed JSON, a `*json.UnmarshalTypeError` for a value that does
not fit the Go type it is stored into. -/
inductive JSONError where
  | SyntaxError : JSONError
  | UnmarshalTypeError (value : JSONKind) : JSONError
  deriving DecidableEq, Repr

/-- Kind of a JSON value. -/
def JSONValue.kind : JSONValue → JSONKind
  | JSONValue.null => JSONKind.null
  | JSONValue.bool _ => JSONKind.bool
  | JSONValue.number _ => JSONKind.number
  | JSONValue.string _ => JSONKind.string
  | JSONValue.array _ => JSONKind.array
  | JSONValue.object _ => JSONKind.object

/-- The white space of JSON: space, tab, carriage return, line feed. -/
def isJSONSpace (c : Char) : Bool :=
  c = ' ' || c = '\t' || c = '\r' || c = '\n'

/-- Skips JSON white space. -/
def skipSpace (cs : List Char) : List Char := cs.dropWhile isJSONSpace

/-- Decimal digit test. -/
def isDigit (c : Char) : Bool := decide (48 ≤ c.toNat ∧ c.toNat ≤ 57)

/-- Value of a hexadecimal digit. -/
def hexVal (c : Char) : Option Nat :=
  let n := c.toNat
  if 48 ≤ n ∧ n ≤ 57 then some (n - 48)
  else if 97 ≤ n ∧ n ≤ 102 then some (n - 87)
  else if 65 ≤ n ∧ n ≤ 70 then some (n - 55)
  else none

/-- Whether `e` may follow a backslash in a JSON string (`\u` apart). -/
def isSimpleEscape (e : Char) : Bool :=
  e = 'b' || e = 'f' || e = 'n' || e = 'r' || e = 't' || e = '\\' || e = '/' || e = '"'

/-- Scans a JSON string whose opening quote has been read: the raw body up to
the closing quote (escapes still in place) and the text after the quote.
Fails on an unterminated string, a control character, or a bad escape. -/
def scanStringRaw : List Char → Option (List Char × List Char)
  | [] => none
  | c :: rest =>
    if c = '"' then some ([], rest)
    else if c = '\\' then
      match rest with
      | [] => none
      | e :: rest1 =>
        if e = 'u' then
          match rest1 with
          | h1 :: h2 :: h3 :: h4 :: rest2 =>
            if (hexVal h1).isSome && (hexVal h2).isSome && (hexVal h3).isSome
                && (hexVal h4).isSome then
              match scanStringRaw rest2 with
              | some (body, r) => some (c :: e :: h1 :: h2 :: h3 :: h4 :: body, r)
              | none => none
            else none
          | _ => none
        else if isSimpleEscape e then
          match scanStringRaw rest1 with
          | some (body, r) => some (c :: e :: body, r)
          | none => none
        else none
    else if c.toNat < 32 then none
    else
      match scanStringRaw rest with
      | some (body, r) => some (c :: body, r)
      | none => none

/-- The character a simple escape stands for. -/
def unescape (e : Char) : Char :=
  if e = 'b' then Char.ofNat 8
  else if e = 'f' then Char.ofNat 12
  else if e = 'n' then '\n'
  else if e = 'r' then '\r'
  else if e = 't' then '\t'
  else e

/-- The replacement character U+FFFD. -/
def replacementChar : Char := Char.ofNat 0xFFFD

/-- What is written for a pending high surrogate that found no low surrogate. -/
def flushSurrogate (pending : Option Nat) : List Char :=
  match pending with
  | some _ => [replacementChar]
  | none => []

/-- Go `unquote` on a scanned string body: escapes are replaced by the
characters they stand for; a `\uXXXX` high surrogate followed by a `\uXXXX`
low surrogate gives one character, any other surrogate gives U+FFFD.
`pending` is a high surrogate read just before. -/
def unquoteFrom (pending : Option Nat) : List Char → List Char
  | [] => flushSurrogate pending
  | c :: rest =>
    if c = '\\' then
      match rest with
      | [] => flushSurrogate pending
      | e :: rest1 =>
        if e = 'u' then
          match rest1 with
          | h1 :: h2 :: h3 :: h4 :: rest2 =>
            let r := (((hexVal h1).getD 0 * 16 + (hexVal h2).getD 0) * 16
              + (hexVal h3).getD 0) * 16 + (hexVal h4).getD 0
            if 0xDC00 ≤ r ∧ r < 0xE000 then
              match pending with
              | some h =>
                Char.ofNat ((h - 0xD800) * 1024 + (r - 0xDC00) + 0x10000)
                  :: unquoteFrom none rest2
              | none => replacementChar :: unquoteFrom none rest2
            else if 0xD800 ≤ r ∧ r < 0xDC00 then
              flushSurrogate pending ++ unquoteFrom (some r) rest2
            else flushSurrogate pending ++ Char.ofNat r :: unquoteFrom none rest2
          | _ => flushSurrogate pending
        else flushSurrogate pending ++ unescape e :: unquoteFrom none rest1
    else flushSurrogate pending ++ c :: unquoteFrom none rest

/-- Go `unquote`: the string a scanned body denotes. -/
def unquote (body : List Char) : List Char := unquoteFrom none body

/-- The longest run of decimal digits at the head of `cs`, and what follows. -/
def spanDigits (cs : List Char) : List Char × List Char := cs.span isDigit

/-- Exponent part of a number literal, if one starts at `cs`: `lit` is the
literal read so far. -/
def scanExponent (lit cs : List Char) : Option (List Char × List Char) :=
  match cs with
  | e :: r =>
    if e = 'e' ∨ e = 'E' then
      match r with
      | s :: r1 =>
        if s = '+' ∨ s = '-' then
          match spanDigits r1 with
          | ([], _) => none
          | (ds, r2) => some (lit ++ e :: s :: ds, r2)
        else
          match spanDigits r with
          | ([], _) => none
          | (ds, r2) => some (lit ++ e :: ds, r2)
      | [] => none
    else some (lit, cs)
  | [] => some (lit, cs)

/-- Fraction and exponent part of a number literal. -/
def scanFraction (lit cs : List Char) : Option (List Char × List Char) :=
  match cs with
  | d :: r =>
    if d = '.' then
      match spanDigits r with
      | ([], _) => none
      | (ds, r1) => scanExponent (lit ++ d :: ds) r1
    else scanExponent lit cs
  | [] => some (lit, cs)

/-- Integer part (after the optional sign, kept in `sign`), then the rest of
a number literal: a lone `0`, or a digit `1`-`9` followed by digits. -/
def scanIntPart (sign cs : List Char) : Option (List Char × List Char) :=
  match cs with
  | d :: r =>
    if d = '0' then scanFraction (sign ++ [d]) r
    else if isDigit d then
      match spanDigits r with
      | (ds, r1) => scanFraction (sign ++ d :: ds) r1
    else none
  | [] => none

/-- Scans a JSON number literal at the head of `cs`: the literal and the text
after it. -/
def scanNumber (cs : List Char) : Option (List Char × List Char) :=
  match cs with
  | c :: r => if c = '-' then scanIntPart [c] r else scanIntPart [] cs
  | [] => none

/-- Scans one of the literals `true`, `false`, `null` at the head of `cs`. -/
def scanLiteral (cs : List Char) : Option (JSONValue × List Char) :=
  if HasPrefix cs ['t', 'r', 'u', 'e'] then some (JSONValue.bool true, cs.drop 4)
  else if HasPrefix cs ['f', 'a', 'l', 's', 'e'] then some (JSONValue.bool false, cs.drop 5)
  else if HasPrefix cs ['n', 'u', 'l', 'l'] then some (JSONValue.null, cs.drop 4)
  else none

/-- Parses a value that is no object and no array: a string, a literal or a
number, told apart by the first character. -/
def parseScalar (cs : List Char) : Option (JSONValue × List Char) :=
  match cs with
  | [] => none
  | c :: r =>
    if c = '"' then
      match scanStringRaw r with
      | some (body, r1) => some (JSONValue.string (unquote body), r1)
      | none => none
    else if c = 't' ∨ c = 'f' ∨ c = 'n' then scanLiteral cs
    else
      match scanNumber cs with
      | some (lit, r1) => some (JSONValue.number lit, r1)
      | none => none

/-- Go `maxNestingDepth` of `encoding/json` (`scanner.go`): how many objects
and arrays may be open at once. -/
def maxNestingDepth : Nat := 10000

mutual
/-- Parses one JSON value at the head of `cs` (white space already skipped):
the value and the text after it. `depth` is the number of objects and arrays
that are open around the value (the length of the scanner's `parseState`): an
opening brace or bracket is accepted only while fewer than `maxNestingDepth`
are open (`pushParseState`). The fuel bounds the depth of the calls; with
more than twice the length of the text it never runs out
(`parseValue_fuel_irrelevant`). -/
def parseValue : Nat → Nat → List Char → Option (JSONValue × List Char)
  | 0, _, _ => none
  | fuel + 1, depth, cs =>
    match cs with
    | [] => none
    | c :: r =>
      if c = '{' then
        if depth < maxNestingDepth then
          match skipSpace r with
          | [] => none
          | c1 :: r1 =>
            if c1 = '}' then some (JSONValue.object [], r1)
            else
              match parseMembers fuel (depth + 1) (c1 :: r1) with
              | some (ms, r2) => some (JSONValue.object ms, r2)
              | none => none
        else none
      else if c = '[' then
        if depth < maxNestingDepth then
          match skipSpace r with
          | [] => none
          | c1 :: r1 =>
            if c1 = ']' then some (JSONValue.array [], r1)
            else
              match parseElements fuel (depth + 1) (c1 :: r1) with
              | some (vs, r2) => some (JSONValue.array vs, r2)
              | none => none
        else none
      else parseScalar cs
/-- Parses the members of an object from the opening quote of a key up to
and including the closing brace; `depth` counts the open objects and arrays,
this object included. -/
def parseMembers : Nat → Nat → List Char →
    Option (List (List Char × JSONValue) × List Char)
  | 0, _, _ => none
  | fuel + 1, depth, cs =>
    match cs with
    | [] => none
    | q :: r =>
      if q = '"' then
        match scanStringRaw r with
        | none => none
        | some (body, r1) =>
          match skipSpace r1 with
          | [] => none
          | colon :: r2 =>
            if colon = ':' then
              match parseValue fuel depth (skipSpace r2) with
              | none => none
              | some (v, r3) =>
                match skipSpace r3 with
                | [] => none
                | d :: r4 =>
                  if d = '}' then some ([(unquote body, v)], r4)
                  else if d = ',' then
                    match parseMembers fuel depth (skipSpace r4) with
                    | some (ms, r5) => some ((unquote body, v) :: ms, r5)
                    | none => none
                  else none
            else none
      else none
/-- Parses the elements of an array from the first character of an element up
to and including the closing bracket; `depth` counts the open objects and
arrays, this array included. -/
def parseElements : Nat → Nat → List Char → Option (List JSONValue × List Char)
  | 0, _, _ => none
  | fuel + 1, depth, cs =>
    match parseValue fuel depth cs with
    | none => none
    | some (v, r1) =>
      match skipSpace r1 with
      | [] => none
      | d :: r2 =>
        if d = ']' then some ([v], r2)
        else if d = ',' then
          match parseElements fuel depth (skipSpace r2) with
          | some (vs, r3) => some (v :: vs, r3)
          | none => none
        else none
end

/-- The JSON text `data` as a value: one value surrounded by optional white
space and nothing else, nested at most `maxNestingDepth` deep. `none` is the
syntax error of `checkValid`. -/
def parseJSON (data : List Char) : Option JSONValue :=
  match parseValue (2 * data.length + 1) 0 (skipSpace data) with
  | some (v, rest) => if skipSpace rest = [] then some v else none
  | none => none

/-- Case folding used to match an object key with a field name: ASCII letters
fold to lower case, and so do the long s (U+017F) and the Kelvin sign
(U+212A). -/
def foldRune (c : Char) : Char :=
  if c = Char.ofNat 0x17F then 's'
  else if c = Char.ofNat 0x212A then 'k'
  else if 65 ≤ c.toNat ∧ c.toNat ≤ 90 then Char.ofNat (c.toNat + 32)
  else c

/-- Whether object key `key` selects the struct field named `name`: equality
up to case folding. -/
def equalFold (name key : List Char) : Bool :=
  name.map foldRune == key.map foldRune

/-- Go `saveError`: the first error is kept. -/
def saveError (saved new : Option JSONError) : Option JSONError :=
  match saved with
  | some e => some e
  | none => new

/-- Storing JSON value `v` into a Go `string` field holding `cur`: the new
field value and the error, if any. `null` leaves the field alone. -/
def storeString (v : JSONValue) (cur : List Char) : List Char × Option JSONError :=
  match v with
  | JSONValue.string s => (s, none)
  | JSONValue.null => (cur, none)
  | _ => (cur, some (JSONError.UnmarshalTypeError v.kind))

/-- Storing JSON value `v` into a Go `int` field holding `cur`: the literal
must pass `strconv.ParseInt(lit, 10, 64)`, which is `Atoi` on the 64-bit
platform modelled here. -/
def storeInt (v : JSONValue) (cur : Int) : Int × Option JSONError :=
  match v with
  | JSONValue.number lit =>
    match Atoi lit with
    | some n => (n, none)
    | none => (cur, some (JSONError.UnmarshalTypeError JSONKind.number))
  | JSONValue.null => (cur, none)
  | _ => (cur, some (JSONError.UnmarshalTypeError v.kind))

/-- Storing JSON value `v` into a field of the interface type `error` holding
`cur`: `null` sets it to `nil`, anything else is a type error, as no JSON
value can be stored into a non-empty interface. -/
def storeError (v : JSONValue) (cur : Option JSONError) :
    Option JSONError × Option JSONError :=
  match v with
  | JSONValue.null => (none, none)
  | _ => (cur, some (JSONError.UnmarshalTypeError v.kind))

/-- Go `json.Unmarshal(data, &target)` for a struct `target`, given how one
object member is stored into the struct: a syntax error leaves the target
alone; an object stores its members in order, keeping the first error; `null`
does nothing; any other value is a type error. -/
def unmarshalStruct {σ : Type}
    (setMember : σ × Option JSONError → List Char × JSONValue → σ × Option JSONError)
    (data : List Char) (target : σ) : σ × Option JSONError :=
  match parseJSON data with
  | none => (target, some JSONError.SyntaxError)
  | some (JSONValue.object ms) => ms.foldl setMember (target, none)
  | some JSONValue.null => (target, none)
  | some v => (target, some (JSONError.UnmarshalTypeError v.kind))

/-! ## The loops and their environment -/

/-- What one iteration of a receive loop gets from its environment: the
instant of its `select` on `ctx.Done()`, the result of the blocking receive
that follows, and the instant at which the channel sends of the iteration
complete. -/
structure Tick (ρ : Type) where
  selectAt : Nat
  recv : ρ
  sendAt : Nat

/-- Whether `ctx.Done()` is closed at instant `t`, for a context cancelled at
`cancelAt` (never, when `none`). -/
def ctxDone (cancelAt : Option Nat) (t : Nat) : Bool :=
  match cancelAt with
  | some c => decide (c ≤ t)
  | none => false

/-- Outcome of one loop iteration: the goroutine returns, or goes on to the
next iteration after sending the listed values, in order. -/
inductive Step (α : Type) where
  | exit : Step α
  | next (sent : List α) : Step α
  deriving DecidableEq, Repr

/-! ## `listener.go` -/

/-- Go `net.IP`, a byte slice. -/
abbrev IP := List Nat

/-- Struct `LightpadAnnouncement` of `listener.go`. -/
structure LightpadAnnouncement where
  ID : List Char
  IP : IP
  Port : Int
  deriving DecidableEq, Repr

/-- Number of bytes of the UTF-8 encoding of a character. -/
def utf8Len (c : Char) : Nat :=
  if c.toNat < 0x80 then 1
  else if c.toNat < 0x800 then 2
  else if c.toNat < 0x10000 then 3
  else 4

/-- Go `len(s)`: the number of bytes of the text `s`. -/
def byteLen : List Char → Nat
  | [] => 0
  | c :: cs => utf8Len c + byteLen cs

/-- The text of the first `room` bytes of `s`, all of `s` when it has no more
bytes than that. When the cut falls inside a character, the bytes kept of it
are no valid UTF-8: each of them is given as U+FFFD, the rune Go reads for
such a byte (to `Split` and `Atoi` it is, like the byte, neither a space nor
a digit). -/
def firstBytes : Nat → List Char → List Char
  | _, [] => []
  | room, c :: cs =>
    if utf8Len c ≤ room then c :: firstBytes (room - utf8Len c) cs
    else List.replicate room replacementChar

/-- The length of `buf`, line 36 of `listener.go`: `make([]byte, 1024)`. -/
def bufLen : Nat := 1024

/-- Result of `ServerConn.ReadFromUDP(buf)`: a read deadline expiry, another
error, or a datagram, given by its payload (the text that was sent) and the
IP of its sender (`addr.IP`). -/
inductive RecvResult where
  | timeout : RecvResult
  | failure : RecvResult
  | datagram (payload : List Char) (ip : IP) : RecvResult
  deriving DecidableEq, Repr

/-- Lines 50 and 57 of `listener.go`: `ReadFromUDP(buf)` copies the payload
into `buf`, as much of it as `buf` holds, and returns the number `n` of bytes
copied; `msg := string(buf[0:n])` is the text of these bytes. What a payload
holds beyond `len(buf)` bytes is dropped. -/
def msgOf (payload : List Char) : List Char := firstBytes bufLen payload

/-- The literal `"PLUM 8888"`. -/
def plumPrefix : List Char := ['P', 'L', 'U', 'M', ' ', '8', '8', '8', '8']

/-- Lines 61-78 of `listener.go`: the announcement sent for the text `msg`
read from a datagram of `ip`, if any. `none` covers the three ways a datagram
is passed over: wrong prefix, a token count other than 4, a port that `Atoi`
rejects. -/
def announcementOf (msg : List Char) (ip : IP) : Option LightpadAnnouncement :=
  if HasPrefix msg plumPrefix then
    let bits := Split msg ' '
    if bits.length = 4 then
      match Atoi (bits.getD 3 []) with
      | none => none
      | some port => some { ID := bits.getD 2 [], IP := ip, Port := port }
    else none
  else none

/-- One iteration of the `for` loop of `DefaultLightpadHeartbeat.Listen`:
`done` is what the `select` on `ctx.Done()` finds. A timeout continues, any
other receive error panics, a datagram is read into `buf` and the text read is
handled by `announcementOf`; the loop continues whatever the outcome. -/
def listenStep (done : Bool) (r : RecvResult) : Step LightpadAnnouncement :=
  if done then Step.exit
  else
    match r with
    | RecvResult.timeout => Step.next []
    | RecvResult.failure => Step.exit
    | RecvResult.datagram payload ip =>
      Step.next (announcementOf (msgOf payload) ip).toList

/-- The goroutine of `DefaultLightpadHeartbeat.Listen` run against a schedule:
the announcements sent on `responses`, each with the instant of its send. -/
def listenLoop (cancelAt : Option Nat) :
    List (Tick RecvResult) → List (Nat × LightpadAnnouncement)
  | [] => []
  | t :: rest =>
    match listenStep (ctxDone cancelAt t.selectAt) t.recv with
    | Step.exit => []
    | Step.next sent => sent.map (fun a => (t.sendAt, a)) ++ listenLoop cancelAt rest

/-! ## `types.go`: the events -/

/-- Struct `lightpadEvent` of `types.go`: `Type string` and `Error error`. The field
`Type` is written `Type_`, the name being reserved. -/
structure lightpadEvent where
  Type_ : List Char := []
  Error : Option JSONError := none
  deriving DecidableEq, Repr

/-- Struct `LPEUnknown` of `types.go`. -/
structure LPEUnknown extends lightpadEvent where
  Message : List Char := []
  deriving DecidableEq, Repr

/-- Struct `LPEDimmerChange` of `types.go`. -/
structure LPEDimmerChange extends lightpadEvent where
  Level : Int := 0
  deriving DecidableEq, Repr

/-- Struct `LPEPower` of `types.go`. -/
structure LPEPower extends lightpadEvent where
  Watts : Int := 0
  deriving DecidableEq, Repr

/-- Struct `LPEPIRSignal` of `types.go`. -/
structure LPEPIRSignal extends lightpadEvent where
  Signal : Int := 0
  deriving DecidableEq, Repr

/-- Type `Event` of `types.go` is `interface{}`; these are the dynamic types of the
values `Subscribe` sends on `StateChanges`. -/
inductive Event where
  | envelope (e : lightpadEvent) : Event
  | unknown (e : LPEUnknown) : Event
  | dimmerChange (e : LPEDimmerChange) : Event
  | power (e : LPEPower) : Event
  | pirSignal (e : LPEPIRSignal) : Event
  deriving DecidableEq, Repr

/-- The error-carrying variant: a bare `lightpadEvent` with a non-nil `Error`. -/
def Event.isError : Event → Bool
  | Event.envelope e => e.Error.isSome
  | _ => false

/-- An `LPEUnknown`. -/
def Event.isUnknown : Event → Bool
  | Event.unknown _ => true
  | _ => false

/-- One of the typed events `LPEDimmerChange`, `LPEPower`, `LPEPIRSignal`. -/
def Event.isTyped : Event → Bool
  | Event.dimmerChange _ => true
  | Event.power _ => true
  | Event.pirSignal _ => true
  | _ => false

/-- The field names `encoding/json` sees in `lightpadEvent`. -/
def nameType : List Char := ['T', 'y', 'p', 'e']

/-- See `nameType`. -/
def nameError : List Char := ['E', 'r', 'r', 'o', 'r']

/-- The field name of `LPEDimmerChange`. -/
def nameLevel : List Char := ['L', 'e', 'v', 'e', 'l']

/-- The field name of `LPEPower`. -/
def nameWatts : List Char := ['W', 'a', 't', 't', 's']

/-- The field name of `LPEPIRSignal`. -/
def nameSignal : List Char := ['S', 'i', 'g', 'n', 'a', 'l']

/-- Stores one object member into a `lightpadEvent`: key `Type` (in any case)
goes to the string field, key `Error` to the `error` field, other keys are
skipped. -/
def lightpadEvent.setMember (st : lightpadEvent × Option JSONError)
    (m : List Char × JSONValue) : lightpadEvent × Option JSONError :=
  if equalFold nameType m.1 then
    let r := storeString m.2 st.1.Type_
    ({ st.1 with Type_ := r.1 }, saveError st.2 r.2)
  else if equalFold nameError m.1 then
    let r := storeError m.2 st.1.Error
    ({ st.1 with Error := r.1 }, saveError st.2 r.2)
  else st

/-- Stores one object member into a struct made of an embedded `lightpadEvent`
and one `int` field called `name`, the shape of `LPEDimmerChange`, `LPEPower`
and `LPEPIRSignal`; the struct is given as the pair of its two parts. -/
def setTypedMember (name : List Char) (st : (lightpadEvent × Int) × Option JSONError)
    (m : List Char × JSONValue) : (lightpadEvent × Int) × Option JSONError :=
  if equalFold nameType m.1 then
    let r := storeString m.2 st.1.1.Type_
    (({ st.1.1 with Type_ := r.1 }, st.1.2), saveError st.2 r.2)
  else if equalFold nameError m.1 then
    let r := storeError m.2 st.1.1.Error
    (({ st.1.1 with Error := r.1 }, st.1.2), saveError st.2 r.2)
  else if equalFold name m.1 then
    let r := storeInt m.2 st.1.2
    ((st.1.1, r.1), saveError st.2 r.2)
  else st

/-- Go `json.Unmarshal([]byte(message), &lpe)` with `lpe := lightpadEvent{}`. -/
def unmarshalLightpadEvent (message : List Char) : lightpadEvent × Option JSONError :=
  unmarshalStruct lightpadEvent.setMember message {}

/-- Go `json.Unmarshal([]byte(message), &ev)` with `ev := LPEDimmerChange{}`. -/
def unmarshalDimmerChange (message : List Char) : LPEDimmerChange × Option JSONError :=
  let r := unmarshalStruct (setTypedMember nameLevel) message ({}, 0)
  (LPEDimmerChange.mk r.1.1 r.1.2, r.2)

/-- Go `json.Unmarshal([]byte(message), &ev)` with `ev := LPEPower{}`. -/
def unmarshalPower (message : List Char) : LPEPower × Option JSONError :=
  let r := unmarshalStruct (setTypedMember nameWatts) message ({}, 0)
  (LPEPower.mk r.1.1 r.1.2, r.2)

/-- Go `json.Unmarshal([]byte(message), &ev)` with `ev := LPEPIRSignal{}`. -/
def unmarshalPIRSignal (message : List Char) : LPEPIRSignal × Option JSONError :=
  let r := unmarshalStruct (setTypedMember nameSignal) message ({}, 0)
  (LPEPIRSignal.mk r.1.1 r.1.2, r.2)

/-! ## `lightpad.go`: `Subscribe` -/

/-- The statement `if err != nil { l.StateChanges <- lightpadEvent{Error: err} }`:
what it sends. -/
def sendIfError (err : Option JSONError) : List Event :=
  match err with
  | some e => [Event.envelope { Error := some e }]
  | none => []

/-- Line 170 of `lightpad.go`:
`strings.TrimSuffix(strings.TrimSpace(message), ".")`. -/
def trimFrame (message : List Char) : List Char :=
  TrimSuffix (TrimSpace message) ['.']

/-- The tags of the `switch lpe.Type`. -/
def tagDimmerChange : List Char :=
  ['d', 'i', 'm', 'm', 'e', 'r', 'c', 'h', 'a', 'n', 'g', 'e']

/-- See `tagDimmerChange`. -/
def tagPower : List Char := ['p', 'o', 'w', 'e', 'r']

/-- See `tagDimmerChange`. -/
def tagPIRSignal : List Char := ['p', 'i', 'r', 'S', 'i', 'g', 'n', 'a', 'l']

/-- The `Type` of the `LPEUnknown` the default case sends. -/
def tagUnknown : List Char := ['u', 'n', 'k', 'n', 'o', 'w', 'n']

/-- Lines 170-206 of `lightpad.go`: the values sent on `l.StateChanges`, in
order, for one `message` that `ReadString` returned without error. The send
after a failed envelope decode is not followed by `continue`, so the `switch`
runs in every case; likewise each case sends `ev` after its own error send. -/
def processFrame (message : List Char) : List Event :=
  let message := trimFrame message
  let r := unmarshalLightpadEvent message
  sendIfError r.2 ++
    (if r.1.Type_ = tagDimmerChange then
      let d := unmarshalDimmerChange message
      sendIfError d.2 ++ [Event.dimmerChange d.1]
    else if r.1.Type_ = tagPower then
      let d := unmarshalPower message
      sendIfError d.2 ++ [Event.power d.1]
    else if r.1.Type_ = tagPIRSignal then
      let d := unmarshalPIRSignal message
      sendIfError d.2 ++ [Event.pirSignal d.1]
    else
      [Event.unknown { Type_ := tagUnknown, Message := message }])

/-- One iteration of the `for` loop of the goroutine of `Subscribe`: `done` is
what the `select` on `ctx.Done()` finds, `read` the result of
`bufio.NewReader(conn).ReadString('\n')` (`none` for a non-nil error, after
which the loop continues). -/
def subscribeStep (done : Bool) (read : Option (List Char)) : Step Event :=
  if done then Step.exit
  else
    match read with
    | none => Step.next []
    | some message => Step.next (processFrame message)

/-- The goroutine of `DefaultLightpad.Subscribe` run against a schedule: the
events sent on `StateChanges`, each with the instant of its send. -/
def subscribeLoop (cancelAt : Option Nat) :
    List (Tick (Option (List Char))) → List (Nat × Event)
  | [] => []
  | t :: rest =>
    match subscribeStep (ctxDone cancelAt t.selectAt) t.recv with
    | Step.exit => []
    | Step.next sent => sent.map (fun e => (t.sendAt, e)) ++ subscribeLoop cancelAt rest

/-- The schedule in which the context is never cancelled and the reads return
the given frames one after the other. -/
def framesSchedule (frames : List (List Char)) : List (Tick (Option (List Char))) :=
  frames.map fun f => { selectAt := 0, recv := some f, sendAt := 0 }

/-- The events sent for a sequence of frames read one after the other. -/
def eventsOfFrames (frames : List (List Char)) : List Event :=
  (subscribeLoop none (framesSchedule frames)).map Prod.snd

/-! ## `lightpad.go`: the connection of `Subscribe` -/

/-- The number of `ReadString` calls the goroutine of `Subscribe` makes on a
schedule: one in every iteration whose `select` finds `ctx.Done()` open,
whatever the read returns. -/
def subscribeReads (cancelAt : Option Nat) : List (Tick (Option (List Char))) → Nat
  | [] => 0
  | t :: rest =>
    match subscribeStep (ctxDone cancelAt t.selectAt) t.recv with
    | Step.exit => 0
    | Step.next _ => 1 + subscribeReads cancelAt rest

/-- Where a goroutine stands at the end of a schedule: whether it has
returned (or panicked), and whether the network handle it was given has been
closed. -/
structure LoopEnd where
  exited : Bool
  handleClosed : Bool
  deriving DecidableEq, Repr

/-- The goroutine of `Listen` at the end of a schedule. It starts with
`defer ServerConn.Close()`, which runs when the function returns and when it
panics; until then the socket stays open. -/
def listenEnd (cancelAt : Option Nat) : List (Tick RecvResult) → LoopEnd
  | [] => { exited := false, handleClosed := false }
  | t :: rest =>
    match listenStep (ctxDone cancelAt t.selectAt) t.recv with
    | Step.exit => { exited := true, handleClosed := true }
    | Step.next _ => listenEnd cancelAt rest

/-- The goroutine of `Subscribe` at the end of a schedule. `conn` is a local
of `Subscribe` that the goroutine only reads from: no statement closes it,
neither in the loop nor on `return`. -/
def subscribeEnd (cancelAt : Option Nat) : List (Tick (Option (List Char))) → LoopEnd
  | [] => { exited := false, handleClosed := false }
  | t :: rest =>
    match subscribeStep (ctxDone cancelAt t.selectAt) t.recv with
    | Step.exit => { exited := true, handleClosed := false }
    | Step.next _ => subscribeEnd cancelAt rest

/-- The text of `chunk` up to and including its first line feed. -/
def throughNewline : List Char → List Char
  | [] => []
  | c :: cs => if c = '\n' then [c] else c :: throughNewline cs

/-- Go `bufio.NewReader(conn).ReadString('\n')` on a connection whose next
`Read` calls return the given chunks. The fresh reader fills its buffer one
`Read` at a time until the buffer holds a line feed; it returns the text up to
and including that line feed, and the bytes that came after it in the same
`Read` stay in the buffer of the reader, which is dropped. With no chunk left
the read fails (end of stream) and what was read so far is not used. The
result is the message (`none` for an error) and the chunks left on the
connection. Chunks are at most the size of the buffer, 4096 bytes. -/
def connReadString : List (List Char) → Option (List Char) × List (List Char)
  | [] => (none, [])
  | c :: cs =>
    if '\n' ∈ c then (some (throughNewline c), cs)
    else
      match connReadString cs with
      | (some m, r) => (some (c ++ m), r)
      | (none, r) => (none, r)

/-- The results of the successive `ReadString` calls of the loop, each on a
reader of its own, until the connection has nothing left; at most `n`
calls. -/
def streamReads : Nat → List (List Char) → List (Option (List Char))
  | 0, _ => []
  | n + 1, chunks =>
    match chunks with
    | [] => []
    | _ :: _ => (connReadString chunks).1 :: streamReads n (connReadString chunks).2

/-- The schedule in which the context is never cancelled and the reads return
the given results one after the other. -/
def readsSchedule (reads : List (Option (List Char))) : List (Tick (Option (List Char))) :=
  reads.map fun r => { selectAt := 0, recv := r, sendAt := 0 }

/-- The events `Subscribe` sends for a connection whose `Read` calls return
the given chunks. Every `ReadString` takes at least one chunk, so
`chunks.length` calls use them up. -/
def eventsOfStream (chunks : List (List Char)) : List Event :=
  (subscribeLoop none (readsSchedule (streamReads chunks.length chunks))).map Prod.snd

/-! ## `libplumraw.go`: `TestLightpadHeartbeat` -/

/-- Struct `TestLightpadHeartbeat` of `libplumraw.go`: it embeds the
announcement it is configured with. -/
structure TestLightpadHeartbeat where
  LightpadAnnouncement : LightpadAnnouncement
  deriving DecidableEq, Repr

/-- The goroutine of `TestLightpadHeartbeat.Listen`: one `select`, not in a
loop, between `ctx.Done()` and the channel of a 2-second ticker, after which
the goroutine ends. `doneFirst` tells whether the context is cancelled before
the first tick, `ticks` how many times the ticker has fired by the end of the
observation. The result is what was sent on `responses`. -/
def TestLightpadHeartbeat.Listen (t : TestLightpadHeartbeat) (doneFirst : Bool)
    (ticks : Nat) : List Libplumraw.LightpadAnnouncement :=
  if doneFirst then []
  else if ticks = 0 then []
  else [t.LightpadAnnouncement]

/-! ## `types.go`: the records of the web API -/

/-- Go `float64`, given by its 64-bit IEEE 754 pattern; the code stores and
returns such values and never computes with them. -/
structure Float64 where
  bits : Nat
  deriving DecidableEq, Repr

/-- Go slice: `none` is the `nil` slice, `some l` a slice with the elements of
`l` (`some []` is an empty slice that is not `nil`). -/
abbrev Slice (α : Type) := Option (List α)

/-- Go `len(s)`. -/
def Slice.len {α : Type} (s : Slice α) : Nat :=
  match s with
  | none => 0
  | some l => l.length

/-- The elements of a slice, none for the `nil` slice. -/
def Slice.elems {α : Type} (s : Slice α) : List α :=
  match s with
  | none => []
  | some l => l

/-- Type `IDs` of `types.go`: `[]string`. -/
abbrev IDs := Slice (List Char)

/-- Type `Houses` of `types.go`, a list of house IDs. -/
abbrev Houses := IDs

/-- Type `Scenes` of `types.go`, a list of scene IDs. -/
abbrev Scenes := IDs

/-- The anonymous struct of the field `LatLong` of `House`. -/
structure LatLong where
  Latitude : Float64 := ⟨0⟩
  Longitude : Float64 := ⟨0⟩
  deriving DecidableEq, Repr

/-- Struct `House` of `types.go`. -/
structure House where
  ID : List Char := []
  RoomIDs : IDs := none
  Location : List Char := []
  LatLong : LatLong := {}
  AccessToken : List Char := []
  Name : List Char := []
  TimeZone : Int := 0
  deriving DecidableEq, Repr

/-- Struct `SceneSettings` of `types.go`. -/
structure SceneSettings where
  LLID : List Char := []
  Level : Int := 0
  Fade : Int := 0
  deriving DecidableEq, Repr

/-- Struct `Scene` of `types.go`. -/
structure Scene where
  ID : List Char := []
  Settings : Slice SceneSettings := none
  HouseID : List Char := []
  Name : List Char := []
  deriving DecidableEq, Repr

/-- Struct `Room` of `types.go`. -/
structure Room where
  ID : List Char := []
  Name : List Char := []
  HouseID : List Char := []
  LLIDs : IDs := none
  deriving DecidableEq, Repr

/-- Struct `LogicalLoad` of `types.go`. -/
structure LogicalLoad where
  ID : List Char := []
  Name : List Char := []
  LPIDs : IDs := none
  RoomID : List Char := []
  deriving DecidableEq, Repr

/-- Struct `LightpadGlowColor` of `types.go`. -/
structure LightpadGlowColor where
  White : Int := 0
  Red : Int := 0
  Green : Int := 0
  Blue : Int := 0
  deriving DecidableEq, Repr

/-- Struct `LogicalLoadConfig` of `types.go`. -/
structure LogicalLoadConfig where
  GlowColor : LightpadGlowColor := {}
  GlowTimeout : Int := 0
  GlowEnabled : Bool := false
  deriving DecidableEq, Repr

/-- Struct `LightpadConfig` of `types.go`. -/
structure LightpadConfig where
  AMQPEnabled : Bool := false
  Cluster : List Char := []
  DefaultLevel : Int := 0
  DimEnabled : Bool := false
  FadeOffTime : Int := 0
  FadeOnTime : Int := 0
  ForceGlow : Bool := false
  GlowColor : LightpadGlowColor := {}
  GlowEnabled : Bool := false
  GlowFade : Int := 0
  GlowIntensity : Float64 := ⟨0⟩
  GlowTimeout : Int := 0
  GlowTracksDimmer : Bool := false
  LogRemote : Bool := false
  MaxWattage : Int := 0
  MinimumLevel : Int := 0
  Name : List Char := []
  OccupancyAction : List Char := []
  OccupancyTimeout : Int := 0
  PIRSensitivity : Int := 0
  RememberLastDimLevel : Bool := false
  SerialNumber : List Char := []
  SlowFadeTime : Int := 0
  TouchRate : Float64 := ⟨0⟩
  TrackingSpeed : Int := 0
  UUID : List Char := []
  VersionLocked : Bool := false
  deriving DecidableEq, Repr

/-- Struct `LightpadSpec` of `types.go`. -/
structure LightpadSpec where
  ID : List Char := []
  LLID : List Char := []
  Config : LightpadConfig := {}
  IsProvisioned : Bool := false
  CustomGestures : Int := 0
  Name : List Char := []
  deriving DecidableEq, Repr

/-- Struct `ForceGlow` of `types.go`; it embeds `LightpadGlowColor`. -/
structure ForceGlow extends LightpadGlowColor where
  Intensity : Float64 := ⟨0⟩
  Timeout : Int := 0
  LLID : List Char := []
  deriving DecidableEq, Repr

/-- Struct `LightpadMetric` of `types.go`. -/
structure LightpadMetric where
  ID : List Char := []
  Level : Int := 0
  Power : Int := 0
  deriving DecidableEq, Repr

/-- Struct `LogicalLoadMetrics` of `types.go`. -/
structure LogicalLoadMetrics where
  Level : Int := 0
  Power : Int := 0
  Metrics : Slice LightpadMetric := none
  deriving DecidableEq, Repr

/-- A Go `error` value that is not `nil`, told by where it comes from:
`fmt.Errorf` with its message; `encoding/json` storing a value; a
`json.Decoder` that finds no JSON value to read (a `*json.SyntaxError`,
`io.EOF` on an empty or blank body, `io.ErrUnexpectedEOF` on a body that ends
inside a value); or anything else (the HTTP stack, a caller) with its
message. -/
inductive ErrorValue where
  | errorf (msg : List Char) : ErrorValue
  | json (e : JSONError) : ErrorValue
  | noValue : ErrorValue
  | other (msg : List Char) : ErrorValue
  deriving DecidableEq, Repr

/-- Go `error`: `none` is `nil`. -/
abbrev GoError := Option ErrorValue

/-- Go `ids[j]`: the element at index `j`, `none` standing for the run-time
panic of an index out of range. -/
def Slice.index {α : Type} (s : Slice α) (j : Nat) : Option α :=
  s.elems.get? j

/-- The `for j, id := range ids` loop of `IDs.Equals`, from index `j` on over
the elements `ids` still to visit: `some false` at the first `id` that differs
from `other[j]`, `some true` when none does, `none` if `other[j]` panics. -/
def IDs.equalsFrom (other : IDs) : Nat → List (List Char) → Option Bool
  | _, [] => some true
  | j, id :: ids =>
    match Slice.index other j with
    | none => none
    | some o => if id ≠ o then some false else IDs.equalsFrom other (j + 1) ids

/-- Method `IDs.Equals` of `types.go`; `none` stands for a panic. -/
def IDs.Equals (ids other : IDs) : Option Bool :=
  if Slice.len ids ≠ Slice.len other then some false
  else IDs.equalsFrom other 0 (Slice.elems ids)

/-- Go `sort.Strings` on a `[]string`: the elements in ascending order of
strings; the `nil` slice stays `nil`. -/
def sortStrings (ids : IDs) : IDs :=
  ids.map (List.insertionSort (· ≤ ·))

/-! ## `libplumraw.go`: the test doubles -/

/-- Struct `TestWebConnection` of `libplumraw.go`. The field `Error` is a
`*error`: `none` is the `nil` pointer, `some e` a pointer to the error `e`,
which may itself be `nil`. -/
structure TestWebConnection where
  Houses : Houses := none
  House : House := {}
  Scenes : Scenes := none
  Scene : Scene := {}
  Room : Room := {}
  LogicalLoad : LogicalLoad := {}
  LightpadSpec : LightpadSpec := {}
  Error : Option GoError := none
  deriving DecidableEq, Repr

/-- Method `GetHouses` of `*TestWebConnection`: the receiver after the call,
and the two results. -/
def TestWebConnection.GetHouses (t : TestWebConnection) :
    TestWebConnection × Libplumraw.Houses × GoError :=
  match t.Error with
  | some e => (t, none, e)
  | none => (t, t.Houses, none)

/-- Method `GetHouse` of `*TestWebConnection`. -/
def TestWebConnection.GetHouse (t : TestWebConnection) (_hid : List Char) :
    TestWebConnection × Libplumraw.House × GoError :=
  match t.Error with
  | some e => (t, {}, e)
  | none => (t, t.House, none)

/-- Method `GetScenes` of `*TestWebConnection`. -/
def TestWebConnection.GetScenes (t : TestWebConnection) (_hid : List Char) :
    TestWebConnection × Libplumraw.Scenes × GoError :=
  match t.Error with
  | some e => (t, none, e)
  | none => (t, t.Scenes, none)

/-- Method `GetScene` of `*TestWebConnection`. -/
def TestWebConnection.GetScene (t : TestWebConnection) (_hid : List Char) :
    TestWebConnection × Libplumraw.Scene × GoError :=
  match t.Error with
  | some e => (t, {}, e)
  | none => (t, t.Scene, none)

/-- Method `GetRoom` of `*TestWebConnection`. -/
def TestWebConnection.GetRoom (t : TestWebConnection) (_rid : List Char) :
    TestWebConnection × Libplumraw.Room × GoError :=
  match t.Error with
  | some e => (t, {}, e)
  | none => (t, t.Room, none)

/-- Method `GetLogicalLoad` of `*TestWebConnection`. -/
def TestWebConnection.GetLogicalLoad (t : TestWebConnection) (_llid : List Char) :
    TestWebConnection × Libplumraw.LogicalLoad × GoError :=
  match t.Error with
  | some e => (t, {}, e)
  | none => (t, t.LogicalLoad, none)

/-- Method `GetLightpad` of `*TestWebConnection`. -/
def TestWebConnection.GetLightpad (t : TestWebConnection) (_lpid : List Char) :
    TestWebConnection × Libplumraw.LightpadSpec × GoError :=
  match t.Error with
  | some e => (t, {}, e)
  | none => (t, t.LightpadSpec, none)

/-- Struct `TestLightpad` of `libplumraw.go`; `Error` is a `*error` as in
`TestWebConnection`. -/
structure TestLightpad where
  LogicalLoadMetrics : LogicalLoadMetrics := {}
  Error : Option GoError := none
  deriving DecidableEq, Repr

/-- Method `SetLogicalLoadLevel` of `*TestLightpad`: the receiver after the
call, and the result. -/
def TestLightpad.SetLogicalLoadLevel (t : TestLightpad) (_level : Int) :
    TestLightpad × GoError :=
  match t.Error with
  | some e => (t, e)
  | none => (t, none)

/-- Method `SetLogicalLoadConfig` of `*TestLightpad`. -/
def TestLightpad.SetLogicalLoadConfig (t : TestLightpad) (_conf : LogicalLoadConfig) :
    TestLightpad × GoError :=
  match t.Error with
  | some e => (t, e)
  | none => (t, none)

/-- Method `GetLogicalLoadMetrics` of `*TestLightpad`. -/
def TestLightpad.GetLogicalLoadMetrics (t : TestLightpad) :
    TestLightpad × Libplumraw.LogicalLoadMetrics × GoError :=
  match t.Error with
  | some e => (t, {}, e)
  | none => (t, t.LogicalLoadMetrics, none)

/-- Method `SetLogicalLoadGlow` of `*TestLightpad`. -/
def TestLightpad.SetLogicalLoadGlow (t : TestLightpad) (_glow : ForceGlow) :
    TestLightpad × GoError :=
  match t.Error with
  | some e => (t, e)
  | none => (t, none)

/-! ## `encoding/json`: `Marshal`, and decoding into the records -/

/-- The lower-case hexadecimal digit of `n < 16`. -/
def hexDigit (n : Nat) : Char :=
  if n < 10 then Char.ofNat (48 + n) else Char.ofNat (87 + n)

/-- How `json.Marshal` writes one character of a string: a backslash before
the quote and the backslash, `\b`, `\f`, `\n`, `\r`, `\t` (the first two as
Go 1.22 and later write them), a `\u00XX` escape for the other control
characters and for `<`, `>`, `&`, a `\u202X` escape for U+2028 and U+2029, the
character itself otherwise. -/
def marshalChar (c : Char) : List Char :=
  if c = '"' ∨ c = '\\' then ['\\', c]
  else if c = Char.ofNat 8 then ['\\', 'b']
  else if c = Char.ofNat 12 then ['\\', 'f']
  else if c = '\n' then ['\\', 'n']
  else if c = '\r' then ['\\', 'r']
  else if c = '\t' then ['\\', 't']
  else if c.toNat < 32 ∨ c = '<' ∨ c = '>' ∨ c = '&' then
    ['\\', 'u', '0', '0', hexDigit (c.toNat / 16), hexDigit (c.toNat % 16)]
  else if c = Char.ofNat 0x2028 then ['\\', 'u', '2', '0', '2', '8']
  else if c = Char.ofNat 0x2029 then ['\\', 'u', '2', '0', '2', '9']
  else [c]

/-- Go `json.Marshal` of a `string`. -/
def marshalString (s : List Char) : List Char :=
  '"' :: (s.flatMap marshalChar ++ ['"'])

/-- Go `json.Marshal` of a struct with the one `string` field tagged `key`:
the text `{"<key>":"<value>"}`. -/
def marshalKeyed (key value : List Char) : List Char :=
  '{' :: '"' :: (key ++ '"' :: ':' :: (marshalString value ++ ['}']))

/-- Go `json.Marshal` of `struct{Level int "level"; LLID string "llid"}`:
the text `{"level":<level>,"llid":"<llid>"}`. -/
def marshalLevel (level : Int) (llid : List Char) : List Char :=
  ['{', '"', 'l', 'e', 'v', 'e', 'l', '"', ':'] ++ decimalInt level ++
    [',', '"', 'l', 'l', 'i', 'd', '"', ':'] ++ marshalString llid ++ ['}']

/-- Go `json.NewDecoder(body).Decode(&target)`: the target after the call and
the error. The decoder is the library's; the functions of `web.go` are given
it as an argument. -/
abbrev Decoder (σ : Type) := List Char → σ → σ × GoError

/-- Storing the elements of a JSON array into a `[]string` that holds `cur`,
from index `i` on: the element at index `i` is stored into `cur[i]` when the
slice is that long, into an empty string otherwise. -/
def storeElems (cur : List (List Char)) :
    Nat → List JSONValue → List (List Char) × Option JSONError
  | _, [] => ([], none)
  | i, v :: vs =>
    let r := storeString v (cur.getD i [])
    let rs := storeElems cur (i + 1) vs
    (r.1 :: rs.1, saveError r.2 rs.2)

/-- Storing JSON value `v` into a `[]string` field holding `cur`: `null` makes
it `nil`, an array gives a slice of as many strings, anything else is a type
error. -/
def storeIDs (v : JSONValue) (cur : IDs) : IDs × Option JSONError :=
  match v with
  | JSONValue.null => (none, none)
  | JSONValue.array vs =>
    let r := storeElems (Slice.elems cur) 0 vs
    (some r.1, r.2)
  | _ => (cur, some (JSONError.UnmarshalTypeError v.kind))

/-- The first JSON value of a stream, as `Decoder.Decode` reads it. What
follows an object or an array is left for the next call; any other value ends
with the stream or with a character of white space. -/
def decodeValue (body : List Char) : Option JSONValue :=
  match parseValue (2 * body.length + 1) 0 (skipSpace body) with
  | some (JSONValue.object ms, _) => some (JSONValue.object ms)
  | some (JSONValue.array vs, _) => some (JSONValue.array vs)
  | some (v, []) => some v
  | some (v, c :: _) => if isJSONSpace c then some v else none
  | none => none

/-- Go `Decode(&target)` for a struct `target`, given how one object member is
stored into it (see `unmarshalStruct`). -/
def decodeStruct {σ : Type}
    (setMember : σ × Option JSONError → List Char × JSONValue → σ × Option JSONError) :
    Decoder σ := fun body target =>
  match decodeValue body with
  | none => (target, some ErrorValue.noValue)
  | some (JSONValue.object ms) =>
    let r := ms.foldl setMember (target, none)
    (r.1, r.2.map ErrorValue.json)
  | some JSONValue.null => (target, none)
  | some v => (target, some (ErrorValue.json (JSONError.UnmarshalTypeError v.kind)))

/-- Go `Decode(&ids)` for a `[]string`. -/
def decodeIDs : Decoder IDs := fun body target =>
  match decodeValue body with
  | none => (target, some ErrorValue.noValue)
  | some v =>
    let r := storeIDs v target
    (r.1, r.2.map ErrorValue.json)

/-- Stores one object member into a `Room`: the keys are the tags `rid`,
`room_name`, `hid`, `llids`, in any case. -/
def Room.setMember (st : Room × Option JSONError) (m : List Char × JSONValue) :
    Room × Option JSONError :=
  if equalFold ['r', 'i', 'd'] m.1 then
    let r := storeString m.2 st.1.ID
    ({ st.1 with ID := r.1 }, saveError st.2 r.2)
  else if equalFold ['r', 'o', 'o', 'm', '_', 'n', 'a', 'm', 'e'] m.1 then
    let r := storeString m.2 st.1.Name
    ({ st.1 with Name := r.1 }, saveError st.2 r.2)
  else if equalFold ['h', 'i', 'd'] m.1 then
    let r := storeString m.2 st.1.HouseID
    ({ st.1 with HouseID := r.1 }, saveError st.2 r.2)
  else if equalFold ['l', 'l', 'i', 'd', 's'] m.1 then
    let r := storeIDs m.2 st.1.LLIDs
    ({ st.1 with LLIDs := r.1 }, saveError st.2 r.2)
  else st

/-- Stores one object member into a `LogicalLoad`: the keys are the tags
`llid`, `logical_load_name`, `rid` and the field name `LPIDs`, in any case. -/
def LogicalLoad.setMember (st : LogicalLoad × Option JSONError) (m : List Char × JSONValue) :
    LogicalLoad × Option JSONError :=
  if equalFold ['l', 'l', 'i', 'd'] m.1 then
    let r := storeString m.2 st.1.ID
    ({ st.1 with ID := r.1 }, saveError st.2 r.2)
  else if equalFold ['l', 'o', 'g', 'i', 'c', 'a', 'l', '_', 'l', 'o', 'a', 'd', '_',
      'n', 'a', 'm', 'e'] m.1 then
    let r := storeString m.2 st.1.Name
    ({ st.1 with Name := r.1 }, saveError st.2 r.2)
  else if equalFold ['L', 'P', 'I', 'D', 's'] m.1 then
    let r := storeIDs m.2 st.1.LPIDs
    ({ st.1 with LPIDs := r.1 }, saveError st.2 r.2)
  else if equalFold ['r', 'i', 'd'] m.1 then
    let r := storeString m.2 st.1.RoomID
    ({ st.1 with RoomID := r.1 }, saveError st.2 r.2)
  else st

/-- Go `Decode(&room)` for a `Room`. -/
def decodeRoom : Decoder Room := decodeStruct Room.setMember

/-- Go `Decode(&ll)` for a `LogicalLoad`. -/
def decodeLogicalLoad : Decoder LogicalLoad := decodeStruct LogicalLoad.setMember

/-! ## The HTTP exchange -/

/-- Where a request goes: the Plum web service at `config.PlumAPIURL`, or a
lightpad at `https://<IP>:<Port>`. -/
inductive Endpoint where
  | web (apiURL : List Char) : Endpoint
  | pad (ip : IP) (port : Int) : Endpoint
  deriving DecidableEq, Repr

/-- The request a function of `web.go` or `lightpad.go` describes: method,
endpoint, path joined to the endpoint, and body (`none` for no body). The
headers are left out. -/
structure Request where
  Method : List Char
  Endpoint : Endpoint
  Path : List Char
  Body : Option (List Char)
  deriving DecidableEq, Repr

/-- The part of an `*http.Response` the code reads. -/
structure Response where
  StatusCode : Int
  Status : List Char
  Body : List Char
  deriving DecidableEq, Repr

/-- Outcome of handing a request to the HTTP stack (`url.Parse`,
`http.NewRequest`, `HttpClient.Do`): a non-nil error of one of these, or a
response. -/
inductive RoundTrip where
  | failed (err : ErrorValue) : RoundTrip
  | response (resp : Response) : RoundTrip
  deriving DecidableEq, Repr

/-- The HTTP stack, as the functions see it. -/
abbrev Exchange := Request → RoundTrip

/-- The constants `http.StatusOK` and `http.StatusNoContent`. -/
def StatusOK : Int := 200

/-- See `StatusOK`. -/
def StatusNoContent : Int := 204

/-- The paths of `libplumraw.go`. -/
def pathGetHouses : List Char := "/v2/getHouses".toList

/-- See `pathGetHouses`. -/
def pathGetHouse : List Char := "/v2/getHouse".toList

/-- See `pathGetHouses`. -/
def pathGetScenes : List Char := "/v2/getScenes".toList

/-- See `pathGetHouses`. -/
def pathGetScene : List Char := "/v2/getScene".toList

/-- See `pathGetHouses`. -/
def pathGetRoom : List Char := "/v2/getRoom".toList

/-- See `pathGetHouses`. -/
def pathGetLogicalLoad : List Char := "/v2/getLogicalLoad".toList

/-- See `pathGetHouses`. -/
def pathGetLightpad : List Char := "/v2/getLightpad".toList

/-- See `pathGetHouses`. -/
def pathSetLogicalLoadLevel : List Char := "/v2/setLogicalLoadLevel".toList

/-- The error `fmt.Errorf("failed to reach Plum: status %s", resp.Status)`. -/
def errReachPlum (resp : Response) : ErrorValue :=
  ErrorValue.errorf ("failed to reach Plum: status ".toList ++ resp.Status)

/-- The error `fmt.Errorf("failed to set load level: status %s", resp.Status)`. -/
def errSetLevel (resp : Response) : ErrorValue :=
  ErrorValue.errorf ("failed to set load level: status ".toList ++ resp.Status)

/-! ## `web.go` -/

/-- Struct `WebConnectionConfig` of `libplumraw.go`. -/
structure WebConnectionConfig where
  Email : List Char := []
  Password : List Char := []
  PlumAPIURL : List Char := []
  deriving DecidableEq, Repr

/-- Struct `defaultWebConnection` of `libplumraw.go`; its `HttpClient` is the
`Exchange` the methods are given. -/
structure defaultWebConnection where
  config : WebConnectionConfig := {}
  deriving DecidableEq, Repr

/-- Method `makePlumWebGETRequest` of `web.go`. -/
def defaultWebConnection.makePlumWebGETRequest (c : defaultWebConnection) (exchange : Exchange)
    (urlPath : List Char) : RoundTrip :=
  exchange { Method := "GET".toList, Endpoint := Endpoint.web c.config.PlumAPIURL,
             Path := urlPath, Body := none }

/-- Method `makePlumWebPOSTRequest` of `web.go`; `pd` is `json.Marshal(postData)`. -/
def defaultWebConnection.makePlumWebPOSTRequest (c : defaultWebConnection) (exchange : Exchange)
    (urlPath pd : List Char) : RoundTrip :=
  exchange { Method := "POST".toList, Endpoint := Endpoint.web c.config.PlumAPIURL,
             Path := urlPath, Body := some pd }

/-- Method `GetHouses` of `web.go`. The error of `Decode` is dropped. -/
def defaultWebConnection.GetHouses (c : defaultWebConnection) (exchange : Exchange)
    (dec : Decoder Houses) : Houses × GoError :=
  match c.makePlumWebGETRequest exchange pathGetHouses with
  | RoundTrip.failed err => (none, some err)
  | RoundTrip.response resp =>
    if resp.StatusCode ≠ StatusOK then (none, some (errReachPlum resp))
    else ((dec resp.Body (some [])).1, none)

/-- Method `GetHouse` of `web.go`. -/
def defaultWebConnection.GetHouse (c : defaultWebConnection) (exchange : Exchange)
    (dec : Decoder House) (hid : List Char) : House × GoError :=
  match c.makePlumWebPOSTRequest exchange pathGetHouse (marshalKeyed ['h', 'i', 'd'] hid) with
  | RoundTrip.failed err => ({}, some err)
  | RoundTrip.response resp =>
    if resp.StatusCode ≠ StatusOK then ({}, some (errReachPlum resp))
    else
      match dec resp.Body {} with
      | (_, some err) => ({}, some err)
      | (house, none) => ({ house with RoomIDs := sortStrings house.RoomIDs }, none)

/-- Method `GetScenes` of `web.go`. The error of `Decode` is dropped. -/
def defaultWebConnection.GetScenes (c : defaultWebConnection) (exchange : Exchange)
    (dec : Decoder Scenes) (hid : List Char) : Scenes × GoError :=
  match c.makePlumWebPOSTRequest exchange pathGetScenes (marshalKeyed ['h', 'i', 'd'] hid) with
  | RoundTrip.failed err => (none, some err)
  | RoundTrip.response resp =>
    if resp.StatusCode ≠ StatusOK then (none, some (errReachPlum resp))
    else ((dec resp.Body (some [])).1, none)

/-- Method `GetScene` of `web.go`. -/
def defaultWebConnection.GetScene (c : defaultWebConnection) (exchange : Exchange)
    (dec : Decoder Scene) (sid : List Char) : Scene × GoError :=
  match c.makePlumWebPOSTRequest exchange pathGetScene (marshalKeyed ['s', 'i', 'd'] sid) with
  | RoundTrip.failed err => ({}, some err)
  | RoundTrip.response resp =>
    if resp.StatusCode ≠ StatusOK then ({}, some (errReachPlum resp))
    else
      match dec resp.Body {} with
      | (_, some err) => ({}, some err)
      | (scene, none) => (scene, none)

/-- Method `GetRoom` of `web.go`. -/
def defaultWebConnection.GetRoom (c : defaultWebConnection) (exchange : Exchange)
    (dec : Decoder Room) (rid : List Char) : Room × GoError :=
  match c.makePlumWebPOSTRequest exchange pathGetRoom (marshalKeyed ['r', 'i', 'd'] rid) with
  | RoundTrip.failed err => ({}, some err)
  | RoundTrip.response resp =>
    if resp.StatusCode ≠ StatusOK then ({}, some (errReachPlum resp))
    else
      match dec resp.Body {} with
      | (_, some err) => ({}, some err)
      | (room, none) => ({ room with LLIDs := sortStrings room.LLIDs }, none)

/-- Method `GetLogicalLoad` of `web.go`. -/
def defaultWebConnection.GetLogicalLoad (c : defaultWebConnection) (exchange : Exchange)
    (dec : Decoder LogicalLoad) (llid : List Char) : LogicalLoad × GoError :=
  match c.makePlumWebPOSTRequest exchange pathGetLogicalLoad
      (marshalKeyed ['l', 'l', 'i', 'd'] llid) with
  | RoundTrip.failed err => ({}, some err)
  | RoundTrip.response resp =>
    if resp.StatusCode ≠ StatusOK then ({}, some (errReachPlum resp))
    else
      match dec resp.Body {} with
      | (_, some err) => ({}, some err)
      | (ll, none) => ({ ll with LPIDs := sortStrings ll.LPIDs }, none)

/-- Method `GetLightpad` of `web.go`. -/
def defaultWebConnection.GetLightpad (c : defaultWebConnection) (exchange : Exchange)
    (dec : Decoder LightpadSpec) (lpid : List Char) : LightpadSpec × GoError :=
  match c.makePlumWebPOSTRequest exchange pathGetLightpad
      (marshalKeyed ['l', 'p', 'i', 'd'] lpid) with
  | RoundTrip.failed err => ({}, some err)
  | RoundTrip.response resp =>
    if resp.StatusCode ≠ StatusOK then ({}, some (errReachPlum resp))
    else
      match dec resp.Body {} with
      | (_, some err) => ({}, some err)
      | (lp, none) => ({ lp with ID := lpid }, none)

/-! ## `lightpad.go`: `SetLogicalLoadLevel` -/

/-- Struct `DefaultLightpad` of `types.go`, without its `HttpClient` (the
`Exchange` the methods are given) and its channel. -/
structure DefaultLightpad where
  ID : List Char := []
  LLID : List Char := []
  Level : Int := 0
  Power : Int := 0
  IP : IP := []
  Port : Int := 0
  HAT : List Char := []
  deriving DecidableEq, Repr

/-- Method `makePadPOSTRequest` of `lightpad.go`; `pd` is
`json.Marshal(postData)`. The result comes with the request handed to the
HTTP stack. -/
def DefaultLightpad.makePadPOSTRequest (l : DefaultLightpad) (exchange : Exchange)
    (urlPath pd : List Char) : Request × RoundTrip :=
  let req : Request :=
    { Method := "POST".toList, Endpoint := Endpoint.pad l.IP l.Port, Path := urlPath,
      Body := some pd }
  (req, exchange req)

/-- Method `SetLogicalLoadLevel` of `lightpad.go`: the requests handed to the
HTTP stack, in order, and the error returned. -/
def DefaultLightpad.SetLogicalLoadLevel (l : DefaultLightpad) (exchange : Exchange)
    (level : Int) : List Request × GoError :=
  match l.makePadPOSTRequest exchange pathSetLogicalLoadLevel (marshalLevel level l.LLID) with
  | (req, RoundTrip.failed err) => ([req], some err)
  | (req, RoundTrip.response resp) =>
    if resp.StatusCode ≠ StatusNoContent then ([req], some (errSetLevel resp))
    else ([req], none)

/-! ## Sample inputs and texts used in the statements -/

/-- A character that stands for itself inside a JSON string. -/
def plainChar (c : Char) : Bool := c != '"' && c != '\\' && decide (32 ≤ c.toNat)

/-- The text `{"type":"<tag>","<field>":<n>}`, the frame of a typed event. -/
def typedFrame (tag field : List Char) (n : Int) : List Char :=
  '{' :: '"' :: (['t', 'y', 'p', 'e'] ++ '"' :: ':' :: '"' :: (tag ++ '"' :: ',' :: '"' ::
    (field ++ '"' :: ':' :: (decimalInt n ++ ['}']))))

/-- The device ID of the announcement in the comment of `listener.go`. -/
def sampleID : List Char := "8429176c-bf88-4aee-be07-b6a9064cf1ab".toList

/-- The source address `192.168.1.91`. -/
def sampleIP : IP := [192, 168, 1, 91]

/-- The frame `not json`, as `ReadString` returns it. -/
def frameNotJSON : List Char := "not json\n".toList

/-- The frame `{"type":"power","Watts":10}.` with its period, as `ReadString`
returns it. -/
def framePower10 : List Char := "\x7b\"type\":\"power\",\"Watts\":10\x7d.\n".toList

/-- The frame `{"type":"dimmerchange","Level":"abc"}`, as `ReadString` returns
it. -/
def frameDimmerABC : List Char :=
  "\x7b\"type\":\"dimmerchange\",\"Level\":\"abc\"\x7d\n".toList

/-- The text `{"type":"glowchange"}`. -/
def textGlowChange : List Char := "\x7b\"type\":\"glowchange\"\x7d".toList

/-- The text `{"type":"power","Watts":10`, an object short of its closing
brace. -/
def textPower10Open : List Char := "\x7b\"type\":\"power\",\"Watts\":10".toList

/-! ## More sample inputs -/

/-- The frame `{"type":"power","Watts":1}` with its line end. -/
def framePower1 : List Char := "\x7b\"type\":\"power\",\"Watts\":1\x7d\n".toList

/-- The frame `{"type":"power","Watts":2}` with its line end. -/
def framePower2 : List Char := "\x7b\"type\":\"power\",\"Watts\":2\x7d\n".toList

/-- The frame `{"type":"glowchange","x":[[...]]}` whose member `x` is made of
`k` opening and `k` closing brackets. -/
def deepFrame (k : Nat) : List Char :=
  "\x7b\"type\":\"glowchange\",\"x\":".toList ++
    (List.replicate k '[' ++ (List.replicate k ']' ++ ['}']))

/-- A payload of 1029 bytes and 5 tokens: `PLUM 8888 `, an ID of 1009 letters
`a`, then ` 8443` (the byte 1024 is its `3`) and ` junk`. -/
def payloadFiveTokens : List Char :=
  plumPrefix ++ ' ' :: (List.replicate 1009 'a' ++ ' ' :: decimal 8443) ++ " junk".toList

/-- A tick of `Subscribe` whose `select` runs at instant `at_` with the read
result `r`. -/
def readTick (at_ : Nat) (r : Option (List Char)) : Tick (Option (List Char)) :=
  { selectAt := at_, recv := r, sendAt := at_ }

/-- The announcement a `TestLightpadHeartbeat` is configured with in the
examples. -/
def sampleAnnouncement : LightpadAnnouncement :=
  { ID := sampleID, IP := sampleIP, Port := 8443 }

/-- A character that `json.Marshal` writes as it is: no quote, no backslash,
no control character, none of `<`, `>`, `&`, and neither U+2028 nor U+2029. -/
def marshalSafe (c : Char) : Bool :=
  c != '"' && c != '\\' && decide (32 ≤ c.toNat) && c != '<' && c != '>' && c != '&' &&
    c != Char.ofNat 0x2028 && c != Char.ofNat 0x2029

/-- The text `{"level":<level>,"llid":"<llid>"}`, with `llid` as it is. -/
def levelBody (level : Int) (llid : List Char) : List Char :=
  "\x7b\"level\":".toList ++ decimalInt level ++ ",\"llid\":\"".toList ++ llid ++ "\"\x7d".toList

/-- The response `204 No Content` with an empty body. -/
def response204 : Response :=
  { StatusCode := 204, Status := "204 No Content".toList, Body := [] }

/-- The response `401 Unauthorized` with an empty body. -/
def response401 : Response :=
  { StatusCode := 401, Status := "401 Unauthorized".toList, Body := [] }

/-- The lightpad of `TestSetLogicalLoadLevel`. -/
def samplePad : DefaultLightpad :=
  { LLID := "load-uuid".toList, IP := [127, 0, 0, 1], Port := 8443 }

/-- A test connection configured with a house, a room and a list of houses. -/
def sampleTestConnection : TestWebConnection :=
  { Houses := some ["houseid1".toList, "houseid2".toList],
    House := { ID := "rcv-houseid1".toList, RoomIDs := some ["roomid1".toList] },
    Room := { ID := "roomid1".toList, Name := "dungeon".toList } }

/-- An error a test double is configured with. -/
def sampleError : GoError := some (ErrorValue.other "boom".toList)

/-- A `200 OK` response with the given body. -/
def response200 (body : List Char) : Response :=
  { StatusCode := 200, Status := "200 OK".toList, Body := body }

/-- The body `{"rid":"roomid1","llids":["load-b","load-a"]}` of a room. -/
def bodyRoomBA : List Char :=
  "\x7b\"rid\":\"roomid1\",\"llids\":[\"load-b\",\"load-a\"]\x7d\n".toList

/-- The body `{"rid":"roomid1","llids":["load-a","load-b"]}` of the same
room, its IDs in the other order. -/
def bodyRoomAB : List Char :=
  "\x7b\"rid\":\"roomid1\",\"llids\":[\"load-a\",\"load-b\"]\x7d\n".toList

/-- The body `{"llid":"loadid1","lpids":["pad2","pad1"]}` of a logical load. -/
def bodyLoad : List Char :=
  "\x7b\"llid\":\"loadid1\",\"lpids\":[\"pad2\",\"pad1\"]\x7d\n".toList

/-- A decoder that finds the house of `TestGetHouse`, with two more rooms, in
every body. -/
def sampleHouseDecoder : Decoder House := fun _ _ =>
  ({ ID := "rcv-houseid1".toList,
     RoomIDs := some ["roomid3".toList, "roomid1".toList, "roomid2".toList],
     Location := "012345".toList, AccessToken := "bonnie-cap".toList, Name := "sarah".toList,
     TimeZone := -25200 }, none)

/-- A decoder that finds the lightpad of `TestGetLightpad` (its `lpid` is
`pad-uuid`) in every body. -/
def samplePadDecoder : Decoder LightpadSpec := fun _ _ =>
  ({ ID := "pad-uuid".toList, LLID := "load-uuid".toList, IsProvisioned := true,
     Name := "pad-uuid".toList,
     Config := { AMQPEnabled := true, Cluster := "production".toList, DefaultLevel := 255,
                 UUID := "pad-uuid".toList } }, none)

/-! ## Lemmas on `strings` and `strconv` -/

theorem HasPrefix_append (p r : List Char) : HasPrefix (p ++ r) p = true := by
  induction p with
  | nil => simp [HasPrefix]
  | cons a p ih => simp [HasPrefix, ih]

theorem HasPrefix_elim : ∀ (p s : List Char), HasPrefix s p = true → ∃ r, s = p ++ r
  | [], s, _ => ⟨s, rfl⟩
  | _ :: _, [], h => by simp [HasPrefix] at h
  | a :: p, b :: s, h => by
    simp only [HasPrefix, Bool.and_eq_true, beq_iff_eq] at h
    obtain ⟨r, hr⟩ := HasPrefix_elim p s h.2
    exact ⟨r, by simp [h.1, hr]⟩

theorem Split_ne_nil (s : List Char) (sep : Char) : Split s sep ≠ [] := by
  induction s with
  | nil => simp [Split]
  | cons c cs ih =>
    unfold Split
    split
    · simp
    · split
      · simp
      · simp

theorem Split_cons_sep (sep : Char) (s : List Char) :
    Split (sep :: s) sep = [] :: Split s sep := by
  simp [Split]

theorem Split_cons_ne (c sep : Char) (s : List Char) (h : c ≠ sep) :
    ∃ t ts, Split s sep = t :: ts ∧ Split (c :: s) sep = (c :: t) :: ts := by
  cases hs : Split s sep with
  | nil => exact absurd hs (Split_ne_nil s sep)
  | cons t ts => exact ⟨t, ts, rfl, by simp [Split, h, hs]⟩

theorem Split_append_sep (sep : Char) (a b : List Char) (h : sep ∉ a) :
    Split (a ++ sep :: b) sep = a :: Split b sep := by
  induction a with
  | nil => simp [Split]
  | cons c cs ih =>
    have hc : c ≠ sep := fun e => h (by simp [e])
    have hcs : sep ∉ cs := fun e => h (by simp [e])
    simp [Split, hc, ih hcs]

theorem Split_no_sep (sep : Char) (a : List Char) (h : sep ∉ a) :
    Split a sep = [a] := by
  induction a with
  | nil => simp [Split]
  | cons c cs ih =>
    have hc : c ≠ sep := fun e => h (by simp [e])
    have hcs : sep ∉ cs := fun e => h (by simp [e])
    simp [Split, hc, ih hcs]

theorem digitVal_digitChar : ∀ d, d < 10 → digitVal (digitChar d) = some d := by
  decide

theorem isDigit_digitChar : ∀ d, d < 10 → isDigit (digitChar d) = true := by
  decide

theorem digitChar_eq_zero : ∀ d, d < 10 → digitChar d = '0' → d = 0 := by
  decide

theorem decimalAux_eq (n : Nat) :
    ∀ fuel acc, n < fuel → decimalAux fuel n acc = decimalAux (n + 1) n [] ++ acc := by
  induction n using Nat.strong_induction_on with
  | _ n ih =>
    intro fuel acc hf
    obtain ⟨f, rfl⟩ : ∃ f, fuel = f + 1 := ⟨fuel - 1, by omega⟩
    by_cases h : n < 10
    · simp [decimalAux, h]
    · have hlt : n / 10 < n := by omega
      simp only [decimalAux, h, if_false]
      rw [ih (n / 10) hlt f _ (by omega), ih (n / 10) hlt n _ hlt]
      simp

theorem decimal_lt (n : Nat) (h : n < 10) : decimal n = [digitChar n] := by
  simp [decimal, decimalAux, h]

theorem decimal_ge (n : Nat) (h : ¬ n < 10) :
    decimal n = decimal (n / 10) ++ [digitChar (n % 10)] := by
  have hlt : n / 10 < n := by omega
  have hstep : decimalAux (n + 1) n [] = decimalAux n (n / 10) [digitChar (n % 10)] := by
    simp only [decimalAux, h, if_false]
  unfold decimal
  rw [hstep, decimalAux_eq (n / 10) n _ hlt]

theorem parseDigitsFrom_append (l : List Char) (c : Char) :
    ∀ acc, parseDigitsFrom acc (l ++ [c]) =
      (parseDigitsFrom acc l).bind fun v => (digitVal c).map fun d => v * 10 + d := by
  induction l with
  | nil => intro acc; cases h : digitVal c <;> simp [parseDigitsFrom, h]
  | cons x xs ih =>
    intro acc
    cases h : digitVal x <;> simp [parseDigitsFrom, h, ih]

theorem parseDigitsFrom_decimal (n : Nat) : parseDigitsFrom 0 (decimal n) = some n := by
  induction n using Nat.strong_induction_on with
  | _ n ih =>
    by_cases h : n < 10
    · simp [decimal_lt n h, parseDigitsFrom, digitVal_digitChar n h]
    · rw [decimal_ge n h, parseDigitsFrom_append, ih (n / 10) (by omega),
        digitVal_digitChar _ (Nat.mod_lt n (by decide))]
      simp
      omega

/-- Shape of a canonical decimal: a leading digit, which is `0` only when it
is the whole rendering, followed by digits. -/
theorem decimal_shape (n : Nat) :
    ∃ c cs, decimal n = c :: cs ∧ isDigit c = true ∧ (c = '0' → cs = []) ∧
      ∀ x ∈ cs, isDigit x = true := by
  induction n using Nat.strong_induction_on with
  | _ n ih =>
    by_cases h : n < 10
    · exact ⟨digitChar n, [], decimal_lt n h, isDigit_digitChar n h, fun _ => rfl, by simp⟩
    · obtain ⟨c, cs, hd, hc, hz, hcs⟩ := ih (n / 10) (by omega)
      refine ⟨c, cs ++ [digitChar (n % 10)], by rw [decimal_ge n h, hd]; rfl, hc, ?_, ?_⟩
      · intro hc0
        exfalso
        have h1 : decimal (n / 10) = ['0'] := by rw [hd, hc0, hz hc0]
        have h2 := parseDigitsFrom_decimal (n / 10)
        rw [h1] at h2
        have h3 : parseDigitsFrom 0 ['0'] = some 0 := by decide
        rw [h3] at h2
        have : n / 10 = 0 := by injection h2 with h2; exact h2.symm
        omega
      · intro x hx
        rcases List.mem_append.1 hx with hx | hx
        · exact hcs x hx
        · have : x = digitChar (n % 10) := by simpa using hx
          rw [this]; exact isDigit_digitChar _ (Nat.mod_lt n (by decide))

theorem decimal_ne_nil (n : Nat) : decimal n ≠ [] := by
  obtain ⟨c, cs, hd, _⟩ := decimal_shape n
  simp [hd]

theorem parseDigits_decimal (n : Nat) : parseDigits (decimal n) = some n := by
  obtain ⟨c, cs, hd, _⟩ := decimal_shape n
  have := parseDigitsFrom_decimal n
  rw [hd] at this ⊢
  simpa [parseDigits] using this

theorem isDigit_ne_sign (c : Char) (h : isDigit c = true) : c ≠ '-' ∧ c ≠ '+' := by
  constructor <;> (rintro rfl; revert h; decide)

theorem Atoi_decimal (n : Nat) (h : n < 2 ^ 63) : Atoi (decimal n) = some (n : Int) := by
  obtain ⟨c, cs, hd, hc, _⟩ := decimal_shape n
  have hp := parseDigits_decimal n
  rw [hd] at hp ⊢
  obtain ⟨h1, h2⟩ := isDigit_ne_sign c hc
  unfold Atoi
  split
  · next heq => injection heq with heq _; exact absurd heq h1
  · next heq => injection heq with heq _; exact absurd heq h2
  · simp only [hp]
    rw [if_pos h]

theorem Atoi_decimal_big (n : Nat) (h : ¬ n < 2 ^ 63) : Atoi (decimal n) = none := by
  obtain ⟨c, cs, hd, hc, _⟩ := decimal_shape n
  have hp := parseDigits_decimal n
  rw [hd] at hp ⊢
  obtain ⟨h1, h2⟩ := isDigit_ne_sign c hc
  unfold Atoi
  split
  · next heq => injection heq with heq _; exact absurd heq h1
  · next heq => injection heq with heq _; exact absurd heq h2
  · simp only [hp]
    rw [if_neg h]

theorem Atoi_decimalInt (n : Int) (h1 : -(2 ^ 63) ≤ n) (h2 : n < 2 ^ 63) :
    Atoi (decimalInt n) = some n := by
  unfold decimalInt
  split
  · next hneg =>
    have hp := parseDigits_decimal n.natAbs
    have hb : n.natAbs ≤ 2 ^ 63 := by omega
    simp only [Atoi, hp, hb, if_true]
    congr 1
    omega
  · next hpos =>
    have hb : n.natAbs < 2 ^ 63 := by omega
    rw [Atoi_decimal _ hb]
    congr 1
    omega

/-! ## Lemmas on trimming -/

theorem dropWhile_snoc_of_neg (p : Char → Bool) (c : Char) (hc : p c = false) :
    ∀ body : List Char, ∃ h, (body ++ [c]).dropWhile p = h ++ [c] := by
  intro body
  induction body with
  | nil => exact ⟨[], by simp [List.dropWhile, hc]⟩
  | cons x xs ih =>
    by_cases hx : p x = true
    · obtain ⟨h, hh⟩ := ih
      exact ⟨h, by simp [List.dropWhile, hx, hh]⟩
    · exact ⟨x :: xs, by simp [List.dropWhile, hx]⟩

/-- Go `TrimSpace` removes the white space around a text whose last character is
not white space, and the white space at its own head. -/
theorem TrimSpace_wrap (ws1 ws2 body : List Char) (c : Char) (hc : IsSpace c = false)
    (h1 : ∀ x ∈ ws1, IsSpace x = true) (h2 : ∀ x ∈ ws2, IsSpace x = true) :
    TrimSpace (ws1 ++ (body ++ [c]) ++ ws2) = (body ++ [c]).dropWhile IsSpace := by
  obtain ⟨h, hh⟩ := dropWhile_snoc_of_neg IsSpace c hc body
  have e1 : (ws1 ++ (body ++ [c]) ++ ws2).dropWhile IsSpace = h ++ [c] ++ ws2 := by
    rw [List.append_assoc, List.dropWhile_append_of_pos h1, List.dropWhile_append, hh]
    simp
  have h2r : ∀ x ∈ ws2.reverse, IsSpace x = true := fun x hx => h2 x (List.mem_reverse.1 hx)
  have e2 : (h ++ [c] ++ ws2).reverse = ws2.reverse ++ c :: h.reverse := by simp
  unfold TrimSpace
  rw [e1, e2, List.dropWhile_append_of_pos h2r, List.dropWhile_cons_of_neg (by simp [hc]), hh]
  simp

theorem HasSuffix_snoc (s : List Char) (c d : Char) :
    HasSuffix (s ++ [c]) [d] = (d == c) := by
  simp [HasSuffix, HasPrefix]

theorem TrimSuffix_snoc_ne (s : List Char) (c d : Char) (h : d ≠ c) :
    TrimSuffix (s ++ [c]) [d] = s ++ [c] := by
  simp [TrimSuffix, HasSuffix_snoc, h]

theorem TrimSuffix_snoc_same (s : List Char) (d : Char) :
    TrimSuffix (s ++ [d]) [d] = s := by
  simp [TrimSuffix, HasSuffix_snoc]

/-- The trimmed text of a frame that ends with a closing brace, with or
without white space around it. -/
theorem trimFrame_brace (ws1 ws2 g : List Char)
    (h1 : ∀ x ∈ ws1, IsSpace x = true) (h2 : ∀ x ∈ ws2, IsSpace x = true) :
    trimFrame (ws1 ++ (g ++ ['}']) ++ ws2) = (g ++ ['}']).dropWhile IsSpace := by
  obtain ⟨h, hh⟩ := dropWhile_snoc_of_neg IsSpace '}' (by decide) g
  unfold trimFrame
  rw [TrimSpace_wrap ws1 ws2 g '}' (by decide) h1 h2, hh, TrimSuffix_snoc_ne _ _ _ (by decide)]

/-- The trimmed text of a frame that ends with a closing brace and a period,
with or without white space around it. -/
theorem trimFrame_brace_period (ws1 ws2 g : List Char)
    (h1 : ∀ x ∈ ws1, IsSpace x = true) (h2 : ∀ x ∈ ws2, IsSpace x = true) :
    trimFrame (ws1 ++ (g ++ ['}'] ++ ['.']) ++ ws2) = (g ++ ['}']).dropWhile IsSpace := by
  obtain ⟨h, hh⟩ := dropWhile_snoc_of_neg IsSpace '}' (by decide) g
  have e : (g ++ ['}'] ++ ['.']).dropWhile IsSpace = h ++ ['}'] ++ ['.'] := by
    rw [List.dropWhile_append, hh]
    simp
  unfold trimFrame
  rw [TrimSpace_wrap ws1 ws2 (g ++ ['}']) '.' (by decide) h1 h2, e, TrimSuffix_snoc_same, hh]

theorem processFrame_congr (a b : List Char) (h : trimFrame a = trimFrame b) :
    processFrame a = processFrame b := by
  unfold processFrame
  rw [h]

/-- The loop sends the events of each frame, frame after frame. -/
theorem eventsOfFrames_cons (f : List Char) (fs : List (List Char)) :
    eventsOfFrames (f :: fs) = processFrame f ++ eventsOfFrames fs := by
  simp [eventsOfFrames, framesSchedule, subscribeLoop, subscribeStep, ctxDone,
    Function.comp_def]

/-! ## How many events a frame gives -/

/-- Whatever the frame, the `switch` of `Subscribe` sends at least one event:
the last event sent for a frame is never the error-carrying one. -/
theorem processFrame_switch_sends (frame : List Char) :
    ∃ pre last, processFrame frame = pre ++ [last] ∧ last.isError = false := by
  unfold processFrame
  simp only []
  split_ifs
  · exact ⟨_, Event.dimmerChange _, (List.append_assoc _ _ _).symm, rfl⟩
  · exact ⟨_, Event.power _, (List.append_assoc _ _ _).symm, rfl⟩
  · exact ⟨_, Event.pirSignal _, (List.append_assoc _ _ _).symm, rfl⟩
  · exact ⟨_, Event.unknown _, rfl, rfl⟩

/-- A frame whose envelope fails to decode makes `Subscribe` send the
error-carrying event and, the `switch` being run all the same, at least one
more event. -/
theorem processFrame_envelope_error (frame : List Char) (e : JSONError)
    (h : (unmarshalLightpadEvent (trimFrame frame)).2 = some e) :
    ∃ rest, rest ≠ [] ∧
      processFrame frame = Event.envelope { Error := some e } :: rest := by
  unfold processFrame
  simp only [h, sendIfError, List.singleton_append]
  exact ⟨_, by split_ifs <;> simp, rfl⟩

/-- A frame that decodes without error, as an envelope and as the struct of its
tag, makes `Subscribe` send exactly one event. -/
theorem processFrame_length_one (frame : List Char)
    (h0 : (unmarshalLightpadEvent (trimFrame frame)).2 = none)
    (h1 : (unmarshalDimmerChange (trimFrame frame)).2 = none)
    (h2 : (unmarshalPower (trimFrame frame)).2 = none)
    (h3 : (unmarshalPIRSignal (trimFrame frame)).2 = none) :
    (processFrame frame).length = 1 := by
  unfold processFrame
  simp only [h0, h1, h2, h3, sendIfError, List.nil_append]
  split_ifs <;> rfl

/-! ## Lemmas on the JSON model -/

theorem scanStringRaw_plain (s rest : List Char) (h : ∀ c ∈ s, plainChar c = true) :
    scanStringRaw (s ++ '"' :: rest) = some (s, rest) := by
  induction s with
  | nil => rw [scanStringRaw.eq_def]; simp
  | cons c cs ih =>
    have hc := h c (List.mem_cons_self _ _)
    simp only [plainChar, Bool.and_eq_true, bne_iff_ne, ne_eq, decide_eq_true_eq] at hc
    obtain ⟨⟨hq, hb⟩, hn⟩ := hc
    have ih' := ih (fun x hx => h x (List.mem_cons_of_mem _ hx))
    have hn' : ¬ c.toNat < 32 := by omega
    rw [List.cons_append, scanStringRaw.eq_def]
    simp only [hq, hb, hn', if_false, ih']

theorem unquoteFrom_plain (s : List Char) (h : ∀ c ∈ s, plainChar c = true) :
    unquoteFrom none s = s := by
  induction s with
  | nil => rw [unquoteFrom.eq_def]; rfl
  | cons c cs ih =>
    have hc := h c (List.mem_cons_self _ _)
    simp only [plainChar, Bool.and_eq_true, bne_iff_ne, ne_eq, decide_eq_true_eq] at hc
    obtain ⟨⟨_, hb⟩, _⟩ := hc
    have ih' := ih (fun x hx => h x (List.mem_cons_of_mem _ hx))
    rw [unquoteFrom.eq_def]
    simp only [hb, if_false, flushSurrogate, List.nil_append, ih']

theorem unquote_plain (s : List Char) (h : ∀ c ∈ s, plainChar c = true) : unquote s = s :=
  unquoteFrom_plain s h

theorem spanDigits_digits (ds rest : List Char) (t : Char) (hd : ∀ x ∈ ds, isDigit x = true)
    (ht : isDigit t = false) : spanDigits (ds ++ t :: rest) = (ds, t :: rest) := by
  unfold spanDigits
  rw [List.span_eq_take_drop, List.takeWhile_append_of_pos hd, List.dropWhile_append_of_pos hd]
  simp [List.takeWhile, List.dropWhile, ht]

/-- A canonical integer part followed by a closing brace is scanned whole. -/
theorem scanIntPart_canonical (sign cs rest : List Char) (c : Char)
    (hc : isDigit c = true) (hz : c = '0' → cs = []) (hcs : ∀ x ∈ cs, isDigit x = true) :
    scanIntPart sign (c :: cs ++ '}' :: rest) = some (sign ++ c :: cs, '}' :: rest) := by
  by_cases h0 : c = '0'
  · subst h0
    rw [hz rfl]
    rfl
  · have hs := spanDigits_digits cs rest '}' hcs (by decide)
    simp only [List.cons_append, scanIntPart, h0, if_false, hc, if_true, hs]
    rfl

theorem scanNumber_decimalInt (n : Int) (rest : List Char) :
    scanNumber (decimalInt n ++ '}' :: rest) = some (decimalInt n, '}' :: rest) := by
  obtain ⟨c, cs, hd, hc, hz, hcs⟩ := decimal_shape n.natAbs
  have h1 := (isDigit_ne_sign c hc).1
  unfold decimalInt
  split
  · rw [hd]
    simp only [List.cons_append, scanNumber, if_true]
    exact scanIntPart_canonical ['-'] cs rest c hc hz hcs
  · rw [hd]
    simp only [List.cons_append, scanNumber, h1, if_false]
    exact scanIntPart_canonical [] cs rest c hc hz hcs

/-- The first character of a canonical decimal is a digit or the sign. -/
theorem decimalInt_head (n : Int) :
    ∃ c cs, decimalInt n = c :: cs ∧ (isDigit c = true ∨ c = '-') := by
  obtain ⟨c, cs, hd, hc, _, _⟩ := decimal_shape n.natAbs
  unfold decimalInt
  split
  · exact ⟨'-', _, rfl, Or.inr rfl⟩
  · exact ⟨c, cs, hd, Or.inl hc⟩

theorem numberStart_ne (c : Char) (h : isDigit c = true ∨ c = '-') :
    c ≠ '{' ∧ c ≠ '[' ∧ c ≠ '"' ∧ c ≠ 't' ∧ c ≠ 'f' ∧ c ≠ 'n' ∧ isJSONSpace c = false ∧
      IsSpace c = false := by
  rcases h with h | h
  · refine ⟨?_, ?_, ?_, ?_, ?_, ?_, ?_, ?_⟩
    · rintro rfl; revert h; decide
    · rintro rfl; revert h; decide
    · rintro rfl; revert h; decide
    · rintro rfl; revert h; decide
    · rintro rfl; revert h; decide
    · rintro rfl; revert h; decide
    · have e : c ≠ ' ' ∧ c ≠ '\t' ∧ c ≠ '\r' ∧ c ≠ '\n' := by
        refine ⟨?_, ?_, ?_, ?_⟩ <;> (rintro rfl; revert h; decide)
      simp [isJSONSpace, e]
    · simp only [isDigit, decide_eq_true_eq] at h
      simp only [IsSpace, Bool.or_eq_false_iff, Bool.and_eq_false_imp, decide_eq_false_iff_not,
        decide_eq_true_eq]
      omega
  · subst h
    decide

theorem parseValue_decimalInt (fuel depth : Nat) (n : Int) (rest : List Char) :
    parseValue (fuel + 1) depth (decimalInt n ++ '}' :: rest) =
      some (JSONValue.number (decimalInt n), '}' :: rest) := by
  have hs := scanNumber_decimalInt n rest
  obtain ⟨c, cs, hd, hc⟩ := decimalInt_head n
  obtain ⟨a1, a2, a3, a4, a5, a6, _, _⟩ := numberStart_ne c hc
  rw [hd] at hs ⊢
  simp only [List.cons_append] at hs ⊢
  rw [parseValue.eq_def]
  simp only [a1, a2, a3, a4, a5, a6, if_false, parseScalar, or_self, hs]

theorem skipSpace_decimalInt (n : Int) (rest : List Char) :
    skipSpace (decimalInt n ++ rest) = decimalInt n ++ rest := by
  obtain ⟨c, cs, hd, hc⟩ := decimalInt_head n
  obtain ⟨_, _, _, _, _, _, a7, _⟩ := numberStart_ne c hc
  rw [hd]
  simp [skipSpace, List.dropWhile, a7]

theorem parseValue_string (fuel depth : Nat) (s rest : List Char)
    (h : ∀ c ∈ s, plainChar c = true) :
    parseValue (fuel + 1) depth ('"' :: (s ++ '"' :: rest)) =
      some (JSONValue.string s, rest) := by
  rw [parseValue.eq_def]
  have h1 : ('"' : Char) ≠ '{' := by decide
  have h2 : ('"' : Char) ≠ '[' := by decide
  simp only [h1, h2, if_false, parseScalar, if_true, scanStringRaw_plain s rest h,
    unquote_plain s h]

theorem skipSpace_cons_of_neg (c : Char) (cs : List Char) (h : isJSONSpace c = false) :
    skipSpace (c :: cs) = c :: cs := by
  simp [skipSpace, List.dropWhile, h]

theorem parseMembers_last (fuel depth : Nat) (field rest : List Char) (n : Int)
    (hf : ∀ c ∈ field, plainChar c = true) :
    parseMembers (fuel + 2) depth
        ('"' :: (field ++ '"' :: ':' :: (decimalInt n ++ '}' :: rest))) =
      some ([(field, JSONValue.number (decimalInt n))], rest) := by
  rw [parseMembers.eq_def]
  simp only [if_true, scanStringRaw_plain field _ hf, unquote_plain field hf,
    skipSpace_cons_of_neg ':' _ (by decide), skipSpace_decimalInt,
    parseValue_decimalInt, skipSpace_cons_of_neg '}' _ (by decide)]

theorem parseMembers_typed (fuel depth : Nat) (tag field rest : List Char) (n : Int)
    (ht : ∀ c ∈ tag, plainChar c = true) (hf : ∀ c ∈ field, plainChar c = true) :
    parseMembers (fuel + 3) depth
        ('"' :: (['t', 'y', 'p', 'e'] ++ '"' :: ':' :: '"' :: (tag ++ '"' ::
      ',' :: '"' :: (field ++ '"' :: ':' :: (decimalInt n ++ '}' :: rest))))) =
      some ([(['t', 'y', 'p', 'e'], JSONValue.string tag),
        (field, JSONValue.number (decimalInt n))], rest) := by
  rw [parseMembers.eq_def]
  simp only [if_true, scanStringRaw_plain ['t', 'y', 'p', 'e'] _ (by decide),
    unquote_plain ['t', 'y', 'p', 'e'] (by decide),
    skipSpace_cons_of_neg ':' _ (by decide), skipSpace_cons_of_neg '"' _ (by decide),
    parseValue_string (fuel + 1) depth tag _ ht, skipSpace_cons_of_neg ',' _ (by decide),
    parseMembers_last fuel depth field rest n hf]
  have hc : (',' : Char) ≠ '}' := by decide
  simp only [hc, if_false]

theorem parseJSON_typedFrame (tag field : List Char) (n : Int)
    (ht : ∀ c ∈ tag, plainChar c = true) (hf : ∀ c ∈ field, plainChar c = true) :
    parseJSON (typedFrame tag field n) =
      some (JSONValue.object [(['t', 'y', 'p', 'e'], JSONValue.string tag),
        (field, JSONValue.number (decimalInt n))]) := by
  unfold parseJSON
  obtain ⟨k, hk⟩ : ∃ k, 2 * (typedFrame tag field n).length + 1 = k + 4 :=
    ⟨2 * (typedFrame tag field n).length - 3, by simp [typedFrame]; omega⟩
  rw [hk]
  unfold typedFrame
  rw [skipSpace_cons_of_neg '{' _ (by decide), parseValue.eq_def]
  have hdepth : 0 < maxNestingDepth := by decide
  simp only [if_true, hdepth, skipSpace_cons_of_neg '"' _ (by decide)]
  have hq : ('"' : Char) ≠ '}' := by decide
  simp only [hq, if_false, parseMembers_typed k 1 tag field [] n ht hf]
  rfl

theorem trimFrame_typedFrame (tag field : List Char) (n : Int) :
    trimFrame (typedFrame tag field n) = typedFrame tag field n := by
  have hnil : ∀ x ∈ ([] : List Char), IsSpace x = true := by simp
  have e : typedFrame tag field n =
      [] ++ ('{' :: '"' :: (['t', 'y', 'p', 'e'] ++ '"' :: ':' :: '"' :: (tag ++ '"' :: ',' ::
        '"' :: (field ++ '"' :: ':' :: decimalInt n))) ++ ['}']) ++ [] := by
    simp [typedFrame]
  rw [e, trimFrame_brace [] [] _ hnil hnil]
  simp [List.dropWhile, IsSpace]

theorem unmarshalLightpadEvent_typedFrame (tag field : List Char) (n : Int)
    (ht : ∀ c ∈ tag, plainChar c = true) (hf : ∀ c ∈ field, plainChar c = true)
    (h1 : equalFold nameType field = false) (h2 : equalFold nameError field = false) :
    unmarshalLightpadEvent (typedFrame tag field n) = ({ Type_ := tag, Error := none }, none) := by
  have hk : equalFold nameType ['t', 'y', 'p', 'e'] = true := by decide
  simp [unmarshalLightpadEvent, unmarshalStruct, parseJSON_typedFrame tag field n ht hf,
    lightpadEvent.setMember, hk, h1, h2, storeString, saveError]

theorem unmarshalStruct_typedFrame (name tag field : List Char) (n : Int)
    (ht : ∀ c ∈ tag, plainChar c = true) (hf : ∀ c ∈ field, plainChar c = true)
    (h1 : equalFold nameType field = false) (h2 : equalFold nameError field = false)
    (h3 : equalFold name field = true) (hlo : -(2 ^ 63) ≤ n) (hhi : n < 2 ^ 63) :
    unmarshalStruct (setTypedMember name) (typedFrame tag field n) ({}, 0) =
      (({ Type_ := tag, Error := none }, n), none) := by
  have hk : equalFold nameType ['t', 'y', 'p', 'e'] = true := by decide
  simp [unmarshalStruct, parseJSON_typedFrame tag field n ht hf,
    setTypedMember, hk, h1, h2, h3, storeString, storeInt, saveError,
    Atoi_decimalInt n hlo hhi]

/-! ## The nesting limit of the JSON model -/

/-- With `depth` objects and arrays open, `k + 1` opening brackets are refused
as soon as `depth + k + 1` exceeds `maxNestingDepth`, whatever follows them. -/
theorem parseValue_open_brackets (k : Nat) :
    ∀ (fuel depth : Nat) (rest : List Char), maxNestingDepth < depth + (k + 1) →
      parseValue fuel depth (List.replicate (k + 1) '[' ++ rest) = none := by
  have h1 : ('[' : Char) ≠ '{' := by decide
  have h2 : ('[' : Char) ≠ ']' := by decide
  induction k with
  | zero =>
    intro fuel depth rest h
    have hd : ¬ depth < maxNestingDepth := by omega
    cases fuel with
    | zero => rw [parseValue.eq_def]
    | succ f =>
      rw [parseValue.eq_def]
      simp only [List.replicate_succ, List.replicate_zero, List.cons_append, List.nil_append,
        h1, if_false, if_true, hd]
  | succ k ih =>
    intro fuel depth rest h
    cases fuel with
    | zero => rw [parseValue.eq_def]
    | succ f =>
      rw [parseValue.eq_def, List.replicate_succ, List.cons_append]
      by_cases hd : depth < maxNestingDepth
      · have e := ih (f - 1) (depth + 1) rest (by omega)
        rw [List.replicate_succ, List.cons_append] at e ⊢
        simp only [h1, h2, if_false, if_true, hd, skipSpace_cons_of_neg '[' _ (by decide)]
        cases f with
        | zero => rw [parseElements.eq_def]
        | succ g =>
          rw [parseElements.eq_def]
          simp only [Nat.add_sub_cancel] at e
          simp only [e]
      · simp only [h1, if_false, if_true, hd]

/-- A text that opens more than `maxNestingDepth` arrays is no JSON text for
`checkValid`, whatever follows the brackets. -/
theorem parseJSON_too_deep (k : Nat) (rest : List Char) (h : maxNestingDepth < k) :
    parseJSON (List.replicate k '[' ++ rest) = none := by
  have hk : 0 < k := by omega
  obtain ⟨j, rfl⟩ : ∃ j, k = j + 1 := ⟨k - 1, by omega⟩
  unfold parseJSON
  have hs : skipSpace (List.replicate (j + 1) '[' ++ rest) =
      List.replicate (j + 1) '[' ++ rest := by
    rw [List.replicate_succ, List.cons_append]
    exact skipSpace_cons_of_neg '[' _ (by decide)
  rw [hs, parseValue_open_brackets j _ 0 rest (by omega)]

/-- An envelope one of whose members is nested too deep, such as
`{"type":"glowchange","x":[[...` with `maxNestingDepth` brackets, does not
decode: the error is a syntax error and the struct is left as it was. -/
theorem unmarshalLightpadEvent_too_deep (k : Nat) (rest : List Char)
    (h : maxNestingDepth ≤ k) :
    unmarshalLightpadEvent
        ("\x7b\"type\":\"glowchange\",\"x\":".toList ++ (List.replicate k '[' ++ rest)) =
      ({}, some JSONError.SyntaxError) := by
  have hk : 0 < k := by
    have : 0 < maxNestingDepth := by decide
    omega
  obtain ⟨j, rfl⟩ : ∃ j, k = j + 1 := ⟨k - 1, by omega⟩
  have e1 : "\x7b\"type\":\"glowchange\",\"x\":".toList ++
        (List.replicate (j + 1) '[' ++ rest) =
      '{' :: '"' :: (['t', 'y', 'p', 'e'] ++ '"' :: ':' :: '"' ::
        ("glowchange".toList ++ '"' :: ',' :: '"' :: (['x'] ++ '"' :: ':' ::
          (List.replicate (j + 1) '[' ++ rest)))) := rfl
  have hp : parseJSON ("\x7b\"type\":\"glowchange\",\"x\":".toList ++
      (List.replicate (j + 1) '[' ++ rest)) = none := by
    unfold parseJSON
    obtain ⟨g, hg⟩ : ∃ g, 2 * ("\x7b\"type\":\"glowchange\",\"x\":".toList ++
        (List.replicate (j + 1) '[' ++ rest)).length + 1 = g + 4 :=
      ⟨2 * ("\x7b\"type\":\"glowchange\",\"x\":".toList ++
        (List.replicate (j + 1) '[' ++ rest)).length - 3, by
        rw [e1]; simp only [List.length_cons, List.length_append]; omega⟩
    rw [hg, e1]
    have hdepth : 0 < maxNestingDepth := by decide
    have hq : ('"' : Char) ≠ '}' := by decide
    have hc : (',' : Char) ≠ '}' := by decide
    have hb : skipSpace (List.replicate (j + 1) '[' ++ rest) =
        List.replicate (j + 1) '[' ++ rest := by
      rw [List.replicate_succ, List.cons_append]
      exact skipSpace_cons_of_neg '[' _ (by decide)
    rw [skipSpace_cons_of_neg '{' _ (by decide), parseValue.eq_def]
    simp only [if_true, hdepth, skipSpace_cons_of_neg '"' _ (by decide), hq, if_false]
    rw [parseMembers.eq_def]
    simp only [if_true, scanStringRaw_plain ['t', 'y', 'p', 'e'] _ (by decide),
      skipSpace_cons_of_neg ':' _ (by decide), skipSpace_cons_of_neg '"' _ (by decide),
      parseValue_string (g + 1) (0 + 1) "glowchange".toList _ (by decide),
      skipSpace_cons_of_neg ',' _ (by decide), hc, if_false]
    rw [parseMembers.eq_def]
    simp only [if_true, scanStringRaw_plain ['x'] _ (by decide),
      skipSpace_cons_of_neg ':' _ (by decide), hb,
      parseValue_open_brackets j (g + 1) (0 + 1) rest (by omega)]
  unfold unmarshalLightpadEvent unmarshalStruct
  rw [hp]

/-- The frame `{"type":"glowchange","x":[[...]]}` with `maxNestingDepth`
brackets or more is well-formed but nested too deep: `Subscribe` sends the
error-carrying event and then an `LPEUnknown`, as for any text that does not
decode. -/
theorem processFrame_too_deep (k : Nat) (h : maxNestingDepth ≤ k) :
    processFrame (deepFrame k) =
      [Event.envelope { Error := some JSONError.SyntaxError },
       Event.unknown { Type_ := tagUnknown, Message := deepFrame k }] := by
  unfold deepFrame
  have hnil : ∀ x ∈ ([] : List Char), IsSpace x = true := by simp
  have ht : trimFrame ("\x7b\"type\":\"glowchange\",\"x\":".toList ++
        (List.replicate k '[' ++ (List.replicate k ']' ++ ['}']))) =
      "\x7b\"type\":\"glowchange\",\"x\":".toList ++
        (List.replicate k '[' ++ (List.replicate k ']' ++ ['}'])) := by
    have e := trimFrame_brace [] []
      ("\x7b\"type\":\"glowchange\",\"x\":".toList ++
        (List.replicate k '[' ++ List.replicate k ']')) hnil hnil
    simp only [List.nil_append, List.append_nil, List.append_assoc] at e
    rw [e]
    exact List.dropWhile_cons_of_neg (by decide)
  have hu := unmarshalLightpadEvent_too_deep k (List.replicate k ']' ++ ['}']) h
  have t1 : ([] : List Char) ≠ tagDimmerChange := by decide
  have t2 : ([] : List Char) ≠ tagPower := by decide
  have t3 : ([] : List Char) ≠ tagPIRSignal := by decide
  unfold processFrame
  simp only [ht, hu, sendIfError, t1, t2, t3, if_false]
  rfl

/-! ## The fuel of the JSON parser is never exhausted -/

theorem skipSpace_length_le (cs : List Char) : (skipSpace cs).length ≤ cs.length :=
  (List.dropWhile_sublist isJSONSpace).length_le

theorem scanStringRaw_length_lt :
    ∀ (n : Nat) (cs body r : List Char), cs.length ≤ n →
      scanStringRaw cs = some (body, r) → r.length < cs.length := by
  intro n
  induction n with
  | zero =>
    intro cs body r hn h
    have : cs = [] := List.length_eq_zero.1 (Nat.le_zero.1 hn)
    subst this
    simp [scanStringRaw] at h
  | succ n ih =>
    intro cs body r hn h
    rw [scanStringRaw.eq_def] at h
    split at h
    · simp at h
    · next c rest =>
      simp only [List.length_cons] at hn ⊢
      split at h
      · injection h with h; injection h with _ h; subst h; omega
      · split at h
        · split at h
          · simp at h
          · next e rest1 =>
            simp only [List.length_cons] at hn ⊢
            split at h
            · split at h
              · next h1 h2 h3 h4 rest2 =>
                simp only [List.length_cons] at hn ⊢
                split at h
                · split at h
                  · next b' r' heq =>
                    injection h with h; injection h with _ h; subst h
                    have := ih rest2 b' r' (by omega) heq
                    omega
                  · simp at h
                · simp at h
              · simp at h
            · split at h
              · split at h
                · next b' r' heq =>
                  injection h with h; injection h with _ h; subst h
                  have := ih rest1 b' r' (by omega) heq
                  omega
                · simp at h
              · simp at h
        · split at h
          · simp at h
          · split at h
            · next b' r' heq =>
              injection h with h; injection h with _ h; subst h
              have := ih rest b' r' (by omega) heq
              omega
            · simp at h

theorem spanDigits_length_le (cs : List Char) : (spanDigits cs).2.length ≤ cs.length := by
  unfold spanDigits
  rw [List.span_eq_take_drop]
  exact (List.dropWhile_sublist isDigit).length_le

theorem scanExponent_length_le (lit cs l r : List Char)
    (h : scanExponent lit cs = some (l, r)) : r.length ≤ cs.length := by
  unfold scanExponent at h
  split at h
  · next e r0 =>
    split at h
    · split at h
      · next s r1 =>
        split at h
        · have hle := spanDigits_length_le r1
          split at h
          · simp at h
          · next ds r2 heq =>
            injection h with h; injection h with _ h; subst h
            rw [heq] at hle
            simp only [List.length_cons]
            exact Nat.le_trans hle (by omega)
        · have hle := spanDigits_length_le (s :: r1)
          split at h
          · simp at h
          · next ds r2 heq =>
            injection h with h; injection h with _ h; subst h
            rw [heq] at hle
            simp only [List.length_cons] at hle ⊢
            omega
      · simp at h
    · injection h with h; injection h with _ h; subst h; exact Nat.le_refl _
  · injection h with h; injection h with _ h; subst h; exact Nat.le_refl _

theorem scanFraction_length_le (lit cs l r : List Char)
    (h : scanFraction lit cs = some (l, r)) : r.length ≤ cs.length := by
  unfold scanFraction at h
  split at h
  · next d r0 =>
    split at h
    · have hle := spanDigits_length_le r0
      split at h
      · simp at h
      · next ds r1 heq =>
        rw [heq] at hle
        have := scanExponent_length_le _ _ _ _ h
        simp only [List.length_cons]
        exact Nat.le_trans this (Nat.le_trans hle (by omega))
    · exact scanExponent_length_le _ _ _ _ h
  · injection h with h; injection h with _ h; subst h; exact Nat.le_refl _

theorem scanIntPart_length_lt (sign cs l r : List Char)
    (h : scanIntPart sign cs = some (l, r)) : r.length < cs.length := by
  unfold scanIntPart at h
  split at h
  · next d r0 =>
    simp only [List.length_cons]
    split at h
    · have := scanFraction_length_le _ _ _ _ h
      omega
    · split at h
      · have hle := spanDigits_length_le r0
        split at h
        next ds r1 heq =>
        rw [heq] at hle
        have := scanFraction_length_le _ _ _ _ h
        exact Nat.lt_succ_of_le (Nat.le_trans this hle)
      · simp at h
  · simp at h

theorem scanNumber_length_lt (cs l r : List Char)
    (h : scanNumber cs = some (l, r)) : r.length < cs.length := by
  unfold scanNumber at h
  split at h
  · next c r0 =>
    split at h
    · have := scanIntPart_length_lt _ _ _ _ h
      simp only [List.length_cons]
      omega
    · exact scanIntPart_length_lt _ _ _ _ h
  · simp at h

theorem scanLiteral_length_lt (cs : List Char) (v : JSONValue) (r : List Char)
    (h : scanLiteral cs = some (v, r)) : r.length < cs.length := by
  cases cs with
  | nil => simp [scanLiteral, HasPrefix] at h
  | cons c cs =>
    unfold scanLiteral at h
    split at h
    · injection h with h; injection h with _ h; subst h; simp; omega
    · split at h
      · injection h with h; injection h with _ h; subst h; simp; omega
      · split at h
        · injection h with h; injection h with _ h; subst h; simp; omega
        · simp at h

theorem parseScalar_length_lt (cs : List Char) (v : JSONValue) (r : List Char)
    (h : parseScalar cs = some (v, r)) : r.length < cs.length := by
  unfold parseScalar at h
  split at h
  · simp at h
  · next c r0 =>
    split at h
    · split at h
      · next body r1 heq =>
        injection h with h; injection h with _ h; subst h
        have := scanStringRaw_length_lt r0.length r0 body r1 (Nat.le_refl _) heq
        simp only [List.length_cons]
        omega
      · simp at h
    · split at h
      · exact scanLiteral_length_lt _ _ _ h
      · split at h
        · next lit r1 heq =>
          injection h with h; injection h with _ h; subst h
          exact scanNumber_length_lt _ _ _ heq
        · simp at h

/-- Each of the three parsers returns a text strictly shorter than the one it
was given. -/
theorem parse_length_lt (fuel : Nat) :
    (∀ depth cs v r, parseValue fuel depth cs = some (v, r) → r.length < cs.length) ∧
    (∀ depth cs ms r, parseMembers fuel depth cs = some (ms, r) → r.length < cs.length) ∧
    (∀ depth cs vs r, parseElements fuel depth cs = some (vs, r) → r.length < cs.length) := by
  induction fuel with
  | zero =>
    refine ⟨?_, ?_, ?_⟩ <;>
      (intro depth cs v r h; simp [parseValue, parseMembers, parseElements] at h)
  | succ f ih =>
    obtain ⟨ihV, ihM, ihE⟩ := ih
    refine ⟨?_, ?_, ?_⟩
    · intro depth cs v r h
      rw [parseValue.eq_def] at h
      cases cs with
      | nil => simp at h
      | cons c r0 =>
        simp only [List.length_cons] at h ⊢
        have hsk := skipSpace_length_le r0
        by_cases hdepth : depth < maxNestingDepth
        case neg =>
          simp only [hdepth, if_false] at h
          by_cases h1 : c = '{'
          · simp [h1] at h
          · by_cases h3 : c = '['
            · simp [h1, h3] at h
            · simp only [h1, h3, if_false] at h
              have := parseScalar_length_lt _ _ _ h
              simpa using this
        simp only [hdepth, if_true] at h
        by_cases h1 : c = '{'
        · simp only [h1, if_true] at h
          cases hs : skipSpace r0 with
          | nil => simp [hs] at h
          | cons c1 r1 =>
            rw [hs] at hsk
            simp only [hs, List.length_cons] at h hsk
            by_cases h2 : c1 = '}'
            · simp only [h2, if_true] at h
              injection h with h; injection h with _ h; subst h; omega
            · simp only [h2, if_false] at h
              cases hm : parseMembers f (depth + 1) (c1 :: r1) with
              | none => simp [hm] at h
              | some p =>
                obtain ⟨ms, r2⟩ := p
                simp only [hm] at h
                injection h with h; injection h with _ h; subst h
                have := ihM _ _ _ _ hm
                simp only [List.length_cons] at this
                omega
        · simp only [h1, if_false] at h
          by_cases h3 : c = '['
          · simp only [h3, if_true] at h
            cases hs : skipSpace r0 with
            | nil => simp [hs] at h
            | cons c1 r1 =>
              rw [hs] at hsk
              simp only [hs, List.length_cons] at h hsk
              by_cases h2 : c1 = ']'
              · simp only [h2, if_true] at h
                injection h with h; injection h with _ h; subst h; omega
              · simp only [h2, if_false] at h
                cases hm : parseElements f (depth + 1) (c1 :: r1) with
                | none => simp [hm] at h
                | some p =>
                  obtain ⟨ms, r2⟩ := p
                  simp only [hm] at h
                  injection h with h; injection h with _ h; subst h
                  have := ihE _ _ _ _ hm
                  simp only [List.length_cons] at this
                  omega
          · simp only [h3, if_false] at h
            have := parseScalar_length_lt _ _ _ h
            simpa using this
    · intro depth cs ms r h
      rw [parseMembers.eq_def] at h
      cases cs with
      | nil => simp at h
      | cons q r0 =>
        simp only [List.length_cons] at h ⊢
        by_cases hq : q = '"'
        · simp only [hq, if_true] at h
          cases hs : scanStringRaw r0 with
          | none => simp [hs] at h
          | some p =>
            obtain ⟨body, r1⟩ := p
            have l1 := scanStringRaw_length_lt r0.length r0 body r1 (Nat.le_refl _) hs
            have l2 := skipSpace_length_le r1
            simp only [hs] at h
            cases hk : skipSpace r1 with
            | nil => simp [hk] at h
            | cons colon r2 =>
              rw [hk] at l2
              simp only [hk, List.length_cons] at h l2
              by_cases hc : colon = ':'
              · simp only [hc, if_true] at h
                have l3 := skipSpace_length_le r2
                cases hv : parseValue f depth (skipSpace r2) with
                | none => simp [hv] at h
                | some p2 =>
                  obtain ⟨v, r3⟩ := p2
                  have l4 := ihV _ _ _ _ hv
                  have l5 := skipSpace_length_le r3
                  simp only [hv] at h
                  cases hd : skipSpace r3 with
                  | nil => simp [hd] at h
                  | cons d r4 =>
                    rw [hd] at l5
                    simp only [hd, List.length_cons] at h l5
                    by_cases hd1 : d = '}'
                    · simp only [hd1, if_true] at h
                      injection h with h; injection h with _ h; subst h; omega
                    · simp only [hd1, if_false] at h
                      by_cases hd2 : d = ','
                      · simp only [hd2, if_true] at h
                        have l6 := skipSpace_length_le r4
                        cases hm : parseMembers f depth (skipSpace r4) with
                        | none => simp [hm] at h
                        | some p3 =>
                          obtain ⟨ms', r5⟩ := p3
                          have l7 := ihM _ _ _ _ hm
                          simp only [hm] at h
                          injection h with h; injection h with _ h; subst h; omega
                      · simp [hd2] at h
              · simp [hc] at h
        · simp [hq] at h
    · intro depth cs vs r h
      rw [parseElements.eq_def] at h
      simp only at h
      cases hv : parseValue f depth cs with
      | none => simp [hv] at h
      | some p2 =>
        obtain ⟨v, r1⟩ := p2
        have l4 := ihV _ _ _ _ hv
        have l5 := skipSpace_length_le r1
        simp only [hv] at h
        cases hd : skipSpace r1 with
        | nil => simp [hd] at h
        | cons d r2 =>
          rw [hd] at l5
          simp only [hd, List.length_cons] at h l5
          by_cases hd1 : d = ']'
          · simp only [hd1, if_true] at h
            injection h with h; injection h with _ h; subst h; omega
          · simp only [hd1, if_false] at h
            by_cases hd2 : d = ','
            · simp only [hd2, if_true] at h
              have l6 := skipSpace_length_le r2
              cases hm : parseElements f depth (skipSpace r2) with
              | none => simp [hm] at h
              | some p3 =>
                obtain ⟨vs', r3⟩ := p3
                have l7 := ihE _ _ _ _ hm
                simp only [hm] at h
                injection h with h; injection h with _ h; subst h; omega
            · simp [hd2] at h

/-- The result of the three parsers does not depend on the fuel, once it is
more than twice the length of the text (plus one for members and elements). -/
theorem parse_fuel_irrelevant (fuel : Nat) :
    (∀ fuel' depth cs, 2 * cs.length < fuel → 2 * cs.length < fuel' →
      parseValue fuel depth cs = parseValue fuel' depth cs) ∧
    (∀ fuel' depth cs, 2 * cs.length + 1 < fuel → 2 * cs.length + 1 < fuel' →
      parseMembers fuel depth cs = parseMembers fuel' depth cs) ∧
    (∀ fuel' depth cs, 2 * cs.length + 1 < fuel → 2 * cs.length + 1 < fuel' →
      parseElements fuel depth cs = parseElements fuel' depth cs) := by
  induction fuel with
  | zero =>
    refine ⟨?_, ?_, ?_⟩ <;> (intro fuel' depth cs h; omega)
  | succ f ih =>
    obtain ⟨ihV, ihM, ihE⟩ := ih
    refine ⟨?_, ?_, ?_⟩
    · intro fuel' depth cs hf hf'
      obtain ⟨g, rfl⟩ : ∃ g, fuel' = g + 1 := ⟨fuel' - 1, by omega⟩
      rw [parseValue.eq_def (f + 1) depth cs, parseValue.eq_def (g + 1) depth cs]
      cases cs with
      | nil => rfl
      | cons c r0 =>
        simp only [List.length_cons] at hf hf' ⊢
        have hsk := skipSpace_length_le r0
        by_cases hdepth : depth < maxNestingDepth
        case neg => simp only [hdepth, if_false]
        simp only [hdepth, if_true]
        by_cases h1 : c = '{'
        · simp only [h1, if_true]
          cases hs : skipSpace r0 with
          | nil => rfl
          | cons c1 r1 =>
            rw [hs] at hsk
            simp only [List.length_cons] at hsk
            by_cases h2 : c1 = '}'
            · simp only [h2, if_true]
            · simp only [h2, if_false]
              rw [ihM g (depth + 1) (c1 :: r1) (by simp only [List.length_cons]; omega)
                (by simp only [List.length_cons]; omega)]
        · simp only [h1, if_false]
          by_cases h3 : c = '['
          · simp only [h3, if_true]
            cases hs : skipSpace r0 with
            | nil => rfl
            | cons c1 r1 =>
              rw [hs] at hsk
              simp only [List.length_cons] at hsk
              by_cases h2 : c1 = ']'
              · simp only [h2, if_true]
              · simp only [h2, if_false]
                rw [ihE g (depth + 1) (c1 :: r1) (by simp only [List.length_cons]; omega)
                  (by simp only [List.length_cons]; omega)]
          · simp only [h3, if_false]
    · intro fuel' depth cs hf hf'
      obtain ⟨g, rfl⟩ : ∃ g, fuel' = g + 1 := ⟨fuel' - 1, by omega⟩
      rw [parseMembers.eq_def (f + 1) depth cs, parseMembers.eq_def (g + 1) depth cs]
      cases cs with
      | nil => rfl
      | cons q r0 =>
        simp only [List.length_cons] at hf hf' ⊢
        by_cases hq : q = '"'
        · simp only [hq, if_true]
          cases hs : scanStringRaw r0 with
          | none => rfl
          | some p =>
            obtain ⟨body, r1⟩ := p
            have l1 := scanStringRaw_length_lt r0.length r0 body r1 (Nat.le_refl _) hs
            have l2 := skipSpace_length_le r1
            simp only []
            cases hk : skipSpace r1 with
            | nil => rfl
            | cons colon r2 =>
              rw [hk] at l2
              simp only [List.length_cons] at l2
              by_cases hc : colon = ':'
              · simp only [hc, if_true]
                have l3 := skipSpace_length_le r2
                rw [ihV g depth (skipSpace r2) (by omega) (by omega)]
                cases hv : parseValue g depth (skipSpace r2) with
                | none => rfl
                | some p2 =>
                  obtain ⟨v, r3⟩ := p2
                  have l4 := (parse_length_lt g).1 _ _ _ _ hv
                  have l5 := skipSpace_length_le r3
                  simp only []
                  cases hd : skipSpace r3 with
                  | nil => rfl
                  | cons d r4 =>
                    rw [hd] at l5
                    simp only [List.length_cons] at l5
                    by_cases hd1 : d = '}'
                    · simp only [hd1, if_true]
                    · simp only [hd1, if_false]
                      by_cases hd2 : d = ','
                      · simp only [hd2, if_true]
                        have l6 := skipSpace_length_le r4
                        rw [ihM g depth (skipSpace r4) (by omega) (by omega)]
                      · simp only [hd2, if_false]
              · simp only [hc, if_false]
        · simp only [hq, if_false]
    · intro fuel' depth cs hf hf'
      obtain ⟨g, rfl⟩ : ∃ g, fuel' = g + 1 := ⟨fuel' - 1, by omega⟩
      rw [parseElements.eq_def (f + 1) depth cs, parseElements.eq_def (g + 1) depth cs]
      simp only []
      rw [ihV g depth cs (by omega) (by omega)]
      cases hv : parseValue g depth cs with
      | none => rfl
      | some p2 =>
        obtain ⟨v, r1⟩ := p2
        have l4 := (parse_length_lt g).1 _ _ _ _ hv
        have l5 := skipSpace_length_le r1
        simp only []
        cases hd : skipSpace r1 with
        | nil => rfl
        | cons d r2 =>
          rw [hd] at l5
          simp only [List.length_cons] at l5
          by_cases hd1 : d = ']'
          · simp only [hd1, if_true]
          · simp only [hd1, if_false]
            by_cases hd2 : d = ','
            · simp only [hd2, if_true]
              have l6 := skipSpace_length_le r2
              rw [ihE g depth (skipSpace r2) (by omega) (by omega)]
            · simp only [hd2, if_false]

/-- The fuel `parseJSON` supplies is never exhausted: any larger fuel gives
the same result. -/
theorem parseValue_fuel_irrelevant (data : List Char) (extra : Nat) :
    parseValue (2 * data.length + 1 + extra) 0 (skipSpace data) =
      parseValue (2 * data.length + 1) 0 (skipSpace data) := by
  have h := skipSpace_length_le data
  exact (parse_fuel_irrelevant _).1 _ _ _ (by omega) (by omega)

/-! ## Lemmas on the listener -/

theorem isDigit_ne_space (c : Char) (h : isDigit c = true) : c ≠ ' ' := by
  rintro rfl; revert h; decide

theorem space_not_mem_decimal (n : Nat) : ' ' ∉ decimal n := by
  obtain ⟨c, cs, hd, hc, _, hcs⟩ := decimal_shape n
  rw [hd]
  intro hmem
  rcases List.mem_cons.1 hmem with h | h
  · exact isDigit_ne_space c hc h.symm
  · exact isDigit_ne_space _ (hcs _ h) rfl

/-- The tokens of a well-formed announcement text. -/
theorem Split_announcement (id port : List Char) (hid : ' ' ∉ id) (hport : ' ' ∉ port) :
    Split (plumPrefix ++ ' ' :: (id ++ ' ' :: port)) ' ' =
      [['P', 'L', 'U', 'M'], ['8', '8', '8', '8'], id, port] := by
  have h1 : plumPrefix ++ ' ' :: (id ++ ' ' :: port) =
      ['P', 'L', 'U', 'M'] ++ ' ' :: (['8', '8', '8', '8'] ++ ' ' :: (id ++ ' ' :: port)) := by
    simp [plumPrefix]
  rw [h1, Split_append_sep _ _ _ (by decide), Split_append_sep _ _ _ (by decide),
    Split_append_sep _ _ _ hid, Split_no_sep _ _ hport]

/-- The tokens of any text that starts with `PLUM 8888`: the first is `PLUM`,
the second starts with `8888`. -/
theorem Split_of_HasPrefix (msg : List Char) (h : HasPrefix msg plumPrefix = true) :
    ∃ t ts, Split msg ' ' = ['P', 'L', 'U', 'M'] :: (['8', '8', '8', '8'] ++ t) :: ts := by
  obtain ⟨r, rfl⟩ := HasPrefix_elim _ _ h
  have h1 : plumPrefix ++ r = ['P', 'L', 'U', 'M'] ++ ' ' :: ('8' :: '8' :: '8' :: '8' :: r) := by
    simp [plumPrefix]
  rw [h1, Split_append_sep _ _ _ (by decide)]
  obtain ⟨t0, ts0, e0, e1⟩ := Split_cons_ne '8' ' ' r (by decide)
  obtain ⟨t1, ts1, e2, e3⟩ := Split_cons_ne '8' ' ' ('8' :: r) (by decide)
  obtain ⟨t2, ts2, e4, e5⟩ := Split_cons_ne '8' ' ' ('8' :: '8' :: r) (by decide)
  obtain ⟨t3, ts3, e6, e7⟩ := Split_cons_ne '8' ' ' ('8' :: '8' :: '8' :: r) (by decide)
  rw [e1] at e2
  injection e2 with a1 b1
  rw [e3] at e4
  injection e4 with a2 b2
  rw [e5] at e6
  injection e6 with a3 b3
  refine ⟨t0, ts0, ?_⟩
  rw [e7, ← a3, ← a2, ← a1, ← b3, ← b2, ← b1]
  rfl

theorem utf8Len_pos (c : Char) : 0 < utf8Len c := by
  unfold utf8Len
  split_ifs <;> omega

theorem byteLen_append (a b : List Char) : byteLen (a ++ b) = byteLen a + byteLen b := by
  induction a with
  | nil => simp [byteLen]
  | cons c cs ih => simp [byteLen, ih, Nat.add_assoc]

theorem byteLen_replicate_a (n : Nat) : byteLen (List.replicate n 'a') = n := by
  induction n with
  | zero => rfl
  | succ k ih =>
    have h1 : utf8Len 'a' = 1 := by decide
    rw [List.replicate_succ, byteLen, ih, h1]
    omega

/-- A text that fits is read whole. -/
theorem firstBytes_of_le :
    ∀ (s : List Char) (room : Nat), byteLen s ≤ room → firstBytes room s = s := by
  intro s
  induction s with
  | nil => intro room _; rfl
  | cons c cs ih =>
    intro room h
    simp only [byteLen] at h
    have hc : utf8Len c ≤ room := by omega
    rw [firstBytes, if_pos hc, ih (room - utf8Len c) (by omega)]

/-- What follows the last byte that fits is dropped. -/
theorem firstBytes_append_exact :
    ∀ (a b : List Char) (room : Nat), byteLen a = room → firstBytes room (a ++ b) = a := by
  intro a
  induction a with
  | nil =>
    intro b room h
    simp only [byteLen] at h
    subst h
    cases b with
    | nil => rfl
    | cons c cs =>
      have := utf8Len_pos c
      have hc : ¬ utf8Len c ≤ 0 := by omega
      rw [List.nil_append, firstBytes, if_neg hc]
      rfl
  | cons c cs ih =>
    intro b room h
    simp only [byteLen] at h
    have hc : utf8Len c ≤ room := by omega
    rw [List.cons_append, firstBytes, if_pos hc, ih b (room - utf8Len c) (by omega)]

/-- A payload of at most 1024 bytes is read whole. -/
theorem msgOf_of_le (payload : List Char) (h : byteLen payload ≤ bufLen) :
    msgOf payload = payload :=
  firstBytes_of_le payload bufLen h

/-- Whether a text starts with `p` is decided by its first `byteLen p`
bytes. -/
theorem HasPrefix_firstBytes :
    ∀ (p s : List Char) (room : Nat), byteLen p ≤ room → replacementChar ∉ p →
      HasPrefix (firstBytes room s) p = HasPrefix s p := by
  intro p
  induction p with
  | nil => intro s room _ _; simp [HasPrefix]
  | cons a p ih =>
    intro s room h hr
    have ha : a ≠ replacementChar := fun e => hr (by simp [e])
    have hp : replacementChar ∉ p := fun e => hr (by simp [e])
    simp only [byteLen] at h
    cases s with
    | nil => rfl
    | cons b s =>
      by_cases hab : a = b
      · subst hab
        have hc : utf8Len a ≤ room := by omega
        rw [firstBytes, if_pos hc]
        simp only [HasPrefix, beq_self_eq_true, Bool.true_and]
        exact ih s (room - utf8Len a) (by omega) hp
      · have e2 : HasPrefix (b :: s) (a :: p) = false := by simp [HasPrefix, hab]
        rw [e2]
        rw [firstBytes]
        split_ifs
        · simp [HasPrefix, hab]
        · cases room with
          | zero => rfl
          | succ k => simp [List.replicate_succ, HasPrefix, ha]

theorem HasPrefix_msgOf (payload : List Char) :
    HasPrefix (msgOf payload) plumPrefix = HasPrefix payload plumPrefix :=
  HasPrefix_firstBytes plumPrefix payload bufLen (by decide) (by decide)

/-- The announcement of a well-formed text. -/
theorem announcementOf_text (id : List Char) (ip : IP) (p : Nat)
    (hid : ' ' ∉ id) (hp : p < 2 ^ 63) :
    announcementOf (plumPrefix ++ ' ' :: (id ++ ' ' :: decimal p)) ip =
      some { ID := id, IP := ip, Port := (p : Int) } := by
  have hs := Split_announcement id (decimal p) hid (space_not_mem_decimal p)
  simp only [announcementOf, HasPrefix_append, hs, List.length_cons,
    List.length_nil, List.getD_cons_succ, List.getD_cons_zero, Atoi_decimal p hp]
  rfl

/-- The three ways a text is passed over. -/
theorem announcementOf_none (msg : List Char) (ip : IP)
    (h : HasPrefix msg plumPrefix = false ∨ (Split msg ' ').length ≠ 4 ∨
      Atoi ((Split msg ' ').getD 3 []) = none) :
    announcementOf msg ip = none := by
  unfold announcementOf
  rcases h with h | h | h
  · simp [h]
  · simp [h]
  · simp only [h]
    split_ifs <;> rfl

/-- The tokens of a text that is announced. -/
theorem announcementOf_some (msg : List Char) (ip : IP) (la : LightpadAnnouncement)
    (h : announcementOf msg ip = some la) :
    ∃ t port, Split msg ' ' =
        [['P', 'L', 'U', 'M'], ['8', '8', '8', '8'] ++ t, la.ID, port] ∧
      Atoi port = some la.Port ∧ la.IP = ip := by
  unfold announcementOf at h
  by_cases hp : HasPrefix msg plumPrefix = true
  · obtain ⟨t, ts, hs⟩ := Split_of_HasPrefix msg hp
    simp only [hp, if_true] at h
    by_cases hl : (Split msg ' ').length = 4
    · simp only [hl, if_true] at h
      rw [hs] at hl h
      match ts, hl, h with
      | [x, y], _, h =>
        simp only [List.getD_cons_succ, List.getD_cons_zero] at h
        cases ha : Atoi y with
        | none => simp [ha] at h
        | some port =>
          simp only [ha, Option.some.injEq] at h
          subst h
          exact ⟨t, y, by rw [hs], ha, rfl⟩
    · simp [hl] at h
  · simp [hp] at h

/-- The first 1024 bytes of the payload of 1029 bytes and 5 tokens. -/
theorem msgOf_payloadFiveTokens :
    msgOf payloadFiveTokens =
      plumPrefix ++ ' ' :: (List.replicate 1009 'a' ++ ' ' :: decimal 8443) := by
  unfold msgOf payloadFiveTokens
  apply firstBytes_append_exact
  have h1 : byteLen plumPrefix = 9 := by decide
  have h2 : byteLen (' ' :: decimal 8443) = 5 := by decide
  have e : plumPrefix ++ ' ' :: (List.replicate 1009 'a' ++ ' ' :: decimal 8443) =
      plumPrefix ++ ([' '] ++ (List.replicate 1009 'a' ++ ' ' :: decimal 8443)) := rfl
  rw [e, byteLen_append, byteLen_append, byteLen_append, byteLen_replicate_a, h1, h2]
  rfl

theorem listenLoop_cons_next (cancelAt : Option Nat) (t : Tick RecvResult)
    (rest : List (Tick RecvResult)) (sent : List LightpadAnnouncement)
    (h : listenStep (ctxDone cancelAt t.selectAt) t.recv = Step.next sent) :
    listenLoop cancelAt (t :: rest) =
      sent.map (fun a => (t.sendAt, a)) ++ listenLoop cancelAt rest := by
  simp [listenLoop, h]

theorem listenLoop_cons_exit (cancelAt : Option Nat) (t : Tick RecvResult)
    (rest : List (Tick RecvResult))
    (h : listenStep (ctxDone cancelAt t.selectAt) t.recv = Step.exit) :
    listenLoop cancelAt (t :: rest) = [] := by
  simp [listenLoop, h]

theorem listenStep_done (r : RecvResult) : listenStep true r = Step.exit := by
  simp [listenStep]

theorem subscribeStep_done (r : Option (List Char)) : subscribeStep true r = Step.exit := by
  simp [subscribeStep]

theorem listenStep_next_not_done (done : Bool) (r : RecvResult) (sent : List LightpadAnnouncement)
    (h : listenStep done r = Step.next sent) : done = false := by
  cases done with
  | false => rfl
  | true => simp [listenStep] at h

theorem subscribeStep_next_not_done (done : Bool) (r : Option (List Char)) (sent : List Event)
    (h : subscribeStep done r = Step.next sent) : done = false := by
  cases done with
  | false => rfl
  | true => simp [subscribeStep] at h

theorem listenLoop_mem (cancelAt : Option Nat) :
    ∀ (ticks : List (Tick RecvResult)) (t : Nat) (a : LightpadAnnouncement),
      (t, a) ∈ listenLoop cancelAt ticks →
      ∃ k ∈ ticks, k.sendAt = t ∧ ctxDone cancelAt k.selectAt = false := by
  intro ticks
  induction ticks with
  | nil => intro t a h; simp [listenLoop] at h
  | cons k rest ih =>
    intro t a h
    cases hs : listenStep (ctxDone cancelAt k.selectAt) k.recv with
    | exit => simp [listenLoop, hs] at h
    | next sent =>
      rw [listenLoop_cons_next _ _ _ _ hs] at h
      rcases List.mem_append.1 h with h | h
      · obtain ⟨x, _, hx⟩ := List.mem_map.1 h
        refine ⟨k, List.mem_cons_self _ _, ?_, listenStep_next_not_done _ _ _ hs⟩
        exact (congrArg Prod.fst hx)
      · obtain ⟨k', hk', h1, h2⟩ := ih t a h
        exact ⟨k', List.mem_cons_of_mem _ hk', h1, h2⟩

theorem listenLoop_stops (cancelAt : Option Nat) (k : Tick RecvResult)
    (post : List (Tick RecvResult)) (hk : ctxDone cancelAt k.selectAt = true) :
    ∀ pre, listenLoop cancelAt (pre ++ k :: post) = listenLoop cancelAt pre := by
  intro pre
  induction pre with
  | nil => simp [listenLoop, hk, listenStep_done]
  | cons x xs ih =>
    cases hs : listenStep (ctxDone cancelAt x.selectAt) x.recv with
    | exit => simp [listenLoop, hs]
    | next sent => simp [listenLoop, hs, ih]

theorem subscribeLoop_mem (cancelAt : Option Nat) :
    ∀ (ticks : List (Tick (Option (List Char)))) (t : Nat) (e : Event),
      (t, e) ∈ subscribeLoop cancelAt ticks →
      ∃ k ∈ ticks, k.sendAt = t ∧ ctxDone cancelAt k.selectAt = false := by
  intro ticks
  induction ticks with
  | nil => intro t a h; simp [subscribeLoop] at h
  | cons k rest ih =>
    intro t a h
    cases hs : subscribeStep (ctxDone cancelAt k.selectAt) k.recv with
    | exit => simp [subscribeLoop, hs] at h
    | next sent =>
      simp only [subscribeLoop, hs] at h
      rcases List.mem_append.1 h with h | h
      · obtain ⟨x, _, hx⟩ := List.mem_map.1 h
        refine ⟨k, List.mem_cons_self _ _, ?_, subscribeStep_next_not_done _ _ _ hs⟩
        exact (congrArg Prod.fst hx)
      · obtain ⟨k', hk', h1, h2⟩ := ih t a h
        exact ⟨k', List.mem_cons_of_mem _ hk', h1, h2⟩

theorem subscribeLoop_stops (cancelAt : Option Nat) (k : Tick (Option (List Char)))
    (post : List (Tick (Option (List Char)))) (hk : ctxDone cancelAt k.selectAt = true) :
    ∀ pre, subscribeLoop cancelAt (pre ++ k :: post) = subscribeLoop cancelAt pre := by
  intro pre
  induction pre with
  | nil => simp [subscribeLoop, hk, subscribeStep_done]
  | cons x xs ih =>
    cases hs : subscribeStep (ctxDone cancelAt x.selectAt) x.recv with
    | exit => simp [subscribeLoop, hs]
    | next sent => simp [subscribeLoop, hs, ih]

/-! ## Lemmas on the goroutines -/

theorem subscribeStep_read_error (done : Bool) (h : done = false) :
    subscribeStep done none = Step.next [] := by
  subst h
  rfl

theorem subscribeEnd_exited (cancelAt : Option Nat) :
    ∀ ticks : List (Tick (Option (List Char))),
      (subscribeEnd cancelAt ticks).exited = true →
      ∃ k ∈ ticks, ctxDone cancelAt k.selectAt = true := by
  intro ticks
  induction ticks with
  | nil => intro h; simp [subscribeEnd] at h
  | cons t rest ih =>
    intro h
    cases hd : ctxDone cancelAt t.selectAt with
    | true => exact ⟨t, List.mem_cons_self _ _, hd⟩
    | false =>
      cases hs : subscribeStep (ctxDone cancelAt t.selectAt) t.recv with
      | exit =>
        rw [hd] at hs
        cases hr : t.recv <;> simp [subscribeStep, hr] at hs
      | next sent =>
        simp only [subscribeEnd, hs] at h
        obtain ⟨k, hk, hk'⟩ := ih h
        exact ⟨k, List.mem_cons_of_mem _ hk, hk'⟩

theorem subscribeLoop_all_errors (cancelAt : Option Nat) :
    ∀ ticks : List (Tick (Option (List Char))),
      (∀ k ∈ ticks, k.recv = none) → subscribeLoop cancelAt ticks = [] := by
  intro ticks
  induction ticks with
  | nil => intro _; rfl
  | cons t rest ih =>
    intro h
    have ht := h t (List.mem_cons_self _ _)
    have hrest := ih (fun k hk => h k (List.mem_cons_of_mem _ hk))
    cases hd : ctxDone cancelAt t.selectAt <;>
      simp [subscribeLoop, subscribeStep, hd, ht, hrest]

theorem listenEnd_closed (cancelAt : Option Nat) :
    ∀ ticks : List (Tick RecvResult),
      (listenEnd cancelAt ticks).exited = (listenEnd cancelAt ticks).handleClosed := by
  intro ticks
  induction ticks with
  | nil => rfl
  | cons t rest ih =>
    cases hs : listenStep (ctxDone cancelAt t.selectAt) t.recv with
    | exit => simp [listenEnd, hs]
    | next sent => simpa [listenEnd, hs] using ih

theorem subscribeEnd_open (cancelAt : Option Nat) :
    ∀ ticks : List (Tick (Option (List Char))),
      (subscribeEnd cancelAt ticks).handleClosed = false := by
  intro ticks
  induction ticks with
  | nil => rfl
  | cons t rest ih =>
    cases hs : subscribeStep (ctxDone cancelAt t.selectAt) t.recv with
    | exit => simp [subscribeEnd, hs]
    | next sent => simpa [subscribeEnd, hs] using ih

/-- A failed read, whatever its error, does not end the loop of `Subscribe`:
the iteration sends nothing and the loop goes on with the next cancellation
check and read; the goroutine returns only in an iteration whose `select`
finds `ctx.Done()` closed; and as long as the reads keep failing no event is
sent. -/
theorem subscribeLoop_read_error_continues (cancelAt : Option Nat) :
    (∀ (t : Tick (Option (List Char))) (rest : List (Tick (Option (List Char)))),
      t.recv = none → ctxDone cancelAt t.selectAt = false →
      subscribeLoop cancelAt (t :: rest) = subscribeLoop cancelAt rest ∧
      subscribeReads cancelAt (t :: rest) = 1 + subscribeReads cancelAt rest ∧
      subscribeEnd cancelAt (t :: rest) = subscribeEnd cancelAt rest) ∧
    (∀ ticks : List (Tick (Option (List Char))),
      (subscribeEnd cancelAt ticks).exited = true →
      ∃ k ∈ ticks, ctxDone cancelAt k.selectAt = true) ∧
    (∀ ticks : List (Tick (Option (List Char))),
      (∀ k ∈ ticks, k.recv = none) → subscribeLoop cancelAt ticks = []) := by
  refine ⟨?_, subscribeEnd_exited cancelAt, subscribeLoop_all_errors cancelAt⟩
  intro t rest hr hd
  have hs : subscribeStep (ctxDone cancelAt t.selectAt) t.recv = Step.next [] := by
    rw [hr]; exact subscribeStep_read_error _ hd
  simp [subscribeLoop, subscribeReads, subscribeEnd, hs]

/-! ## Lemmas on `IDs` -/

theorem IDs.equalsFrom_eq (other : IDs) :
    ∀ (ids pre rest : List (List Char)), Slice.elems other = pre ++ rest →
      ids.length ≤ rest.length →
      IDs.equalsFrom other pre.length ids = some (decide (ids = rest.take ids.length)) := by
  intro ids
  induction ids with
  | nil => intro pre rest _ _; simp [IDs.equalsFrom]
  | cons id ids ih =>
    intro pre rest he hl
    cases rest with
    | nil => simp at hl
    | cons r rest =>
      have hidx : Slice.index other pre.length = some r := by
        rw [Slice.index, he, List.get?_eq_getElem?,
          List.getElem?_append_right (Nat.le_refl _)]
        simp
      have hstep := ih (pre ++ [r]) rest (by simp [he]) (by simpa using hl)
      simp only [List.length_append, List.length_singleton] at hstep
      by_cases hne : id = r
      · subst hne
        simp [IDs.equalsFrom, hidx, hstep]
      · simp [IDs.equalsFrom, hidx, hne]

/-- The method `Equals` never panics, and it compares the elements. -/
theorem IDs.Equals_eq (a b : IDs) :
    IDs.Equals a b = some (decide (Slice.elems a = Slice.elems b)) := by
  unfold IDs.Equals
  have hlen : ∀ s : IDs, Slice.len s = (Slice.elems s).length := by
    intro s; cases s <;> rfl
  by_cases h : Slice.len a = Slice.len b
  · have h' : (Slice.elems a).length = (Slice.elems b).length := by rw [← hlen, ← hlen, h]
    have := IDs.equalsFrom_eq b (Slice.elems a) [] (Slice.elems b) rfl (Nat.le_of_eq h')
    simp only [List.length_nil] at this
    simp only [h, ne_eq, not_true_eq_false, if_false, this, h', List.take_length]
  · have hne : Slice.elems a ≠ Slice.elems b := by
      intro he
      apply h
      rw [hlen, hlen, he]
    simp [h, hne]

theorem sortStrings_sorted (ids : IDs) :
    List.Sorted (· ≤ ·) (Slice.elems (sortStrings ids)) := by
  cases ids with
  | none => exact List.sorted_nil
  | some l => exact List.sorted_insertionSort (· ≤ ·) l

theorem sortStrings_perm (ids : IDs) :
    List.Perm (Slice.elems (sortStrings ids)) (Slice.elems ids) := by
  cases ids with
  | none => exact List.Perm.refl _
  | some l => exact List.perm_insertionSort (· ≤ ·) l

theorem sortStrings_eq_of_perm (a b : IDs) (h : List.Perm (Slice.elems a) (Slice.elems b)) :
    Slice.elems (sortStrings a) = Slice.elems (sortStrings b) :=
  List.eq_of_perm_of_sorted
    (((sortStrings_perm a).trans h).trans (sortStrings_perm b).symm)
    (sortStrings_sorted a) (sortStrings_sorted b)

/-! ## Lemmas on `Marshal` -/

theorem marshalChar_safe (c : Char) (h : marshalSafe c = true) : marshalChar c = [c] := by
  simp only [marshalSafe, Bool.and_eq_true, bne_iff_ne, ne_eq, decide_eq_true_eq] at h
  obtain ⟨⟨⟨⟨⟨⟨⟨h1, h2⟩, h3⟩, h4⟩, h5⟩, h6⟩, h7⟩, h8⟩ := h
  have hb : c ≠ Char.ofNat 8 := by rintro rfl; revert h3; decide
  have hf : c ≠ Char.ofNat 12 := by rintro rfl; revert h3; decide
  have hn : c ≠ '\n' := by rintro rfl; revert h3; decide
  have hr : c ≠ '\r' := by rintro rfl; revert h3; decide
  have ht : c ≠ '\t' := by rintro rfl; revert h3; decide
  have hlt : ¬ c.toNat < 32 := by omega
  simp [marshalChar, h1, h2, hb, hf, hn, hr, ht, hlt, h4, h5, h6, h7, h8]

theorem flatMap_marshalChar_safe (s : List Char) (h : ∀ c ∈ s, marshalSafe c = true) :
    s.flatMap marshalChar = s := by
  induction s with
  | nil => rfl
  | cons c cs ih =>
    rw [List.flatMap_cons, marshalChar_safe c (h c (List.mem_cons_self _ _)),
      ih (fun x hx => h x (List.mem_cons_of_mem _ hx))]
    rfl

theorem marshalLevel_safe (level : Int) (llid : List Char)
    (h : ∀ c ∈ llid, marshalSafe c = true) : marshalLevel level llid = levelBody level llid := by
  simp [marshalLevel, marshalString, levelBody, flatMap_marshalChar_safe llid h]

/-! ## The claims -/

/-- C1, what the code does where the claim fails: the 2 frames `not json` and
`{"type":"power","Watts":10}.` give 3 events, the malformed frame alone 2 (the
error-carrying event and an `LPEUnknown`), so that the second event is not the
one of the second frame. -/
theorem C1_malformed_frame_sends_two_events :
    eventsOfFrames [frameNotJSON] =
      [Event.envelope { Error := some JSONError.SyntaxError },
       Event.unknown { Type_ := tagUnknown, Message := "not json".toList }] ∧
    eventsOfFrames [frameNotJSON, framePower10] =
      [Event.envelope { Error := some JSONError.SyntaxError },
       Event.unknown { Type_ := tagUnknown, Message := "not json".toList },
       Event.power { Type_ := tagPower, Watts := 10 }] ∧
    (eventsOfFrames [frameNotJSON, framePower10]).length = 3 := by
  decide

/-- C2, what the code does where the claim fails: for the frame `not json` the
iteration sends the error-carrying event and then an `LPEUnknown` with the
trimmed text, and continues. -/
theorem C2_unparsable_frame_also_sends_unknown :
    subscribeStep false (some frameNotJSON) =
      Step.next
        [Event.envelope { Error := some JSONError.SyntaxError },
         Event.unknown { Type_ := tagUnknown, Message := "not json".toList }] ∧
    (processFrame frameNotJSON).map Event.isError = [true, false] ∧
    (processFrame frameNotJSON).map Event.isUnknown = [false, true] := by
  decide

/-- C3, what the code does where the claim fails: for the frame
`{"type":"dimmerchange","Level":"abc"}` the iteration sends the error-carrying
event and then the `LPEDimmerChange` left by the failed decode (level 0), and
continues. -/
theorem C3_bad_payload_also_sends_typed_event :
    subscribeStep false (some frameDimmerABC) =
      Step.next
        [Event.envelope { Error := some (JSONError.UnmarshalTypeError JSONKind.string) },
         Event.dimmerChange { Type_ := tagDimmerChange, Level := 0 }] ∧
    (processFrame frameDimmerABC).map Event.isError = [true, false] ∧
    (processFrame frameDimmerABC).map Event.isTyped = [false, true] := by
  decide

/-- C4: for every `n` in the range of a Go `int`, the frames
`{"type":"dimmerchange","Level":n}`, `{"type":"power","Watts":n}` and
`{"type":"pirSignal","Signal":n}` each make `Subscribe` send exactly one event:
the `LPEDimmerChange` with `Level = n`, the `LPEPower` with `Watts = n`, the
`LPEPIRSignal` with `Signal = n`. -/
theorem C4_typed_frames_decoded (n : Int) (hlo : -(2 ^ 63) ≤ n) (hhi : n < 2 ^ 63) :
    processFrame (typedFrame tagDimmerChange nameLevel n) =
      [Event.dimmerChange { Type_ := tagDimmerChange, Error := none, Level := n }] ∧
    processFrame (typedFrame tagPower nameWatts n) =
      [Event.power { Type_ := tagPower, Error := none, Watts := n }] ∧
    processFrame (typedFrame tagPIRSignal nameSignal n) =
      [Event.pirSignal { Type_ := tagPIRSignal, Error := none, Signal := n }] := by
  have e1 := unmarshalLightpadEvent_typedFrame tagDimmerChange nameLevel n
    (by decide) (by decide) (by decide) (by decide)
  have e2 := unmarshalLightpadEvent_typedFrame tagPower nameWatts n
    (by decide) (by decide) (by decide) (by decide)
  have e3 := unmarshalLightpadEvent_typedFrame tagPIRSignal nameSignal n
    (by decide) (by decide) (by decide) (by decide)
  have d1 := unmarshalStruct_typedFrame nameLevel tagDimmerChange nameLevel n
    (by decide) (by decide) (by decide) (by decide) (by decide) hlo hhi
  have d2 := unmarshalStruct_typedFrame nameWatts tagPower nameWatts n
    (by decide) (by decide) (by decide) (by decide) (by decide) hlo hhi
  have d3 := unmarshalStruct_typedFrame nameSignal tagPIRSignal nameSignal n
    (by decide) (by decide) (by decide) (by decide) (by decide) hlo hhi
  have p1 : tagPower ≠ tagDimmerChange := by decide
  have p2 : tagPIRSignal ≠ tagDimmerChange := by decide
  have p3 : tagPIRSignal ≠ tagPower := by decide
  refine ⟨?_, ?_, ?_⟩
  · simp [processFrame, trimFrame_typedFrame, e1, unmarshalDimmerChange, d1, sendIfError]
  · simp [processFrame, trimFrame_typedFrame, e2, unmarshalPower, d2, sendIfError, p1]
  · simp [processFrame, trimFrame_typedFrame, e3, unmarshalPIRSignal, d3, sendIfError, p2, p3]

/-- C4, the examples of the spec: level 77, 42 watts, signal 5; the frames are
the texts of the spec. -/
theorem C4_typed_frames_decoded_witness :
    (typedFrame tagDimmerChange nameLevel 77 =
        "\x7b\"type\":\"dimmerchange\",\"Level\":77\x7d".toList ∧
     typedFrame tagPower nameWatts 42 = "\x7b\"type\":\"power\",\"Watts\":42\x7d".toList ∧
     typedFrame tagPIRSignal nameSignal 5 =
        "\x7b\"type\":\"pirSignal\",\"Signal\":5\x7d".toList) ∧
    processFrame (typedFrame tagDimmerChange nameLevel 77) =
      [Event.dimmerChange { Type_ := tagDimmerChange, Error := none, Level := 77 }] ∧
    processFrame (typedFrame tagPower nameWatts 42) =
      [Event.power { Type_ := tagPower, Error := none, Watts := 42 }] ∧
    processFrame (typedFrame tagPIRSignal nameSignal 5) =
      [Event.pirSignal { Type_ := tagPIRSignal, Error := none, Signal := 5 }] :=
  ⟨by decide,
   (C4_typed_frames_decoded 77 (by decide) (by decide)).1,
   (C4_typed_frames_decoded 42 (by decide) (by decide)).2.1,
   (C4_typed_frames_decoded 5 (by decide) (by decide)).2.2⟩

/-- C5, as amended: for every frame whose trimmed text decodes as an envelope
without error (`json.Unmarshal` returns `nil`, which asks for a well-formed
text nested at most `maxNestingDepth` deep) and whose `Type` is none of
`dimmerchange`, `power`, `pirSignal`, exactly one event is sent, an
`LPEUnknown` of type `unknown` whose `Message` is the trimmed text of the
frame. -/
theorem C5_unknown_carries_trimmed_text (frame : List Char)
    (hparse : (unmarshalLightpadEvent (trimFrame frame)).2 = none)
    (h1 : (unmarshalLightpadEvent (trimFrame frame)).1.Type_ ≠ tagDimmerChange)
    (h2 : (unmarshalLightpadEvent (trimFrame frame)).1.Type_ ≠ tagPower)
    (h3 : (unmarshalLightpadEvent (trimFrame frame)).1.Type_ ≠ tagPIRSignal) :
    processFrame frame =
      [Event.unknown { Type_ := tagUnknown, Error := none, Message := trimFrame frame }] := by
  simp [processFrame, hparse, h1, h2, h3, sendIfError]

/-- C5, the example of the spec, with the period and the line end of the wire
format: the message is `{"type":"glowchange"}`. -/
theorem C5_unknown_carries_trimmed_text_witness :
    processFrame (textGlowChange ++ ['.', '\n']) =
      [Event.unknown { Type_ := tagUnknown, Error := none, Message := textGlowChange }] :=
  C5_unknown_carries_trimmed_text (textGlowChange ++ ['.', '\n'])
    (by decide) (by decide) (by decide) (by decide)

/-- C5 fails as stated: the frame ` {"type":"glowchange"}` (a leading space)
is a JSON text as it is read and after trimming, its tag is `glowchange`, and
the one event sent is an `LPEUnknown` whose `Message` has lost the space: it
is not the text as read. The same happens to a trailing period or line end. -/
theorem C5_counterexample_message_is_trimmed :
    (unmarshalLightpadEvent (' ' :: textGlowChange)).2 = none ∧
    (unmarshalLightpadEvent (' ' :: textGlowChange)).1.Type_ = "glowchange".toList ∧
    processFrame (' ' :: textGlowChange) =
      [Event.unknown { Type_ := tagUnknown, Message := textGlowChange }] ∧
    textGlowChange ≠ ' ' :: textGlowChange ∧
    processFrame (textGlowChange ++ ['\n']) =
      [Event.unknown { Type_ := tagUnknown, Message := textGlowChange }] ∧
    textGlowChange ≠ textGlowChange ++ ['\n'] := by
  decide

/-- C6: for every text `f = g ++ "}"`, the events sent for `f`, for `f`
followed by one period, and for either of them with white space before and
after, are the same. -/
theorem C6_period_and_space_ignored (g ws1 ws2 : List Char)
    (h1 : ∀ c ∈ ws1, IsSpace c = true) (h2 : ∀ c ∈ ws2, IsSpace c = true) :
    processFrame (g ++ ['}'] ++ ['.']) = processFrame (g ++ ['}']) ∧
    processFrame (ws1 ++ (g ++ ['}']) ++ ws2) = processFrame (g ++ ['}']) ∧
    processFrame (ws1 ++ (g ++ ['}'] ++ ['.']) ++ ws2) = processFrame (g ++ ['}']) := by
  have hnil : ∀ x ∈ ([] : List Char), IsSpace x = true := by simp
  have e0 : trimFrame (g ++ ['}']) = (g ++ ['}']).dropWhile IsSpace := by
    simpa using trimFrame_brace [] [] g hnil hnil
  have e1 : trimFrame (g ++ ['}'] ++ ['.']) = (g ++ ['}']).dropWhile IsSpace := by
    simpa using trimFrame_brace_period [] [] g hnil hnil
  refine ⟨processFrame_congr _ _ (e1.trans e0.symm), processFrame_congr _ _ ?_,
    processFrame_congr _ _ ?_⟩
  · rw [trimFrame_brace ws1 ws2 g h1 h2, e0]
  · rw [trimFrame_brace_period ws1 ws2 g h1 h2, e0]

/-- C6, the example of the spec: `{"type":"power","Watts":10}` with a period,
and with a leading space, a period and `\r\n`, gives the same `LPEPower` of 10
watts as without. -/
theorem C6_period_and_space_ignored_witness :
    (processFrame (textPower10Open ++ ['}'] ++ ['.']) = processFrame (textPower10Open ++ ['}']) ∧
     processFrame ([' '] ++ (textPower10Open ++ ['}']) ++ ['\r', '\n']) =
       processFrame (textPower10Open ++ ['}']) ∧
     processFrame ([' '] ++ (textPower10Open ++ ['}'] ++ ['.']) ++ ['\r', '\n']) =
       processFrame (textPower10Open ++ ['}'])) ∧
    processFrame (textPower10Open ++ ['}']) = [Event.power { Type_ := tagPower, Watts := 10 }] :=
  ⟨C6_period_and_space_ignored textPower10Open [' '] ['\r', '\n'] (by decide) (by decide),
   by decide⟩

/-- C7, as amended: for every device ID `id` without a space, every source IP
and every port `p` that a Go `int` holds, when the payload
`"PLUM 8888 " + id + " " + decimal(p)` has at most 1024 bytes, the length of
the buffer it is read into, one iteration of `Listen` sends exactly the
announcement `{ID: id, IP: ip, Port: p}` and goes on. -/
theorem C7_announcement_decoded (id : List Char) (ip : IP) (p : Nat)
    (hid : ' ' ∉ id) (hp : p < 2 ^ 63)
    (hlen : byteLen (plumPrefix ++ ' ' :: (id ++ ' ' :: decimal p)) ≤ bufLen) :
    listenStep false (RecvResult.datagram (plumPrefix ++ ' ' :: (id ++ ' ' :: decimal p)) ip) =
      Step.next [{ ID := id, IP := ip, Port := (p : Int) }] := by
  simp only [listenStep, Bool.false_eq_true, if_false, msgOf_of_le _ hlen,
    announcementOf_text id ip p hid hp]
  rfl

/-- C7, the example of the spec: `PLUM 8888 8429176c-... 8443` from
`192.168.1.91`, a payload of 51 bytes. -/
theorem C7_announcement_decoded_witness :
    ' ' ∉ sampleID ∧ 8443 < 2 ^ 63 ∧
    byteLen "PLUM 8888 8429176c-bf88-4aee-be07-b6a9064cf1ab 8443".toList = 51 ∧
    listenStep false (RecvResult.datagram
      "PLUM 8888 8429176c-bf88-4aee-be07-b6a9064cf1ab 8443".toList sampleIP) =
      Step.next [{ ID := sampleID, IP := sampleIP, Port := 8443 }] :=
  ⟨by decide, by decide, by decide,
   C7_announcement_decoded sampleID sampleIP 8443 (by decide) (by decide) (by decide)⟩

/-- C7 fails as stated: the ID of 1011 letters `a` holds no space and 8443 is
a port, but the payload has 1026 bytes; the buffer takes its first 1024
bytes, which end with `84`, and the announcement sent has the port 84, not
8443. -/
theorem C7_counterexample_long_id :
    ' ' ∉ List.replicate 1011 'a' ∧
    byteLen (plumPrefix ++ ' ' :: (List.replicate 1011 'a' ++ ' ' :: decimal 8443)) = 1026 ∧
    listenStep false (RecvResult.datagram
        (plumPrefix ++ ' ' :: (List.replicate 1011 'a' ++ ' ' :: decimal 8443)) sampleIP) =
      Step.next [{ ID := List.replicate 1011 'a', IP := sampleIP, Port := 84 }] ∧
    (84 : Int) ≠ 8443 := by
  have hid : ' ' ∉ List.replicate 1011 'a' := by
    intro h
    exact absurd (List.eq_of_mem_replicate h) (by decide)
  have h1 : byteLen plumPrefix = 9 := by decide
  have e : plumPrefix ++ ' ' :: (List.replicate 1011 'a' ++ ' ' :: decimal 8443) =
      (plumPrefix ++ ' ' :: (List.replicate 1011 'a' ++ ' ' :: decimal 84)) ++ ['4', '3'] := by
    have d1 : decimal 8443 = ['8', '4', '4', '3'] := by decide
    have d2 : decimal 84 = ['8', '4'] := by decide
    rw [d1, d2]
    generalize List.replicate 1011 'a' = id
    simp
  have hb : byteLen (plumPrefix ++ ' ' :: (List.replicate 1011 'a' ++ ' ' :: decimal 84)) =
      bufLen := by
    have h2 : byteLen (' ' :: decimal 84) = 3 := by decide
    have e2 : plumPrefix ++ ' ' :: (List.replicate 1011 'a' ++ ' ' :: decimal 84) =
        plumPrefix ++ ([' '] ++ (List.replicate 1011 'a' ++ ' ' :: decimal 84)) := rfl
    rw [e2, byteLen_append, byteLen_append, byteLen_append, byteLen_replicate_a, h1, h2]
    rfl
  refine ⟨hid, ?_, ?_, by decide⟩
  · have h2 : byteLen (' ' :: decimal 8443) = 5 := by decide
    have e2 : plumPrefix ++ ' ' :: (List.replicate 1011 'a' ++ ' ' :: decimal 8443) =
        plumPrefix ++ ([' '] ++ (List.replicate 1011 'a' ++ ' ' :: decimal 8443)) := rfl
    rw [e2, byteLen_append, byteLen_append, byteLen_append, byteLen_replicate_a, h1, h2]
    rfl
  · have hm : msgOf (plumPrefix ++ ' ' :: (List.replicate 1011 'a' ++ ' ' :: decimal 8443)) =
        plumPrefix ++ ' ' :: (List.replicate 1011 'a' ++ ' ' :: decimal 84) := by
      rw [e]
      exact firstBytes_append_exact _ _ _ hb
    simp only [listenStep, Bool.false_eq_true, if_false, hm,
      announcementOf_text (List.replicate 1011 'a') sampleIP 84 hid (by decide)]
    rfl

/-- C8, as amended: let `msg` be the text read from a datagram, its first
1024 bytes (the payload itself when it has no more). When the payload does
not start with `PLUM 8888`, or `msg` does not split on single spaces into
exactly 4 tokens, or `Atoi` rejects the fourth token of `msg`, the iteration
sends nothing and continues: the loop goes on with the next tick
(cancellation check and receive). -/
theorem C8_rejected_datagram_skipped (payload : List Char) (ip : IP)
    (h : HasPrefix payload plumPrefix = false ∨ (Split (msgOf payload) ' ').length ≠ 4 ∨
      Atoi ((Split (msgOf payload) ' ').getD 3 []) = none) :
    listenStep false (RecvResult.datagram payload ip) = Step.next [] ∧
    (∀ (cancelAt : Option Nat) (t : Tick RecvResult) (rest : List (Tick RecvResult)),
      t.recv = RecvResult.datagram payload ip → ctxDone cancelAt t.selectAt = false →
      listenLoop cancelAt (t :: rest) = listenLoop cancelAt rest) ∧
    (byteLen payload ≤ bufLen → msgOf payload = payload) := by
  have hnone : announcementOf (msgOf payload) ip = none := by
    apply announcementOf_none
    rcases h with h | h | h
    · exact Or.inl (by rw [HasPrefix_msgOf]; exact h)
    · exact Or.inr (Or.inl h)
    · exact Or.inr (Or.inr h)
  have hstep : listenStep false (RecvResult.datagram payload ip) = Step.next [] := by
    simp [listenStep, hnone]
  refine ⟨hstep, ?_, msgOf_of_le payload⟩
  intro cancelAt t rest hr hd
  rw [listenLoop_cons_next cancelAt t rest [] (by rw [hd, hr]; exact hstep)]
  simp

/-- C8, the examples of the spec: 3 tokens, and a wrong prefix; and a port
that is no number. Each payload is read whole. -/
theorem C8_rejected_datagram_skipped_witness :
    listenStep false (RecvResult.datagram "PLUM 8888 onlythreetokens".toList sampleIP) =
      Step.next [] ∧
    listenStep false (RecvResult.datagram "HELLO 1234 x y".toList sampleIP) = Step.next [] ∧
    listenStep false (RecvResult.datagram "PLUM 8888 id 84x3".toList sampleIP) = Step.next [] ∧
    msgOf "PLUM 8888 onlythreetokens".toList = "PLUM 8888 onlythreetokens".toList :=
  ⟨(C8_rejected_datagram_skipped _ sampleIP (Or.inr (Or.inl (by decide)))).1,
   (C8_rejected_datagram_skipped _ sampleIP (Or.inl (by decide))).1,
   (C8_rejected_datagram_skipped _ sampleIP (Or.inr (Or.inr (by decide)))).1,
   (C8_rejected_datagram_skipped "PLUM 8888 onlythreetokens".toList sampleIP
      (Or.inr (Or.inl (by decide)))).2.2 (by decide)⟩

/-- C8 fails as stated: the payload `PLUM 8888 aa...a 8443 junk`, with 1009
letters `a`, has 1029 bytes and splits into 5 tokens, not 4; the buffer takes
its first 1024 bytes, which end with ` 8443` and split into 4 tokens, and the
iteration sends an announcement with the port 8443. -/
theorem C8_counterexample_long_payload :
    byteLen payloadFiveTokens = 1029 ∧
    (Split payloadFiveTokens ' ').length = 5 ∧
    listenStep false (RecvResult.datagram payloadFiveTokens sampleIP) =
      Step.next [{ ID := List.replicate 1009 'a', IP := sampleIP, Port := 8443 }] := by
  have hid : ' ' ∉ List.replicate 1009 'a' := by
    intro h
    exact absurd (List.eq_of_mem_replicate h) (by decide)
  refine ⟨?_, ?_, ?_⟩
  · have h1 : byteLen plumPrefix = 9 := by decide
    have h2 : byteLen (' ' :: decimal 8443) = 5 := by decide
    have h3 : byteLen " junk".toList = 5 := by decide
    have e : payloadFiveTokens =
        plumPrefix ++ ([' '] ++ (List.replicate 1009 'a' ++ ' ' :: decimal 8443)) ++
          " junk".toList := rfl
    rw [e, byteLen_append, byteLen_append, byteLen_append, byteLen_append,
      byteLen_replicate_a, h1, h2, h3]
    rfl
  · have d1 : decimal 8443 = ['8', '4', '4', '3'] := by decide
    have e : payloadFiveTokens =
        ['P', 'L', 'U', 'M'] ++ ' ' :: (['8', '8', '8', '8'] ++ ' ' ::
          (List.replicate 1009 'a' ++ ' ' :: (['8', '4', '4', '3'] ++ ' ' ::
            ['j', 'u', 'n', 'k']))) := by
      unfold payloadFiveTokens
      rw [d1]
      generalize List.replicate 1009 'a' = id
      simp [plumPrefix]
    rw [e, Split_append_sep _ _ _ (by decide), Split_append_sep _ _ _ (by decide),
      Split_append_sep _ _ _ hid, Split_append_sep _ _ _ (by decide),
      Split_no_sep _ _ (by decide)]
    rfl
  · simp only [listenStep, Bool.false_eq_true, if_false, msgOf_payloadFiveTokens,
      announcementOf_text (List.replicate 1009 'a') sampleIP 8443 hid (by decide)]
    rfl

/-- C9, as amended: when an iteration of `Listen` sends an announcement for a
datagram, the text read from it, its first 1024 bytes, splits on single spaces
into exactly 4 tokens; the first is exactly `PLUM`, the second starts with
`8888`, the third is the announced ID and the fourth is text that `Atoi` reads
as the announced port. A payload of at most 1024 bytes is itself that text. -/
theorem C9_announced_datagram_tokens (payload : List Char) (ip : IP)
    (la : LightpadAnnouncement)
    (h : listenStep false (RecvResult.datagram payload ip) = Step.next [la]) :
    ∃ t port, Split (msgOf payload) ' ' =
        [['P', 'L', 'U', 'M'], ['8', '8', '8', '8'] ++ t, la.ID, port] ∧
      Atoi port = some la.Port ∧ la.IP = ip ∧
      (byteLen payload ≤ bufLen → Split payload ' ' =
        [['P', 'L', 'U', 'M'], ['8', '8', '8', '8'] ++ t, la.ID, port]) := by
  simp only [listenStep, Bool.false_eq_true, if_false] at h
  injection h with h
  cases ha : announcementOf (msgOf payload) ip with
  | none => simp [ha] at h
  | some la1 =>
    simp only [ha, Option.toList_some, List.cons.injEq, and_true] at h
    subst h
    obtain ⟨t, port, hs, hp, hi⟩ := announcementOf_some _ _ _ ha
    exact ⟨t, port, hs, hp, hi, fun hl => by rw [← msgOf_of_le payload hl]; exact hs⟩

/-- C9, at the announcement of the spec. -/
theorem C9_announced_datagram_tokens_witness :
    ∃ t port, Split (msgOf "PLUM 8888 8429176c-bf88-4aee-be07-b6a9064cf1ab 8443".toList) ' ' =
        [['P', 'L', 'U', 'M'], ['8', '8', '8', '8'] ++ t, sampleID, port] ∧
      Atoi port = some 8443 ∧ sampleIP = sampleIP ∧
      (byteLen "PLUM 8888 8429176c-bf88-4aee-be07-b6a9064cf1ab 8443".toList ≤ bufLen →
        Split "PLUM 8888 8429176c-bf88-4aee-be07-b6a9064cf1ab 8443".toList ' ' =
          [['P', 'L', 'U', 'M'], ['8', '8', '8', '8'] ++ t, sampleID, port]) :=
  C9_announced_datagram_tokens "PLUM 8888 8429176c-bf88-4aee-be07-b6a9064cf1ab 8443".toList
    sampleIP { ID := sampleID, IP := sampleIP, Port := 8443 } (by decide)

/-- C9 fails as stated: the text `PLUM 8888x y 1` is announced (ID `y`, port
1) and its second token is `8888x`, not `8888`. -/
theorem C9_counterexample_second_token :
    listenStep false (RecvResult.datagram "PLUM 8888x y 1".toList sampleIP) =
      Step.next [{ ID := ['y'], IP := sampleIP, Port := 1 }] ∧
    Split "PLUM 8888x y 1".toList ' ' =
      [['P', 'L', 'U', 'M'], ['8', '8', '8', '8', 'x'], ['y'], ['1']] ∧
    (Split "PLUM 8888x y 1".toList ' ').getD 1 [] ≠ ['8', '8', '8', '8'] := by
  decide

/-- C10, as amended: in both loops a value is sent only by an iteration whose
`select` found `ctx.Done()` still open, and from the first iteration whose
`select` finds it closed nothing more is sent, whatever the later ticks
hold. -/
theorem C10_no_send_after_observed_cancel (cancelAt : Option Nat) :
    (∀ (ticks : List (Tick RecvResult)) (t : Nat) (a : LightpadAnnouncement),
      (t, a) ∈ listenLoop cancelAt ticks →
      ∃ k ∈ ticks, k.sendAt = t ∧ ctxDone cancelAt k.selectAt = false) ∧
    (∀ (pre : List (Tick RecvResult)) (k : Tick RecvResult) (post : List (Tick RecvResult)),
      ctxDone cancelAt k.selectAt = true →
      listenLoop cancelAt (pre ++ k :: post) = listenLoop cancelAt pre) ∧
    (∀ (ticks : List (Tick (Option (List Char)))) (t : Nat) (e : Event),
      (t, e) ∈ subscribeLoop cancelAt ticks →
      ∃ k ∈ ticks, k.sendAt = t ∧ ctxDone cancelAt k.selectAt = false) ∧
    (∀ (pre : List (Tick (Option (List Char)))) (k : Tick (Option (List Char)))
      (post : List (Tick (Option (List Char)))),
      ctxDone cancelAt k.selectAt = true →
      subscribeLoop cancelAt (pre ++ k :: post) = subscribeLoop cancelAt pre) :=
  ⟨listenLoop_mem cancelAt, fun pre k post hk => listenLoop_stops cancelAt k post hk pre,
   subscribeLoop_mem cancelAt, fun pre k post hk => subscribeLoop_stops cancelAt k post hk pre⟩

/-- C10, as amended, on a run of `Listen`: the context is cancelled at instant
5; the first iteration checks at instant 0 and sends its announcement, the
second checks at instant 6 and returns, so the datagram of the third tick is
never announced. -/
theorem C10_no_send_after_observed_cancel_witness :
    ctxDone (some 5) 6 = true ∧
    listenLoop (some 5)
      ([{ selectAt := 0, recv := RecvResult.datagram "PLUM 8888 a 1".toList sampleIP,
          sendAt := 1 }] ++
       { selectAt := 6, recv := RecvResult.datagram "PLUM 8888 b 2".toList sampleIP,
         sendAt := 7 } ::
       [{ selectAt := 8, recv := RecvResult.datagram "PLUM 8888 c 3".toList sampleIP,
          sendAt := 9 }]) =
      listenLoop (some 5)
        [{ selectAt := 0, recv := RecvResult.datagram "PLUM 8888 a 1".toList sampleIP,
           sendAt := 1 }] ∧
    listenLoop (some 5)
        [{ selectAt := 0, recv := RecvResult.datagram "PLUM 8888 a 1".toList sampleIP,
           sendAt := 1 }] =
      [(1, { ID := ['a'], IP := sampleIP, Port := 1 })] :=
  ⟨by decide,
   (C10_no_send_after_observed_cancel (some 5)).2.1 _ _ _ (by decide),
   by decide⟩

/-- C10 fails as stated: with the context cancelled at instant 1, an iteration
whose `select` ran at instant 0 and whose receive returned data sends at
instant 2, after the cancellation, in `Listen` and in `Subscribe` alike. -/
theorem C10_counterexample_send_after_cancel :
    ctxDone (some 1) 2 = true ∧
    listenLoop (some 1)
      [{ selectAt := 0, recv := RecvResult.datagram "PLUM 8888 id 8443".toList sampleIP,
         sendAt := 2 }] =
      [(2, { ID := ['i', 'd'], IP := sampleIP, Port := 8443 })] ∧
    subscribeLoop (some 1)
      [{ selectAt := 0, recv := some framePower10, sendAt := 2 }] =
      [(2, Event.power { Type_ := tagPower, Watts := 10 })] := by
  decide

/-- C11, what the code does where the claim fails: on a connection that is
broken for good (every read fails, as after the end of the stream) and a
context that is not cancelled, the loop of `Subscribe` makes two more reads
after the first failed one, and a third tick would bring a fourth: it has not
returned; no event is sent meanwhile. -/
theorem C11_broken_connection_keeps_reading :
    subscribeReads none [readTick 0 none, readTick 1 none, readTick 2 none] = 3 ∧
    (subscribeEnd none [readTick 0 none, readTick 1 none, readTick 2 none]).exited = false ∧
    subscribeLoop none [readTick 0 none, readTick 1 none, readTick 2 none] = [] := by
  decide

/-- C12, what the code does where the claim fails: when one `Read` delivers
the two frames `{"type":"power","Watts":1}` and `{"type":"power","Watts":2}`,
only the event of the first is sent, while the same frames in two reads give
both events; when the second `Read` delivers the end of the first frame and
the beginning of the second, the second frame is cut and gives an error event
and an `LPEUnknown`. -/
theorem C12_frames_lost_with_reader :
    eventsOfStream [framePower1 ++ framePower2] =
      [Event.power { Type_ := tagPower, Watts := 1 }] ∧
    eventsOfStream [framePower1, framePower2] =
      [Event.power { Type_ := tagPower, Watts := 1 },
       Event.power { Type_ := tagPower, Watts := 2 }] ∧
    eventsOfFrames [framePower1, framePower2] =
      [Event.power { Type_ := tagPower, Watts := 1 },
       Event.power { Type_ := tagPower, Watts := 2 }] ∧
    eventsOfStream [framePower1.take 10, framePower1.drop 10 ++ framePower2.take 10,
        framePower2.drop 10] =
      [Event.power { Type_ := tagPower, Watts := 1 },
       Event.envelope { Error := some JSONError.SyntaxError },
       Event.unknown { Type_ := tagUnknown, Message := "ower\",\"Watts\":2\x7d".toList }] := by
  decide

/-- C13, what the code does where the claim fails: the goroutine of `Listen`
has closed its socket whenever it has exited, but the goroutine of
`Subscribe` never closes its connection: cancelled at instant 0, it returns at
its first `select` and leaves the connection open. -/
theorem C13_subscribe_leaves_connection_open :
    (∀ (cancelAt : Option Nat) (ticks : List (Tick RecvResult)),
      (listenEnd cancelAt ticks).exited = true →
      (listenEnd cancelAt ticks).handleClosed = true) ∧
    subscribeEnd (some 0) [readTick 1 (some framePower10)] =
      { exited := true, handleClosed := false } ∧
    (∀ (cancelAt : Option Nat) (ticks : List (Tick (Option (List Char)))),
      (subscribeEnd cancelAt ticks).handleClosed = false) :=
  ⟨fun cancelAt ticks h => by rw [← listenEnd_closed]; exact h, by decide,
   fun cancelAt ticks => subscribeEnd_open cancelAt ticks⟩

/-- C14: every method of `TestWebConnection` returns the configured value and
a nil error when `Error` is `nil`, and the zero value with `*Error` when it is
not; the four methods of `TestLightpad` do the same (`GetLogicalLoadMetrics`
returning the configured metrics); and every method leaves its receiver as it
was. -/
theorem C14_test_doubles_return_configuration (t : TestWebConnection) (l : TestLightpad)
    (hid sid rid llid lpid : List Char) (level : Int) (conf : LogicalLoadConfig)
    (glow : ForceGlow) :
    (t.Error = none →
      t.GetHouses = (t, t.Houses, none) ∧ t.GetHouse hid = (t, t.House, none) ∧
      t.GetScenes hid = (t, t.Scenes, none) ∧ t.GetScene sid = (t, t.Scene, none) ∧
      t.GetRoom rid = (t, t.Room, none) ∧ t.GetLogicalLoad llid = (t, t.LogicalLoad, none) ∧
      t.GetLightpad lpid = (t, t.LightpadSpec, none)) ∧
    (∀ e : GoError, t.Error = some e →
      t.GetHouses = (t, none, e) ∧ t.GetHouse hid = (t, {}, e) ∧
      t.GetScenes hid = (t, none, e) ∧ t.GetScene sid = (t, {}, e) ∧
      t.GetRoom rid = (t, {}, e) ∧ t.GetLogicalLoad llid = (t, {}, e) ∧
      t.GetLightpad lpid = (t, {}, e)) ∧
    (l.Error = none →
      l.SetLogicalLoadLevel level = (l, none) ∧ l.SetLogicalLoadConfig conf = (l, none) ∧
      l.GetLogicalLoadMetrics = (l, l.LogicalLoadMetrics, none) ∧
      l.SetLogicalLoadGlow glow = (l, none)) ∧
    (∀ e : GoError, l.Error = some e →
      l.SetLogicalLoadLevel level = (l, e) ∧ l.SetLogicalLoadConfig conf = (l, e) ∧
      l.GetLogicalLoadMetrics = (l, {}, e) ∧ l.SetLogicalLoadGlow glow = (l, e)) := by
  refine ⟨?_, ?_, ?_, ?_⟩
  · intro h
    simp [TestWebConnection.GetHouses, TestWebConnection.GetHouse, TestWebConnection.GetScenes,
      TestWebConnection.GetScene, TestWebConnection.GetRoom, TestWebConnection.GetLogicalLoad,
      TestWebConnection.GetLightpad, h]
  · intro e h
    simp [TestWebConnection.GetHouses, TestWebConnection.GetHouse, TestWebConnection.GetScenes,
      TestWebConnection.GetScene, TestWebConnection.GetRoom, TestWebConnection.GetLogicalLoad,
      TestWebConnection.GetLightpad, h]
  · intro h
    simp [TestLightpad.SetLogicalLoadLevel, TestLightpad.SetLogicalLoadConfig,
      TestLightpad.GetLogicalLoadMetrics, TestLightpad.SetLogicalLoadGlow, h]
  · intro e h
    simp [TestLightpad.SetLogicalLoadLevel, TestLightpad.SetLogicalLoadConfig,
      TestLightpad.GetLogicalLoadMetrics, TestLightpad.SetLogicalLoadGlow, h]

/-- C14, on a test connection configured with a house and a room, without an
error and then with the error `boom`. -/
theorem C14_test_doubles_return_configuration_witness :
    sampleTestConnection.GetRoom "roomid1".toList =
      (sampleTestConnection, { ID := "roomid1".toList, Name := "dungeon".toList }, none) ∧
    TestWebConnection.GetHouses { sampleTestConnection with Error := some sampleError } =
      ({ sampleTestConnection with Error := some sampleError }, none, sampleError) ∧
    TestLightpad.GetLogicalLoadMetrics { LogicalLoadMetrics := { Level := 7 } } =
      ({ LogicalLoadMetrics := { Level := 7 } }, { Level := 7 }, none) ∧
    TestLightpad.SetLogicalLoadLevel { Error := some sampleError } 5 =
      ({ Error := some sampleError }, sampleError) :=
  ⟨((C14_test_doubles_return_configuration sampleTestConnection {} [] [] "roomid1".toList
      [] [] 0 {} {}).1 rfl).2.2.2.2.1,
   ((C14_test_doubles_return_configuration { sampleTestConnection with Error := some sampleError }
      {} [] [] [] [] [] 0 {} {}).2.1 sampleError rfl).1,
   ((C14_test_doubles_return_configuration {} { LogicalLoadMetrics := { Level := 7 } } [] [] []
      [] [] 0 {} {}).2.2.1 rfl).2.2.1,
   ((C14_test_doubles_return_configuration {} { Error := some sampleError } [] [] [] [] [] 5
      {} {}).2.2.2 sampleError rfl).1⟩

/-- C15, what the code does where the claim fails: with the context never
cancelled, `TestLightpadHeartbeat.Listen` sends its announcement once and
never again, however many times the ticker fires: after 2 ticks, and after
1000, one announcement has been sent, not 2. -/
theorem C15_test_heartbeat_sends_once :
    (∀ (t : TestLightpadHeartbeat) (doneFirst : Bool) (ticks : Nat),
      (t.Listen doneFirst ticks).length ≤ 1) ∧
    TestLightpadHeartbeat.Listen ⟨sampleAnnouncement⟩ false 2 = [sampleAnnouncement] ∧
    TestLightpadHeartbeat.Listen ⟨sampleAnnouncement⟩ false 1000 = [sampleAnnouncement] := by
  refine ⟨?_, by decide, by decide⟩
  intro t doneFirst ticks
  unfold TestLightpadHeartbeat.Listen
  split_ifs <;> simp

/-- C16: when the HTTP exchange yields a response whose status code is not
200, each of `GetHouses`, `GetHouse`, `GetScenes`, `GetScene`, `GetRoom`,
`GetLogicalLoad` and `GetLightpad` returns the zero value and the non-nil
error `failed to reach Plum: status <Status>`; the body and the decoder are not
looked at. -/
theorem C16_status_not_200_is_error (c : defaultWebConnection) (resp : Response)
    (h : resp.StatusCode ≠ 200) (arg : List Char) (decIDs : Decoder IDs)
    (decHouse : Decoder House) (decScene : Decoder Scene) (decRoom : Decoder Room)
    (decLoad : Decoder LogicalLoad) (decPad : Decoder LightpadSpec) :
    c.GetHouses (fun _ => RoundTrip.response resp) decIDs = (none, some (errReachPlum resp)) ∧
    c.GetHouse (fun _ => RoundTrip.response resp) decHouse arg =
      ({}, some (errReachPlum resp)) ∧
    c.GetScenes (fun _ => RoundTrip.response resp) decIDs arg =
      (none, some (errReachPlum resp)) ∧
    c.GetScene (fun _ => RoundTrip.response resp) decScene arg =
      ({}, some (errReachPlum resp)) ∧
    c.GetRoom (fun _ => RoundTrip.response resp) decRoom arg = ({}, some (errReachPlum resp)) ∧
    c.GetLogicalLoad (fun _ => RoundTrip.response resp) decLoad arg =
      ({}, some (errReachPlum resp)) ∧
    c.GetLightpad (fun _ => RoundTrip.response resp) decPad arg =
      ({}, some (errReachPlum resp)) := by
  have h' : resp.StatusCode ≠ StatusOK := h
  simp [defaultWebConnection.GetHouses, defaultWebConnection.GetHouse,
    defaultWebConnection.GetScenes, defaultWebConnection.GetScene,
    defaultWebConnection.GetRoom, defaultWebConnection.GetLogicalLoad,
    defaultWebConnection.GetLightpad, defaultWebConnection.makePlumWebGETRequest,
    defaultWebConnection.makePlumWebPOSTRequest, h']

/-- C16, the case of the tests: status 401. -/
theorem C16_status_not_200_is_error_witness :
    defaultWebConnection.GetHouses {} (fun _ => RoundTrip.response response401) decodeIDs =
      (none, some (ErrorValue.errorf "failed to reach Plum: status 401 Unauthorized".toList)) ∧
    defaultWebConnection.GetRoom {} (fun _ => RoundTrip.response response401) decodeRoom
        "roomid1".toList =
      ({}, some (ErrorValue.errorf "failed to reach Plum: status 401 Unauthorized".toList)) :=
  ⟨(C16_status_not_200_is_error {} response401 (by decide) [] decodeIDs sampleHouseDecoder
      (fun _ s => (s, none)) decodeRoom decodeLogicalLoad samplePadDecoder).1,
   (C16_status_not_200_is_error {} response401 (by decide) "roomid1".toList decodeIDs
      sampleHouseDecoder (fun _ s => (s, none)) decodeRoom decodeLogicalLoad
      samplePadDecoder).2.2.2.2.1⟩

/-- C17, as amended: for every level and every lightpad whose `LLID` holds
only characters that `json.Marshal` writes as they are, `SetLogicalLoadLevel`
hands the HTTP stack one request, a POST to the lightpad at the path
`/v2/setLogicalLoadLevel` with the body `{"level":<level>,"llid":"<LLID>"}`;
and when the lightpad answers, the error returned is `nil` exactly when the
status is 204. -/
theorem C17_set_level_request (l : DefaultLightpad) (exchange : Exchange) (level : Int)
    (h : ∀ c ∈ l.LLID, marshalSafe c = true) :
    (l.SetLogicalLoadLevel exchange level).1 =
      [{ Method := "POST".toList, Endpoint := Endpoint.pad l.IP l.Port,
         Path := pathSetLogicalLoadLevel, Body := some (levelBody level l.LLID) }] ∧
    ∀ resp : Response,
      exchange { Method := "POST".toList, Endpoint := Endpoint.pad l.IP l.Port,
                 Path := pathSetLogicalLoadLevel, Body := some (levelBody level l.LLID) } =
        RoundTrip.response resp →
      ((l.SetLogicalLoadLevel exchange level).2 = none ↔ resp.StatusCode = 204) := by
  have hb := marshalLevel_safe level l.LLID h
  constructor
  · simp only [DefaultLightpad.SetLogicalLoadLevel, DefaultLightpad.makePadPOSTRequest, hb]
    split
    · next heq => injection heq with h1 _; rw [← h1]
    · next heq =>
      injection heq with h1 _
      split <;> rw [← h1]
  · intro resp hx
    simp only [DefaultLightpad.SetLogicalLoadLevel, DefaultLightpad.makePadPOSTRequest, hb, hx]
    by_cases hs : resp.StatusCode = 204
    · simp [hs, StatusNoContent]
    · simp [hs, StatusNoContent]

/-- C17, the case of `TestSetLogicalLoadLevel`: level 123 and the LLID
`load-uuid` give the body `{"level":123,"llid":"load-uuid"}`; the answer 204
gives no error, the answer 401 an error. -/
theorem C17_set_level_request_witness :
    levelBody 123 "load-uuid".toList =
      "\x7b\"level\":123,\"llid\":\"load-uuid\"\x7d".toList ∧
    samplePad.SetLogicalLoadLevel (fun _ => RoundTrip.response response204) 123 =
      ([{ Method := "POST".toList, Endpoint := Endpoint.pad [127, 0, 0, 1] 8443,
          Path := "/v2/setLogicalLoadLevel".toList,
          Body := some "\x7b\"level\":123,\"llid\":\"load-uuid\"\x7d".toList }], none) ∧
    ((samplePad.SetLogicalLoadLevel (fun _ => RoundTrip.response response204) 123).2 = none ↔
      response204.StatusCode = 204) ∧
    (samplePad.SetLogicalLoadLevel (fun _ => RoundTrip.response response401) 123).2 =
      some (ErrorValue.errorf "failed to set load level: status 401 Unauthorized".toList) :=
  ⟨by decide, by decide,
   (C17_set_level_request samplePad (fun _ => RoundTrip.response response204) 123
      (by decide)).2 response204 rfl,
   by decide⟩

/-- C17 fails as stated: the LLID `a<b` holds no quote, no backslash and no
control character, so that JSON asks for no escape, yet `json.Marshal` writes
its `<` as the escape `u003c` after a backslash: the body of the request is
not `{"level":1,"llid":"a<b"}`. -/
theorem C17_counterexample_html_escape :
    (∀ c ∈ "a<b".toList, plainChar c = true) ∧
    (DefaultLightpad.SetLogicalLoadLevel { LLID := "a<b".toList }
        (fun _ => RoundTrip.response response204) 1).1.map Request.Body =
      [some "\x7b\"level\":1,\"llid\":\"a\\u003cb\"\x7d".toList] ∧
    "\x7b\"level\":1,\"llid\":\"a\\u003cb\"\x7d".toList ≠ levelBody 1 "a<b".toList ∧
    levelBody 1 "a<b".toList = "\x7b\"level\":1,\"llid\":\"a<b\"\x7d".toList := by
  decide

/-- C18: `Equals` never panics on an index, it answers true exactly when the
two lists have the same length and the same string at every index, so that the
`nil` list equals the empty one, and it is reflexive, symmetric and
transitive. -/
theorem C18_equals_is_an_equivalence (a b c : IDs) :
    (∃ r : Bool, IDs.Equals a b = some r) ∧
    (IDs.Equals a b = some true ↔
      Slice.len a = Slice.len b ∧
        ∀ i, i < Slice.len a → (Slice.elems a).get? i = (Slice.elems b).get? i) ∧
    IDs.Equals none (some []) = some true ∧ IDs.Equals (some []) none = some true ∧
    IDs.Equals a a = some true ∧
    IDs.Equals a b = IDs.Equals b a ∧
    (IDs.Equals a b = some true → IDs.Equals b c = some true → IDs.Equals a c = some true) := by
  have hlen : ∀ s : IDs, Slice.len s = (Slice.elems s).length := by
    intro s; cases s <;> rfl
  refine ⟨⟨_, IDs.Equals_eq a b⟩, ?_, by decide, by decide, ?_, ?_, ?_⟩
  · rw [IDs.Equals_eq, hlen, hlen]
    simp only [Option.some.injEq, decide_eq_true_eq]
    constructor
    · intro h; rw [h]; exact ⟨rfl, fun _ _ => rfl⟩
    · rintro ⟨h1, h2⟩
      apply List.ext_get?
      intro i
      by_cases hi : i < (Slice.elems a).length
      · exact h2 i hi
      · rw [List.get?_eq_none.2 (by omega), List.get?_eq_none.2 (by omega)]
  · rw [IDs.Equals_eq]; simp
  · rw [IDs.Equals_eq, IDs.Equals_eq]
    congr 1
    exact decide_eq_decide.2 ⟨Eq.symm, Eq.symm⟩
  · rw [IDs.Equals_eq, IDs.Equals_eq, IDs.Equals_eq]
    simp only [Option.some.injEq, decide_eq_true_eq]
    exact Eq.trans

/-- C19: on a 200 response whose body decodes without error, `GetHouse`,
`GetRoom` and `GetLogicalLoad` return the decoded record with its ID list
(`RoomIDs`, `LLIDs`, `LPIDs`) sorted in ascending order, a permutation of the
decoded list; and the sorted lists of two ID lists that are permutations of
each other are equal for `IDs.Equals`. -/
theorem C19_id_lists_are_sorted (c : defaultWebConnection) :
    (∀ (dec : Decoder House) (resp : Response) (hid : List Char) (house : House),
      resp.StatusCode = 200 → dec resp.Body {} = (house, none) →
      c.GetHouse (fun _ => RoundTrip.response resp) dec hid =
        ({ house with RoomIDs := sortStrings house.RoomIDs }, none) ∧
      List.Sorted (· ≤ ·) (Slice.elems (sortStrings house.RoomIDs)) ∧
      List.Perm (Slice.elems (sortStrings house.RoomIDs)) (Slice.elems house.RoomIDs)) ∧
    (∀ (dec : Decoder Room) (resp : Response) (rid : List Char) (room : Room),
      resp.StatusCode = 200 → dec resp.Body {} = (room, none) →
      c.GetRoom (fun _ => RoundTrip.response resp) dec rid =
        ({ room with LLIDs := sortStrings room.LLIDs }, none) ∧
      List.Sorted (· ≤ ·) (Slice.elems (sortStrings room.LLIDs)) ∧
      List.Perm (Slice.elems (sortStrings room.LLIDs)) (Slice.elems room.LLIDs)) ∧
    (∀ (dec : Decoder LogicalLoad) (resp : Response) (llid : List Char) (ll : LogicalLoad),
      resp.StatusCode = 200 → dec resp.Body {} = (ll, none) →
      c.GetLogicalLoad (fun _ => RoundTrip.response resp) dec llid =
        ({ ll with LPIDs := sortStrings ll.LPIDs }, none) ∧
      List.Sorted (· ≤ ·) (Slice.elems (sortStrings ll.LPIDs)) ∧
      List.Perm (Slice.elems (sortStrings ll.LPIDs)) (Slice.elems ll.LPIDs)) ∧
    (∀ ids1 ids2 : IDs, List.Perm (Slice.elems ids1) (Slice.elems ids2) →
      IDs.Equals (sortStrings ids1) (sortStrings ids2) = some true) := by
  refine ⟨?_, ?_, ?_, ?_⟩
  · intro dec resp hid house hs hd
    have hs' : ¬ resp.StatusCode ≠ StatusOK := by simpa [StatusOK] using hs
    exact ⟨by simp [defaultWebConnection.GetHouse, defaultWebConnection.makePlumWebPOSTRequest,
      hs', hd], sortStrings_sorted _, sortStrings_perm _⟩
  · intro dec resp rid room hs hd
    have hs' : ¬ resp.StatusCode ≠ StatusOK := by simpa [StatusOK] using hs
    exact ⟨by simp [defaultWebConnection.GetRoom, defaultWebConnection.makePlumWebPOSTRequest,
      hs', hd], sortStrings_sorted _, sortStrings_perm _⟩
  · intro dec resp llid ll hs hd
    have hs' : ¬ resp.StatusCode ≠ StatusOK := by simpa [StatusOK] using hs
    exact ⟨by simp [defaultWebConnection.GetLogicalLoad,
      defaultWebConnection.makePlumWebPOSTRequest, hs', hd], sortStrings_sorted _,
      sortStrings_perm _⟩
  · intro ids1 ids2 hp
    rw [IDs.Equals_eq, sortStrings_eq_of_perm ids1 ids2 hp]
    simp

/-- C19, on bodies decoded by the model of `encoding/json`: the room
`{"rid":"roomid1","llids":["load-b","load-a"]}` comes back with the list
`load-a`, `load-b`; the same room with its IDs in the other order gives a list
that `Equals` reports equal; the house and the logical load come back
sorted. -/
theorem C19_id_lists_are_sorted_witness :
    defaultWebConnection.GetRoom {} (fun _ => RoundTrip.response (response200 bodyRoomBA))
        decodeRoom "roomid1".toList =
      ({ ID := "roomid1".toList, LLIDs := some ["load-a".toList, "load-b".toList] }, none) ∧
    IDs.Equals
        (defaultWebConnection.GetRoom {} (fun _ => RoundTrip.response (response200 bodyRoomBA))
          decodeRoom "roomid1".toList).1.LLIDs
        (defaultWebConnection.GetRoom {} (fun _ => RoundTrip.response (response200 bodyRoomAB))
          decodeRoom "roomid1".toList).1.LLIDs = some true ∧
    (defaultWebConnection.GetHouse {} (fun _ => RoundTrip.response (response200 []))
        sampleHouseDecoder "sending-houseid1".toList).1.RoomIDs =
      some ["roomid1".toList, "roomid2".toList, "roomid3".toList] ∧
    (defaultWebConnection.GetLogicalLoad {} (fun _ => RoundTrip.response (response200 bodyLoad))
        decodeLogicalLoad "loadid1".toList).1.LPIDs =
      some ["pad1".toList, "pad2".toList] :=
  ⟨((C19_id_lists_are_sorted {}).2.1 decodeRoom (response200 bodyRoomBA) "roomid1".toList
      { ID := "roomid1".toList, LLIDs := some ["load-b".toList, "load-a".toList] }
      rfl (by decide)).1,
   by decide, by decide, by decide⟩

/-- C20: on a 200 response whose body decodes without error, `GetLightpad`
returns the decoded record with its `ID` replaced by the `lpid` asked for,
whatever `lpid` the body holds; the other fields are the decoded ones. -/
theorem C20_lightpad_id_is_the_requested (c : defaultWebConnection)
    (dec : Decoder LightpadSpec) (resp : Response) (lpid : List Char) (lp : LightpadSpec)
    (hs : resp.StatusCode = 200) (hd : dec resp.Body {} = (lp, none)) :
    c.GetLightpad (fun _ => RoundTrip.response resp) dec lpid = ({ lp with ID := lpid }, none) ∧
    (c.GetLightpad (fun _ => RoundTrip.response resp) dec lpid).1.ID = lpid := by
  have hs' : ¬ resp.StatusCode ≠ StatusOK := by simpa [StatusOK] using hs
  simp [defaultWebConnection.GetLightpad, defaultWebConnection.makePlumWebPOSTRequest, hs', hd]

/-- C20, the case of `TestGetLightpad`: asked for `pad-id`, with a body whose
`lpid` is `pad-uuid`, the result has the ID `pad-id` and the decoded LLID and
name. -/
theorem C20_lightpad_id_is_the_requested_witness :
    (samplePadDecoder [] {}).1.ID = "pad-uuid".toList ∧
    (defaultWebConnection.GetLightpad {} (fun _ => RoundTrip.response (response200 []))
        samplePadDecoder "pad-id".toList =
      ({ (samplePadDecoder [] {}).1 with ID := "pad-id".toList }, none) ∧
     (defaultWebConnection.GetLightpad {} (fun _ => RoundTrip.response (response200 []))
        samplePadDecoder "pad-id".toList).1.ID = "pad-id".toList) :=
  ⟨by decide,
   C20_lightpad_id_is_the_requested {} samplePadDecoder (response200 []) "pad-id".toList
     (samplePadDecoder [] {}).1 rfl rfl⟩

end Libplumraw
